import Mathlib

/-!
# Frame reassembly engine: PercivalEmulatorFrameDecoder

Shallow embedding of `src/src/PercivalEmulatorFrameDecoder.cpp`.

The decoder object is a record of its member variables.  The shared frame
buffers reached through `buffer_manager_->get_buffer_address(id)` are a total
map from buffer id to the frame header stored at the start of that buffer; the
payload bytes behind the header are not modelled.  A pointer into buffer
memory is a `BufRef`; dereferencing the null pointer makes an operation return
`none`.  Calls of `ready_callback_` are recorded, in order, in `ready_calls`.
Logging is omitted.
-/

set_option linter.unusedVariables false

namespace FrameReceiver

/-- One byte (`uint8_t`). -/
abbrev Byte := Fin 256

/-- The C `struct timespec`. -/
structure Timespec where
  tv_sec : Int
  tv_nsec : Int
deriving DecidableEq, Repr

/-- The values of `FrameDecoder::FrameReceiveState` used by the decoder. -/
inductive FrameReceiveState where
  | Incomplete
  | Complete
  | Timedout
deriving DecidableEq, Repr

/-- The `FrameHeader` at the start of every frame buffer.  `packet_state` is
the array `packet_state[type][subframe][packet_number]`, indexed here by the
three indices (the array bounds are declared in the absent header file, so the
indices are taken to be in range). -/
structure FrameHeader where
  frame_number : Nat
  frame_state : FrameReceiveState
  frame_start_time : Timespec
  packets_received : Nat
  packet_state : Nat → Nat → Nat → Nat

/-- Constants of `PercivalEmulatorFrameDecoder.h`, a file that is not part of
the sources at hand; they are parameters of the model.  `little_endian` is the
byte order of the host, which decides what `ntohs` and `ntohl` do. -/
structure Constants where
  PacketTypeSample : Nat
  packet_header_size : Nat
  frame_header_size : Nat
  primary_packet_size : Nat
  num_primary_packets : Nat
  tail_packet_size : Nat
  subframe_size : Nat
  data_type_size : Nat
  total_frame_size : Nat
  num_frame_packets : Nat
  little_endian : Bool

/-- A pointer to the start of a frame buffer: null, the decoder's own
`dropped_frame_buffer_`, or the shared buffer with the given id. -/
inductive BufRef where
  | null
  | dropped
  | pool (id : Int)
deriving DecidableEq, Repr

/-- The member variables of `PercivalEmulatorFrameDecoder` (and of its base
class `FrameDecoder`), the frame headers in buffer memory, and the record of
`ready_callback_` invocations `(buffer_id, frame_number)`.
`current_frame_seen_` is compared with and assigned from the `uint32_t` frame
number and is the key into the map, so it holds a 32-bit unsigned value; its
initial and reset value `-1` is `2^32 - 1`.  `frame_buffer_map_` is the
`std::map<uint32_t, int>` as its list of entries in key order. -/
structure PercivalEmulatorFrameDecoder where
  current_packet_header_ : List Byte
  dropped_frame_buffer_ : FrameHeader
  current_frame_seen_ : Nat
  current_frame_buffer_id_ : Int
  current_frame_buffer_ : BufRef
  current_frame_header_ : BufRef
  dropping_frame_data_ : Bool
  frame_timeout_ms_ : Nat
  frames_timedout_ : Nat
  empty_buffer_queue_ : List Int
  frame_buffer_map_ : List (Nat × Int)
  buffers : Int → FrameHeader
  ready_calls : List (Int × Nat)

/-- The value `-1` converted to `uint32_t`. -/
def minus_one_u32 : Nat := 2 ^ 32 - 1

/-! ## std::map operations on the entry list -/

/-- Member `count` of the map: 1 when the key is present, else 0. -/
def map_count (m : List (Nat × Int)) (k : Nat) : Nat :=
  if m.any (fun e => e.1 == k) then 1 else 0

/-- Read of `m[k]` for a key that is present (0, the value-initialised `int`,
otherwise). -/
def map_at (m : List (Nat × Int)) (k : Nat) : Int :=
  match m.find? (fun e => e.1 == k) with
  | some e => e.2
  | none => 0

/-- Assignment `m[k] = v`: replaces the value of an existing key, or inserts
the entry at its place in key order. -/
def map_assign : List (Nat × Int) → Nat → Int → List (Nat × Int)
  | [], k, v => [(k, v)]
  | (k0, v0) :: rest, k, v =>
    if k < k0 then (k, v) :: (k0, v0) :: rest
    else if k = k0 then (k, v) :: rest
    else (k0, v0) :: map_assign rest k v

/-- Member `erase(key)` of the map. -/
def map_erase (m : List (Nat × Int)) (k : Nat) : List (Nat × Int) :=
  m.filter (fun e => !(e.1 == k))

/-! ## Access to frame headers through a pointer -/

/-- Read of the frame header a pointer refers to. -/
def read_header (s : PercivalEmulatorFrameDecoder) : BufRef → Option FrameHeader
  | .null => none
  | .dropped => some s.dropped_frame_buffer_
  | .pool id => some (s.buffers id)

/-- Store of a frame header through a pointer. -/
def write_header (s : PercivalEmulatorFrameDecoder) (p : BufRef) (h : FrameHeader) :
    Option PercivalEmulatorFrameDecoder :=
  match p with
  | .null => none
  | .dropped => some { s with dropped_frame_buffer_ := h }
  | .pool id => some { s with buffers := fun j => if j = id then h else s.buffers j }

/-- Read-modify-write of the frame header a pointer refers to. -/
def modify_header (s : PercivalEmulatorFrameDecoder) (p : BufRef) (f : FrameHeader → FrameHeader) :
    Option PercivalEmulatorFrameDecoder :=
  match read_header s p with
  | none => none
  | some h => write_header s p (f h)

/-! ## Packet header field access -/

/-- The byte at `raw_packet_header() + i`. -/
def raw_packet_header (s : PercivalEmulatorFrameDecoder) (i : Nat) : Nat :=
  (s.current_packet_header_.getD i 0).val

/-- Load of a `uint16_t` from two consecutive bytes in host byte order. -/
def load_u16 (little_endian : Bool) (b0 b1 : Nat) : Nat :=
  if little_endian then b0 + 2 ^ 8 * b1 else 2 ^ 8 * b0 + b1

/-- Load of a `uint32_t` from four consecutive bytes in host byte order. -/
def load_u32 (little_endian : Bool) (b0 b1 b2 b3 : Nat) : Nat :=
  if little_endian then b0 + 2 ^ 8 * b1 + 2 ^ 16 * b2 + 2 ^ 24 * b3
  else 2 ^ 24 * b0 + 2 ^ 16 * b1 + 2 ^ 8 * b2 + b3

/-- Network to host byte order, 16 bit: a byte swap on a little-endian host. -/
def ntohs (little_endian : Bool) (x : Nat) : Nat :=
  if little_endian then (x % 2 ^ 8) * 2 ^ 8 + (x / 2 ^ 8) % 2 ^ 8 else x

/-- Network to host byte order, 32 bit: a byte swap on a little-endian host. -/
def ntohl (little_endian : Bool) (x : Nat) : Nat :=
  if little_endian then
    (x % 2 ^ 8) * 2 ^ 24 + ((x / 2 ^ 8) % 2 ^ 8) * 2 ^ 16
      + ((x / 2 ^ 16) % 2 ^ 8) * 2 ^ 8 + (x / 2 ^ 24) % 2 ^ 8
  else x

def get_packet_type (s : PercivalEmulatorFrameDecoder) : Nat :=
  raw_packet_header s 0

def get_subframe_number (s : PercivalEmulatorFrameDecoder) : Nat :=
  raw_packet_header s 1

def get_packet_number (c : Constants) (s : PercivalEmulatorFrameDecoder) : Nat :=
  let packet_number_raw := load_u16 c.little_endian (raw_packet_header s 6) (raw_packet_header s 7)
  ntohs c.little_endian packet_number_raw

def get_frame_number (c : Constants) (s : PercivalEmulatorFrameDecoder) : Nat :=
  let frame_number_raw := load_u32 c.little_endian (raw_packet_header s 2) (raw_packet_header s 3)
    (raw_packet_header s 4) (raw_packet_header s 5)
  ntohl c.little_endian frame_number_raw

/-! ## Time -/

/-- The number of halvings that take `n` below 2, with at most `fuel` steps. -/
def floor_log2_from : Nat → Nat → Nat
  | 0, _ => 0
  | fuel + 1, n => if 2 ≤ n then floor_log2_from fuel (n / 2) + 1 else 0

/-- The position of the leading bit of `n`: the `k` with 2^k ≤ n < 2^(k+1),
for `n` other than 0. -/
def floor_log2 (n : Nat) : Nat := floor_log2_from n n

/-- Rounding to `double`: for the positive rational `n / d` the pair `(m, e)`
with `m * 2^e` the nearest number of 53 significant bits, a tie going to the
even `m` (IEEE 754 binary64, round to nearest even; the numbers met here are
far from the overflow and underflow thresholds). -/
def nearest_double (n d : Nat) : Nat × Int :=
  let k : Int := (floor_log2 n : Int) - (floor_log2 d : Int)
  let leading : Int := if d * 2 ^ k.toNat ≤ n * 2 ^ (-k).toNat then k else k - 1
  let e : Int := leading - 52
  let num := n * 2 ^ (-e).toNat
  let den := d * 2 ^ e.toNat
  let q := num / den
  let rem := num % den
  let m := if 2 * rem > den ∨ (2 * rem = den ∧ q % 2 = 1) then q + 1 else q
  (m, e)

/-- The whole part of the `double` nearest to `x / d`, for an integer `x` and
a positive `d`: what the conversion of that `double` to an integer type gives
(truncation towards zero). -/
def double_quotient_trunc (x : Int) (d : Nat) : Int :=
  if x = 0 then 0
  else
    let r := nearest_double x.natAbs d
    x.sign * ((r.1 * 2 ^ r.2.toNat / 2 ^ (-r.2).toNat : Nat) : Int)

/-- The `double` nearest to the integer `x`; it is an integer. -/
def double_of_int (x : Int) : Int := double_quotient_trunc x 1

/-- The function `elapsed_ms`.  The arithmetic is that of the source, in
`double`: each of `(double)tv_sec`, the product with 1000000000, the converted
`tv_nsec`, the sum, the difference and the quotient by 1000000 is rounded to
the nearest `double`; sums, products and differences of integers round to
integers.  The conversion of the quotient to `unsigned int` truncates towards
zero; for a quotient outside the range of `unsigned int`, where C leaves the
conversion undefined, the value is taken modulo 2^32. -/
def elapsed_ms (start end_ : Timespec) : Nat :=
  let start_ns := double_of_int
    (double_of_int (double_of_int start.tv_sec * 1000000000) + double_of_int start.tv_nsec)
  let end_ns := double_of_int
    (double_of_int (double_of_int end_.tv_sec * 1000000000) + double_of_int end_.tv_nsec)
  ((double_quotient_trunc (double_of_int (end_ns - start_ns)) 1000000) % 2 ^ 32).toNat

/-! ## The decoder operations -/

/-- The constructor.  The contents of the freshly allocated packet header
buffer and drop buffer, the shared buffers and the queue of empty buffers
handed over by the buffer manager are arguments. -/
def PercivalEmulatorFrameDecoder.new (frame_timeout_ms : Nat) (packet_header : List Byte)
    (dropped : FrameHeader) (buffers : Int → FrameHeader) (empty_buffers : List Int) :
    PercivalEmulatorFrameDecoder :=
  { current_packet_header_ := packet_header
    dropped_frame_buffer_ := dropped
    current_frame_seen_ := minus_one_u32
    current_frame_buffer_id_ := -1
    current_frame_buffer_ := .null
    current_frame_header_ := .null
    dropping_frame_data_ := false
    frame_timeout_ms_ := frame_timeout_ms
    frames_timedout_ := 0
    empty_buffer_queue_ := empty_buffers
    frame_buffer_map_ := []
    buffers := buffers
    ready_calls := [] }

/-- The receive of a packet header into `get_packet_header_buffer()`. -/
def receive_header (s : PercivalEmulatorFrameDecoder) (hdr : List Byte) :
    PercivalEmulatorFrameDecoder :=
  { s with current_packet_header_ := hdr }

/-- The method `process_packet_header`.  `now` is the time that `gettime`
reads; the arguments `port` and `from_addr` only feed the log. -/
def process_packet_header (c : Constants) (s : PercivalEmulatorFrameDecoder)
    (bytes_received : Nat) (now : Timespec) : Option PercivalEmulatorFrameDecoder :=
  let frame0 := get_frame_number c s
  let packet_number := get_packet_number c s
  let subframe := get_subframe_number s
  let type := get_packet_type s
  let frame := if type = c.PacketTypeSample then (frame0 + 1) % 2 ^ 32 else frame0
  let bound : Option PercivalEmulatorFrameDecoder :=
    if frame ≠ s.current_frame_seen_ then
      let s1 := { s with current_frame_seen_ := frame }
      if map_count s1.frame_buffer_map_ s1.current_frame_seen_ = 0 then
        let s2 : PercivalEmulatorFrameDecoder :=
          match s1.empty_buffer_queue_ with
          | [] =>
            let s2 := { s1 with current_frame_buffer_ := .dropped }
            if !s2.dropping_frame_data_ then { s2 with dropping_frame_data_ := true } else s2
          | front :: rest =>
            let s2 := { s1 with current_frame_buffer_id_ := front }
            let s2 := { s2 with empty_buffer_queue_ := rest }
            let m := map_assign s2.frame_buffer_map_ s2.current_frame_seen_ s2.current_frame_buffer_id_
            let s2 := { s2 with frame_buffer_map_ := m }
            let s2 := { s2 with current_frame_buffer_ := .pool s2.current_frame_buffer_id_ }
            if !s2.dropping_frame_data_ then s2 else { s2 with dropping_frame_data_ := false }
        let s3 := { s2 with current_frame_header_ := s2.current_frame_buffer_ }
        modify_header s3 s3.current_frame_header_ (fun h =>
          { h with
            frame_number := s3.current_frame_seen_,
            frame_state := FrameReceiveState.Incomplete,
            packets_received := 0,
            frame_start_time := now })
      else
        let s2 := { s1 with current_frame_buffer_id_ := map_at s1.frame_buffer_map_ s1.current_frame_seen_ }
        let s2 := { s2 with current_frame_buffer_ := .pool s2.current_frame_buffer_id_ }
        some { s2 with current_frame_header_ := s2.current_frame_buffer_ }
    else some s
  match bound with
  | none => none
  | some s4 =>
    modify_header s4 s4.current_frame_header_ (fun h =>
      { h with packet_state := fun t sf p =>
          if t = type ∧ sf = subframe ∧ p = packet_number then 1 else h.packet_state t sf p })

/-- The method `get_next_payload_buffer`: the buffer the payload goes to and
the offset of `next_receive_location` from the start of that buffer. -/
def get_next_payload_buffer (c : Constants) (s : PercivalEmulatorFrameDecoder) : BufRef × Nat :=
  (s.current_frame_buffer_,
    c.frame_header_size
      + c.data_type_size * get_packet_type s
      + c.subframe_size * get_subframe_number s
      + c.primary_packet_size * get_packet_number c s)

/-- The method `get_next_payload_size`. -/
def get_next_payload_size (c : Constants) (s : PercivalEmulatorFrameDecoder) : Nat :=
  if get_packet_number c s < c.num_primary_packets then c.primary_packet_size
  else c.tail_packet_size

/-- The method `process_packet`: the returned state and the decoder after the
call. -/
def process_packet (c : Constants) (s : PercivalEmulatorFrameDecoder) (bytes_received : Nat) :
    Option (FrameReceiveState × PercivalEmulatorFrameDecoder) :=
  let frame_state := FrameReceiveState.Incomplete
  match modify_header s s.current_frame_header_
      (fun h => { h with packets_received := (h.packets_received + 1) % 2 ^ 32 }) with
  | none => none
  | some s1 =>
    match read_header s1 s1.current_frame_header_ with
    | none => none
    | some h1 =>
      if h1.packets_received = c.num_frame_packets then
        let frame_state := FrameReceiveState.Complete
        match modify_header s1 s1.current_frame_header_
            (fun h => { h with frame_state := frame_state }) with
        | none => none
        | some s2 =>
          if !s2.dropping_frame_data_ then
            let s3 := { s2 with frame_buffer_map_ := map_erase s2.frame_buffer_map_ s2.current_frame_seen_ }
            let calls := s3.ready_calls ++ [(s3.current_frame_buffer_id_, s3.current_frame_seen_)]
            let s3 := { s3 with ready_calls := calls }
            let s3 := { s3 with current_frame_seen_ := minus_one_u32 }
            some (frame_state, s3)
          else some (frame_state, s2)
      else some (frame_state, s1)

/-- The loop of `monitor_buffers` over the map entries from the iterator
position on: the entries that stay, the buffer memory and the `ready_callback_`
invocations made, in order. -/
def monitor_loop (frame_timeout_ms : Nat) (current_time : Timespec) :
    List (Nat × Int) → (Int → FrameHeader) →
      List (Nat × Int) × (Int → FrameHeader) × List (Int × Nat)
  | [], buffers => ([], buffers, [])
  | (frame_num, buffer_id) :: rest, buffers =>
    let frame_header := buffers buffer_id
    if elapsed_ms frame_header.frame_start_time current_time > frame_timeout_ms then
      let buffers1 : Int → FrameHeader := fun j =>
        if j = buffer_id then { frame_header with frame_state := FrameReceiveState.Timedout }
        else buffers j
      let r := monitor_loop frame_timeout_ms current_time rest buffers1
      (r.1, r.2.1, (buffer_id, frame_num) :: r.2.2)
    else
      let r := monitor_loop frame_timeout_ms current_time rest buffers
      ((frame_num, buffer_id) :: r.1, r.2.1, r.2.2)

/-- The method `monitor_buffers`; `current_time` is the time that `gettime`
reads. -/
def monitor_buffers (s : PercivalEmulatorFrameDecoder) (current_time : Timespec) :
    PercivalEmulatorFrameDecoder :=
  let r := monitor_loop s.frame_timeout_ms_ current_time s.frame_buffer_map_ s.buffers
  let frames_timedout := r.2.2.length
  { s with
    frame_buffer_map_ := r.1,
    buffers := r.2.1,
    ready_calls := s.ready_calls ++ r.2.2,
    frames_timedout_ := s.frames_timedout_ + frames_timedout }

/-! ## Sequences of calls -/

/-- The frame number `process_packet_header` works with: the decoded frame
number, incremented as a `uint32_t` for a packet of type sample. -/
def effective_frame (c : Constants) (s : PercivalEmulatorFrameDecoder) : Nat :=
  if get_packet_type s = c.PacketTypeSample then (get_frame_number c s + 1) % 2 ^ 32
  else get_frame_number c s

/-- One received packet: the header is received into the packet header buffer,
`process_packet_header` runs, the payload is received and `process_packet`
runs. -/
def on_packet (c : Constants) (s : PercivalEmulatorFrameDecoder) (hdr : List Byte)
    (now : Timespec) : Option (FrameReceiveState × PercivalEmulatorFrameDecoder) :=
  match process_packet_header c (receive_header s hdr) hdr.length now with
  | none => none
  | some s1 => process_packet c s1 (get_next_payload_size c s1)

/-- A sequence of received packets, each with the time of its arrival. -/
def run_packets (c : Constants) :
    PercivalEmulatorFrameDecoder → List (List Byte × Timespec) → Option PercivalEmulatorFrameDecoder
  | s, [] => some s
  | s, p :: ps =>
    match on_packet c s p.1 p.2 with
    | none => none
    | some r => run_packets c r.2 ps

/-- A call of one of the three operations of the decoder. -/
inductive Op where
  | header (hdr : List Byte) (bytes_received : Nat) (now : Timespec)
  | payload (bytes_received : Nat)
  | tick (now : Timespec)

/-- The decoder after one call. -/
def step (c : Constants) (s : PercivalEmulatorFrameDecoder) : Op → Option PercivalEmulatorFrameDecoder
  | .header hdr bytes_received now => process_packet_header c (receive_header s hdr) bytes_received now
  | .payload bytes_received => (process_packet c s bytes_received).map Prod.snd
  | .tick now => some (monitor_buffers s now)

/-- The decoder after a sequence of calls. -/
def run_ops (c : Constants) : PercivalEmulatorFrameDecoder → List Op → Option PercivalEmulatorFrameDecoder
  | s, [] => some s
  | s, o :: os =>
    match step c s o with
    | none => none
    | some s1 => run_ops c s1 os

/-! ## Concrete data -/

/-- A frame header of zero bytes. -/
def blank_frame_header : FrameHeader :=
  { frame_number := 0, frame_state := FrameReceiveState.Incomplete,
    frame_start_time := { tv_sec := 0, tv_nsec := 0 }, packets_received := 0,
    packet_state := fun _ _ _ => 0 }

/-- Constants with two primary packets and three packets per frame, on a
little-endian host. -/
def example_constants : Constants :=
  { PacketTypeSample := 0, packet_header_size := 22, frame_header_size := 1024,
    primary_packet_size := 8192, num_primary_packets := 2, tail_packet_size := 512,
    subframe_size := 16896, data_type_size := 33792, total_frame_size := 68608,
    num_frame_packets := 3, little_endian := true }

/-- The 22 bytes of a packet header on the wire. -/
def wire_header (type subframe frame packet : Nat) : List Byte :=
  [Fin.ofNat type, Fin.ofNat subframe,
    Fin.ofNat (frame / 2 ^ 24), Fin.ofNat (frame / 2 ^ 16), Fin.ofNat (frame / 2 ^ 8),
    Fin.ofNat frame, Fin.ofNat (packet / 2 ^ 8), Fin.ofNat packet] ++ List.replicate 14 0

/-- Time zero. -/
def time_zero : Timespec := { tv_sec := 0, tv_nsec := 0 }

/-- A freshly constructed decoder with timeout 1000 ms over blank buffers and
the given queue of empty buffers. -/
def fresh_decoder (empty_buffers : List Int) : PercivalEmulatorFrameDecoder :=
  PercivalEmulatorFrameDecoder.new 1000 (List.replicate 22 0) blank_frame_header
    (fun _ => blank_frame_header) empty_buffers

/-! ## The two parts of `process_packet_header` -/

/-- The part of `process_packet_header` that binds the current buffer to the
frame number `frame` (source lines 109 to 160). -/
def bind_frame (s : PercivalEmulatorFrameDecoder) (frame : Nat) (now : Timespec) :
    Option PercivalEmulatorFrameDecoder :=
  if frame ≠ s.current_frame_seen_ then
    let s1 := { s with current_frame_seen_ := frame }
    if map_count s1.frame_buffer_map_ s1.current_frame_seen_ = 0 then
      let s2 : PercivalEmulatorFrameDecoder :=
        match s1.empty_buffer_queue_ with
        | [] =>
          let s2 := { s1 with current_frame_buffer_ := .dropped }
          if !s2.dropping_frame_data_ then { s2 with dropping_frame_data_ := true } else s2
        | front :: rest =>
          let s2 := { s1 with current_frame_buffer_id_ := front }
          let s2 := { s2 with empty_buffer_queue_ := rest }
          let m := map_assign s2.frame_buffer_map_ s2.current_frame_seen_ s2.current_frame_buffer_id_
          let s2 := { s2 with frame_buffer_map_ := m }
          let s2 := { s2 with current_frame_buffer_ := .pool s2.current_frame_buffer_id_ }
          if !s2.dropping_frame_data_ then s2 else { s2 with dropping_frame_data_ := false }
      let s3 := { s2 with current_frame_header_ := s2.current_frame_buffer_ }
      modify_header s3 s3.current_frame_header_ (fun h =>
        { h with
          frame_number := s3.current_frame_seen_,
          frame_state := FrameReceiveState.Incomplete,
          packets_received := 0,
          frame_start_time := now })
    else
      let s2 := { s1 with current_frame_buffer_id_ := map_at s1.frame_buffer_map_ s1.current_frame_seen_ }
      let s2 := { s2 with current_frame_buffer_ := .pool s2.current_frame_buffer_id_ }
      some { s2 with current_frame_header_ := s2.current_frame_buffer_ }
  else some s

/-- The part of `process_packet_header` that marks the packet in the frame
header (source line 163). -/
def mark_packet (s : PercivalEmulatorFrameDecoder) (type subframe packet_number : Nat) :
    Option PercivalEmulatorFrameDecoder :=
  modify_header s s.current_frame_header_ (fun h =>
    { h with packet_state := fun t sf p =>
        if t = type ∧ sf = subframe ∧ p = packet_number then 1 else h.packet_state t sf p })

/-- The ready calls made by the `payload` calls of a sequence of calls (those of
the `tick` calls are left out). -/
def payload_calls (c : Constants) : PercivalEmulatorFrameDecoder → List Op → List (Int × Nat)
  | _, [] => []
  | s, o :: os =>
    match step c s o with
    | none => []
    | some s1 =>
      (match o with
        | .payload _ => s1.ready_calls.drop s.ready_calls.length
        | _ => []) ++ payload_calls c s1 os

/-- Modelled from the spec: the return of a buffer to the free queue
(`release(id)` of the buffer pool).  The code that pushes onto
`empty_buffer_queue_` is in the base class `FrameDecoder`, which is absent. -/
def release_buffer (s : PercivalEmulatorFrameDecoder) (id : Int) : PercivalEmulatorFrameDecoder :=
  { s with empty_buffer_queue_ := s.empty_buffer_queue_ ++ [id] }

/-- A pool of one buffer: the first packet of frame 10 takes the buffer, the
first packet of frame 11 finds no buffer, the second packet of frame 10
follows, and the header of the third and last packet of frame 10 has been
processed. -/
def resumed_frame_state : Option PercivalEmulatorFrameDecoder :=
  (run_packets example_constants (fresh_decoder [0])
    [(wire_header 1 0 10 0, time_zero), (wire_header 1 0 11 0, time_zero),
      (wire_header 1 0 10 1, time_zero)]).bind
    (fun s => process_packet_header example_constants (receive_header s (wire_header 1 0 10 2))
      22 time_zero)

/-- A pool of one buffer: the three packets of frame 4 have been received into
buffer 0, the frame has been handed over, and buffer 0 is back in the queue of
empty buffers. -/
def reused_buffer_state : Option PercivalEmulatorFrameDecoder :=
  (run_packets example_constants (fresh_decoder [0])
    [(wire_header 1 0 4 0, time_zero), (wire_header 1 0 4 1, time_zero),
      (wire_header 1 0 4 2, time_zero)]).map
    (fun s => release_buffer s 0)

/-- The payload target of the specification: the offset from the start of the
current buffer and the capacity, in the words of the offset and capacity
formulas. -/
def payload_target_reference (frame_header_size num_subframes total_subframe_bytes
    primary_packet_size num_primary_packets tail_packet_size : Nat)
    (type subframe packet_number : Nat) : Nat × Nat :=
  (frame_header_size + type * (num_subframes * total_subframe_bytes)
      + subframe * total_subframe_bytes + packet_number * primary_packet_size,
    if packet_number < num_primary_packets then primary_packet_size else tail_packet_size)

/-- A fresh decoder that has received the header of a sample packet with
hardware frame number 41. -/
def sample_41_state : PercivalEmulatorFrameDecoder :=
  receive_header (fresh_decoder [0]) (wire_header 0 0 41 0)

/-- The decoder `sample_41_state` after `process_packet_header`. -/
def after_sample_41 : PercivalEmulatorFrameDecoder :=
  (process_packet_header example_constants sample_41_state 22 time_zero).getD (fresh_decoder [])

/-- A pool of one buffer, taken by frame 10, when the header of the first
packet of frame 11 has been received. -/
def exhausted_state : PercivalEmulatorFrameDecoder :=
  receive_header
    ((run_packets example_constants (fresh_decoder [0]) [(wire_header 1 0 10 0, time_zero)]).getD
      (fresh_decoder []))
    (wire_header 1 0 11 0)

/-- The calls for the three packets of frame 11 after its first header, with a
`monitor_buffers` call in between. -/
def frame_11_calls : List Op :=
  [Op.payload 8192, Op.header (wire_header 1 0 11 1) 22 time_zero, Op.payload 8192,
    Op.tick time_zero, Op.header (wire_header 1 0 11 2) 22 time_zero, Op.payload 512]

/-- Calls on a pool of two buffers: frames 10 and 11 take the buffers, frame 12
finds none, frame 10 completes and a `monitor_buffers` call follows. -/
def accounting_calls : List Op :=
  [Op.header (wire_header 1 0 10 0) 22 time_zero, Op.payload 8192,
    Op.header (wire_header 1 0 11 0) 22 time_zero, Op.payload 8192,
    Op.header (wire_header 1 0 12 0) 22 time_zero, Op.payload 8192,
    Op.header (wire_header 1 0 10 1) 22 time_zero, Op.payload 8192,
    Op.header (wire_header 1 1 10 2) 22 time_zero, Op.payload 512,
    Op.tick { tv_sec := 5, tv_nsec := 0 }]

/-- The decoder after `accounting_calls` on a pool of two buffers. -/
def after_accounting_calls : PercivalEmulatorFrameDecoder :=
  (run_ops example_constants (fresh_decoder [0, 1]) accounting_calls).getD (fresh_decoder [])

/-- The three packets of a frame with the given hardware frame number, of
type reset. -/
def frame_packets (frame : Nat) : List (List Byte × Timespec) :=
  [(wire_header 1 0 frame 0, time_zero), (wire_header 1 0 frame 1, time_zero),
    (wire_header 1 0 frame 2, time_zero)]

/-- A pool of three buffers with frame 7 in flight in buffer 0. -/
def frame_7_in_flight : PercivalEmulatorFrameDecoder :=
  (run_packets example_constants (fresh_decoder [0, 1, 2]) [(wire_header 1 0 7 0, time_zero)]).getD
    (fresh_decoder [])

/-- Calls on a pool of one buffer: the first packet of frame 10 arrives at time
zero and `monitor_buffers` runs at second 5, after the timeout of 1000 ms. -/
def timeout_calls : List Op :=
  [Op.header (wire_header 1 0 10 0) 22 time_zero, Op.payload 8192,
    Op.tick { tv_sec := 5, tv_nsec := 0 }]

/-- The calls for the two other packets of frame 10, arriving at second 5. -/
def late_packet_calls : List Op :=
  [Op.header (wire_header 1 0 10 1) 22 { tv_sec := 5, tv_nsec := 0 }, Op.payload 8192,
    Op.header (wire_header 1 0 10 2) 22 { tv_sec := 5, tv_nsec := 0 }, Op.payload 512]

/-! ## Predicates and helpers of the proofs -/

/-- The accounting invariant of the buffer ids: the free queue and the map hold
pairwise distinct ids, no id is in both, and together they hold at most `N`. -/
def buffers_accounted (N : Nat) (s : PercivalEmulatorFrameDecoder) : Prop :=
  s.empty_buffer_queue_.Nodup ∧
  (s.frame_buffer_map_.map Prod.snd).Nodup ∧
  (∀ id ∈ s.empty_buffer_queue_, id ∉ s.frame_buffer_map_.map Prod.snd) ∧
  s.empty_buffer_queue_.length + s.frame_buffer_map_.length ≤ N

/-- The rest of a packet once its header is processed, and the packets after
it. -/
def run_from_payload (c : Constants) (s : PercivalEmulatorFrameDecoder)
    (pkts : List (List Byte × Timespec)) : Option PercivalEmulatorFrameDecoder :=
  match process_packet c s (get_next_payload_size c s) with
  | none => none
  | some r => run_packets c r.2 pkts

end FrameReceiver

/-!
# Chunk-aligned frame writer: FileWriter

Shallow embedding of `src/tools/filewriter/FileWriter.cpp`.

The writer object is a record of its member variables.  The HDF5 library is
outside the repository: every call into it that creates, extends, writes or
closes something is recorded, in order, in `hdf5_events`, the identifiers it
hands out are numbered by `hdf5_ids_issued`, and every call is taken to
succeed (the assertions on the returned status hold).  A C++ exception is a
value of `WriterException`.  `size_t` and `hsize_t` quantities are natural
numbers, and the operations on them that can leave the 64-bit range are taken
modulo 2^64: `frame_no - 1` in `getFrameOffset`, `frame_offset + 1` in
`writeFrame` and `writeSubFrames`, and `framesWritten_++` in `processFrame`.
Logging is omitted, but for the log statement of `configureDataset` that reads
`frame_dimensions[0]` and `frame_dimensions[1]`.
-/

namespace filewriter

/-- The exceptions the writer throws, one for each `throw` of the source. -/
inductive WriterException where
  | frame_out_of_order
  | unexpected_frame_in_rank
  | nonexistent_dataset
  | process_change_whilst_writing
  | file_change_whilst_writing
  | dataset_change_whilst_writing
  | dataset_without_name
  | dataset_without_type
  | dataset_without_dimensions
deriving DecidableEq, Repr

/-- The error kinds of the specification. -/
inductive ErrorKind where
  | FrameOutOfOrder
  | WrongRank
  | UnknownDataset
  | WriteInProgress
  | MissingField
deriving DecidableEq, Repr

/-- The error kind an exception stands for. -/
def WriterException.kind : WriterException → ErrorKind
  | .frame_out_of_order => .FrameOutOfOrder
  | .unexpected_frame_in_rank => .WrongRank
  | .nonexistent_dataset => .UnknownDataset
  | .process_change_whilst_writing => .WriteInProgress
  | .file_change_whilst_writing => .WriteInProgress
  | .dataset_change_whilst_writing => .WriteInProgress
  | .dataset_without_name => .MissingField
  | .dataset_without_type => .MissingField
  | .dataset_without_dimensions => .MissingField

/-- The values of `FileWriter::PixelType` as integers (a definition holds
whatever integer the configuration message gave). -/
def pixel_raw_8bit : Int := 0

def pixel_raw_16bit : Int := 1

def pixel_float32 : Int := 2

/-- The HDF5 native types the writer uses. -/
inductive H5Type where
  | H5T_NATIVE_UINT8
  | H5T_NATIVE_UINT16
  | H5T_NATIVE_UINT32
deriving DecidableEq, Repr

/-- The constant `H5S_UNLIMITED`, the `hsize_t` value -1. -/
def H5S_UNLIMITED : Nat := 2 ^ 64 - 1

/-- The struct `FileWriter::DatasetDefinition`. -/
structure DatasetDefinition where
  name : String
  pixel : Int
  num_frames : Nat
  frame_dimensions : List Nat
  chunks : List Nat
deriving DecidableEq, Repr

/-- The struct `FileWriter::HDF5Dataset_t`. -/
structure HDF5Dataset_t where
  datasetid : Nat
  dataset_dimensions : List Nat
  dataset_offsets : List Nat
deriving DecidableEq, Repr

/-- The calls into the HDF5 library that act on the file. -/
inductive H5Event where
  | H5Fcreate (filename : String) (id : Nat)
  | H5Dcreate2 (file : Nat) (name : String) (dtype : H5Type)
      (dims max_dims chunk_dims : List Nat) (id : Nat)
  | H5Dset_extent (dataset : Nat) (dims : List Nat)
  | H5DOwrite_chunk (dataset : Nat) (filter_mask : Nat) (offset : List Nat)
      (data_size : Nat) (data_start : Nat)
  | H5Fclose (file : Nat)
deriving DecidableEq, Repr

/-- What the writer reads of a `Frame` (the class is declared in `Frame.h`,
which is absent): frame number, dataset name, data size, the parameters
`subframe_count` (when the frame has it) and `subframe_size`, and the
dimensions named `subframe`. -/
structure Frame where
  frame_number : Nat
  dataset_name : String
  data_size : Nat
  subframe_count : Option Nat
  subframe_size : Nat
  subframe_dimensions : List Nat
deriving DecidableEq, Repr

/-- The member variables of `FileWriter`, with the record of HDF5 calls and
the number of identifiers the library has handed out.  The two maps are lists
of entries in key order.  `read_past_end` is not a member: it is set when a
call has read a vector past its end, which C++ leaves undefined (the process
may abort); from then on the record does not speak for the code. -/
structure FileWriter where
  writing_ : Bool
  masterFrame_ : String
  framesToWrite_ : Nat
  framesWritten_ : Nat
  filePath_ : String
  fileName_ : String
  concurrent_processes_ : Nat
  concurrent_rank_ : Nat
  hdf5_fileid_ : Int
  start_frame_offset_ : Nat
  hdf5_datasets_ : List (String × HDF5Dataset_t)
  dataset_defs_ : List (String × DatasetDefinition)
  hdf5_ids_issued : Nat
  hdf5_events : List H5Event
  read_past_end : Bool
deriving DecidableEq, Repr

/-- The `process` section of a configuration message. -/
structure ProcessConfig where
  number : Option Int
  rank : Option Int
deriving DecidableEq, Repr

/-- The `file` section of a configuration message. -/
structure FileConfig where
  path : Option String
  name : Option String
deriving DecidableEq, Repr

/-- The `dataset` section of a configuration message. -/
structure DatasetConfig where
  cmd : Option String
  name : Option String
  datatype : Option Int
  dims : Option (List Nat)
  chunks : Option (List Nat)
deriving DecidableEq, Repr

/-- The parameters of an `IpcMessage` that `configure` reads, each with the
type it is read at. -/
structure ConfigMessage where
  process : Option ProcessConfig
  file : Option FileConfig
  dataset : Option DatasetConfig
  frames : Option Int
  write : Option Bool
deriving DecidableEq, Repr

/-! ## std::map with string keys -/

/-- Member `find` of a map. -/
def smap_find {α : Type} (m : List (String × α)) (k : String) : Option α :=
  match m.find? (fun e => e.1 == k) with
  | some e => some e.2
  | none => none

/-- Lexicographic order on lists of character codes. -/
def codes_lt : List Nat → List Nat → Bool
  | [], [] => false
  | [], _ :: _ => true
  | _ :: _, [] => false
  | a :: as, b :: bs => if a < b then true else if b < a then false else codes_lt as bs

/-- The order of `std::string` keys: lexicographic by character code. -/
def string_lt (a b : String) : Bool :=
  codes_lt (a.data.map Char.toNat) (b.data.map Char.toNat)

/-- Assignment `m[k] = v`: replaces the value of an existing key, or inserts
the entry at its place in key order. -/
def smap_assign {α : Type} : List (String × α) → String → α → List (String × α)
  | [], k, v => [(k, v)]
  | (k0, v0) :: rest, k, v =>
    if string_lt k k0 then (k, v) :: (k0, v0) :: rest
    else if k = k0 then (k, v) :: rest
    else (k0, v0) :: smap_assign rest k v

/-! ## Conversions -/

/-- Conversion of an `int` to `size_t` or `hsize_t`. -/
def int_to_u64 (x : Int) : Nat := (x % 2 ^ 64).toNat

/-! ## The writer operations -/

/-- The default constructor. -/
def FileWriter.new : FileWriter :=
  { writing_ := false
    masterFrame_ := ""
    framesToWrite_ := 3
    framesWritten_ := 0
    filePath_ := "./"
    fileName_ := "test_file.h5"
    concurrent_processes_ := 1
    concurrent_rank_ := 0
    hdf5_fileid_ := 0
    start_frame_offset_ := 0
    hdf5_datasets_ := []
    dataset_defs_ := []
    hdf5_ids_issued := 0
    hdf5_events := []
    read_past_end := false }

/-- The method `createFile`. -/
def createFile (w : FileWriter) (filename : String) : FileWriter :=
  let id := w.hdf5_ids_issued + 1
  { w with
    hdf5_ids_issued := id,
    hdf5_events := w.hdf5_events ++ [H5Event.H5Fcreate filename id],
    hdf5_fileid_ := (id : Int) }

/-- The method `get_hdf5_dataset`. -/
def get_hdf5_dataset (w : FileWriter) (dset_name : String) : Except WriterException HDF5Dataset_t :=
  match smap_find w.hdf5_datasets_ dset_name with
  | none => .error .nonexistent_dataset
  | some dset => .ok dset

/-- The method `adjustFrameOffset`. -/
def adjustFrameOffset (w : FileWriter) (frame_no : Nat) : Except WriterException Nat :=
  if frame_no < w.start_frame_offset_ then .error .frame_out_of_order
  else
    let frame_offset := frame_no - w.start_frame_offset_
    .ok frame_offset

/-- The method `getFrameOffset`. -/
def getFrameOffset (w : FileWriter) (frame_no : Nat) : Except WriterException Nat :=
  match adjustFrameOffset w frame_no with
  | .error e => .error e
  | .ok frame_offset =>
    if w.concurrent_processes_ > 1 then
      if ((frame_no + (2 ^ 64 - 1)) % 2 ^ 64) % w.concurrent_processes_ ≠ w.concurrent_rank_ then
        .error .unexpected_frame_in_rank
      else .ok (frame_offset / w.concurrent_processes_)
    else .ok frame_offset

/-- The method `setStartFrameOffset`. -/
def setStartFrameOffset (w : FileWriter) (frame_no : Nat) : FileWriter :=
  { w with start_frame_offset_ := frame_no }

/-- The method `extend_dataset`: the dataset and the HDF5 calls made. -/
def extend_dataset (dset : HDF5Dataset_t) (frame_no : Nat) : HDF5Dataset_t × List H5Event :=
  if frame_no > dset.dataset_dimensions.getD 0 0 then
    let dset1 := { dset with dataset_dimensions := dset.dataset_dimensions.set 0 frame_no }
    (dset1, [H5Event.H5Dset_extent dset1.datasetid dset1.dataset_dimensions])
  else (dset, [])

/-- The method `writeFrame`.  The dataset is a reference into
`hdf5_datasets_`, so its extension is stored there.  The `hsize_t` sum
`frame_offset + 1` is taken modulo 2^64. -/
def writeFrame (w : FileWriter) (frame : Frame) : Except WriterException FileWriter :=
  let frame_no := frame.frame_number
  match get_hdf5_dataset w frame.dataset_name with
  | .error e => .error e
  | .ok dset =>
    match getFrameOffset w frame_no with
    | .error e => .error e
    | .ok frame_offset =>
      let ext := extend_dataset dset ((frame_offset + 1) % 2 ^ 64)
      let dset1 := ext.1
      let offset := (List.replicate dset1.dataset_dimensions.length 0).set 0 frame_offset
      let filter_mask := 0
      let write := H5Event.H5DOwrite_chunk dset1.datasetid filter_mask offset frame.data_size 0
      .ok { w with
            hdf5_datasets_ := smap_assign w.hdf5_datasets_ frame.dataset_name dset1,
            hdf5_events := w.hdf5_events ++ ext.2 ++ [write] }

/-- The chunk writes of the loop of `writeSubFrames`, one for every subframe
index below `subframe_count`.  The assignment to `offset[2]` is kept within the
vector: on an offset vector of fewer than three entries it changes nothing. -/
def subframe_writes (dset : HDF5Dataset_t) (frame : Frame) (offset : List Nat) (count : Nat) :
    List H5Event :=
  (List.range count).map (fun i =>
    H5Event.H5DOwrite_chunk dset.datasetid 0
      (offset.set 2 (i * frame.subframe_dimensions.getD 1 0)) frame.subframe_size
      (i * frame.subframe_size))

/-- The method `writeSubFrames`.  The `hsize_t` sum `frame_offset + 1` is
taken modulo 2^64. -/
def writeSubFrames (w : FileWriter) (frame : Frame) : Except WriterException FileWriter :=
  let frame_no := frame.frame_number
  match get_hdf5_dataset w frame.dataset_name with
  | .error e => .error e
  | .ok dset =>
    match getFrameOffset w frame_no with
    | .error e => .error e
    | .ok frame_offset =>
      let ext := extend_dataset dset ((frame_offset + 1) % 2 ^ 64)
      let dset1 := ext.1
      let offset := (List.replicate dset1.dataset_dimensions.length 0).set 0 frame_offset
      let writes := subframe_writes dset1 frame offset (frame.subframe_count.getD 0)
      .ok { w with
            hdf5_datasets_ := smap_assign w.hdf5_datasets_ frame.dataset_name dset1,
            hdf5_events := w.hdf5_events ++ ext.2 ++ writes }

/-- The method `pixelToHdfType`. -/
def pixelToHdfType (pixel : Int) : H5Type :=
  if pixel = pixel_float32 then .H5T_NATIVE_UINT32
  else if pixel = pixel_raw_16bit then .H5T_NATIVE_UINT16
  else if pixel = pixel_raw_8bit then .H5T_NATIVE_UINT8
  else .H5T_NATIVE_UINT16

/-- The method `createDataset`. -/
def createDataset (w : FileWriter) (definition : DatasetDefinition) : FileWriter :=
  let dtype := pixelToHdfType definition.pixel
  let frame_dims := definition.frame_dimensions
  let dset_dims := [1] ++ frame_dims
  let chunk_dims :=
    if definition.chunks.length ≠ dset_dims.length then dset_dims else definition.chunks
  let max_dims := dset_dims.set 0 H5S_UNLIMITED
  let id := w.hdf5_ids_issued + 1
  let created := H5Event.H5Dcreate2 w.hdf5_fileid_.toNat definition.name dtype dset_dims max_dims
    chunk_dims id
  let dset : HDF5Dataset_t :=
    { datasetid := id, dataset_dimensions := dset_dims, dataset_offsets := List.replicate 3 0 }
  { w with
    hdf5_ids_issued := id,
    hdf5_events := w.hdf5_events ++ [created],
    hdf5_datasets_ := smap_assign w.hdf5_datasets_ definition.name dset }

/-- The method `closeFile`. -/
def closeFile (w : FileWriter) : FileWriter :=
  if w.hdf5_fileid_ ≥ 0 then
    { w with
      hdf5_events := w.hdf5_events ++ [H5Event.H5Fclose w.hdf5_fileid_.toNat],
      hdf5_fileid_ := 0 }
  else w

/-- The method `stopWriting`. -/
def stopWriting (w : FileWriter) : FileWriter :=
  if w.writing_ then
    let w1 := { w with writing_ := false }
    closeFile w1
  else w

/-- The method `startWriting`. -/
def startWriting (w : FileWriter) : FileWriter :=
  if !w.writing_ then
    let w1 := createFile w (w.filePath_ ++ w.fileName_)
    let w2 := w1.dataset_defs_.foldl
      (fun acc entry =>
        let dset_def := { entry.2 with num_frames := acc.framesToWrite_ }
        createDataset acc dset_def) w1
    let w3 := { w2 with framesWritten_ := 0 }
    { w3 with writing_ := true }
  else w

/-- The method `processFrame`.  The `size_t` increment `framesWritten_++` is
taken modulo 2^64. -/
def processFrame (w : FileWriter) (frame : Frame) : Except WriterException FileWriter :=
  if w.writing_ then
    let written :=
      if frame.subframe_count.isSome then writeSubFrames w frame else writeFrame w frame
    match written with
    | .error e => .error e
    | .ok w1 =>
      let w2 :=
        if w1.masterFrame_ = "" ∨ w1.masterFrame_ = frame.dataset_name then
          { w1 with framesWritten_ := (w1.framesWritten_ + 1) % 2 ^ 64 }
        else w1
      if w2.framesWritten_ = w2.framesToWrite_ then .ok (stopWriting w2) else .ok w2
  else .ok w

/-- The method `configureProcess`. -/
def configureProcess (w : FileWriter) (config : ProcessConfig) : Except WriterException FileWriter :=
  if w.writing_ then .error .process_change_whilst_writing
  else
    let w1 :=
      match config.number with
      | some v => { w with concurrent_processes_ := int_to_u64 v }
      | none => w
    let w2 :=
      match config.rank with
      | some v => { w1 with concurrent_rank_ := int_to_u64 v }
      | none => w1
    .ok w2

/-- The method `configureFile`. -/
def configureFile (w : FileWriter) (config : FileConfig) : Except WriterException FileWriter :=
  if w.writing_ then .error .file_change_whilst_writing
  else
    let w1 :=
      match config.path with
      | some v => { w with filePath_ := v }
      | none => w
    let w2 :=
      match config.name with
      | some v => { w1 with fileName_ := v }
      | none => w1
    .ok w2

/-- The method `configureDataset`.  The field `num_frames` of the new
definition, which the source leaves uninitialised and nothing reads, is 0.
The log statement before the definition is stored (line 561; the logger is at
trace level) reads `frame_dimensions[0]` and `frame_dimensions[1]`: for
dimensions of fewer than two entries this is a read past the end of the
vector: `read_past_end` is set and nothing is stored. -/
def configureDataset (w : FileWriter) (config : DatasetConfig) : Except WriterException FileWriter :=
  if w.writing_ then .error .dataset_change_whilst_writing
  else
    match config.cmd with
    | none => .ok w
    | some cmd =>
      if cmd = "create" then
        match config.name with
        | none => .error .dataset_without_name
        | some name =>
          match config.datatype with
          | none => .error .dataset_without_type
          | some pixel =>
            match config.dims with
            | none => .error .dataset_without_dimensions
            | some dims =>
              let chunks :=
                match config.chunks with
                | some c => c
                | none => []
              let dset_def : DatasetDefinition :=
                { name := name, pixel := pixel, num_frames := 0, frame_dimensions := dims,
                  chunks := chunks }
              match dset_def.frame_dimensions[0]?, dset_def.frame_dimensions[1]? with
              | some _, some _ =>
                .ok { w with dataset_defs_ := smap_assign w.dataset_defs_ dset_def.name dset_def }
              | _, _ => .ok { w with read_past_end := true }
      else .ok w

/-- The method `configure`: the writer after the call and the exception the
call ended with, if any.  What was assigned before an exception stays
assigned. -/
def configure (w : FileWriter) (config : ConfigMessage) : FileWriter × Option WriterException :=
  let r1 : Except WriterException FileWriter :=
    match config.process with
    | some processConfig => configureProcess w processConfig
    | none => .ok w
  match r1 with
  | .error e => (w, some e)
  | .ok w1 =>
    let r2 : Except WriterException FileWriter :=
      match config.file with
      | some fileConfig => configureFile w1 fileConfig
      | none => .ok w1
    match r2 with
    | .error e => (w1, some e)
    | .ok w2 =>
      let r3 : Except WriterException FileWriter :=
        match config.dataset with
        | some dsetConfig => configureDataset w2 dsetConfig
        | none => .ok w2
      match r3 with
      | .error e => (w2, some e)
      | .ok w3 =>
        let w4 :=
          match config.frames with
          | some v => { w3 with framesToWrite_ := int_to_u64 v }
          | none => w3
        let w5 :=
          match config.write with
          | some true => startWriting w4
          | some false => stopWriting w4
          | none => w4
        (w5, none)

/-- A sequence of `writeFrame` calls. -/
def writeFrames : FileWriter → List Frame → Except WriterException FileWriter
  | w, [] => .ok w
  | w, frame :: frames =>
    match writeFrame w frame with
    | .error e => .error e
    | .ok w1 => writeFrames w1 frames

/-! ## Fixtures and projections of the writer -/

/-- A writer of rank 1 of 2 with start frame offset 1. -/
def rank_1_of_2_writer : FileWriter :=
  { FileWriter.new with concurrent_processes_ := 2, concurrent_rank_ := 1, start_frame_offset_ := 1 }

/-- A writer of rank 0 of 3 with start frame offset 0. -/
def rank_0_of_3_writer : FileWriter :=
  { FileWriter.new with concurrent_processes_ := 3 }

/-- The message that registers the dataset `data` of 16-bit frames of 2 by 3
pixels and starts writing. -/
def create_and_write_message : ConfigMessage :=
  { process := none, file := none,
    dataset := some { cmd := some "create", name := some "data", datatype := some 1,
                      dims := some [2, 3], chunks := none },
    frames := none, write := some true }

/-- A default writer after `create_and_write_message`: it is writing, with the
dataset `data` created. -/
def writing_writer : FileWriter := (configure FileWriter.new create_and_write_message).1

/-- A frame for the dataset `data` with the given frame number and no
subframes. -/
def data_frame (frame_number : Nat) : Frame :=
  { frame_number := frame_number, dataset_name := "data", data_size := 12,
    subframe_count := none, subframe_size := 0, subframe_dimensions := [] }

/-- The outer extent the writer holds for a dataset (0 when there is no such
dataset). -/
def outer_extent (w : FileWriter) (dset_name : String) : Nat :=
  match smap_find w.hdf5_datasets_ dset_name with
  | some dset => dset.dataset_dimensions.getD 0 0
  | none => 0

/-- The largest frame number of a sequence of frames. -/
def max_frame (frames : List Frame) : Nat :=
  frames.foldr (fun frame m => max frame.frame_number m) 0

/-- The writer after the assignments of `configureProcess`. -/
def assign_process (w : FileWriter) (config : ProcessConfig) : FileWriter :=
  let w1 :=
    match config.number with
    | some v => { w with concurrent_processes_ := int_to_u64 v }
    | none => w
  match config.rank with
  | some v => { w1 with concurrent_rank_ := int_to_u64 v }
  | none => w1

/-- The writer after the assignments of `configureFile`. -/
def assign_file (w : FileWriter) (config : FileConfig) : FileWriter :=
  let w1 :=
    match config.path with
    | some v => { w with filePath_ := v }
    | none => w
  match config.name with
  | some v => { w1 with fileName_ := v }
  | none => w1

/-- The writer after the `process` and `file` sections of a message, when it is
not writing. -/
def after_process_and_file (w : FileWriter) (config : ConfigMessage) : FileWriter :=
  let w1 :=
    match config.process with
    | some processConfig => assign_process w processConfig
    | none => w
  match config.file with
  | some fileConfig => assign_file w1 fileConfig
  | none => w1

/-- The last steps of `configure`: the parameters `frames` and `write`. -/
def frames_and_write (w : FileWriter) (config : ConfigMessage) : FileWriter :=
  let w4 :=
    match config.frames with
    | some v => { w with framesToWrite_ := int_to_u64 v }
    | none => w
  match config.write with
  | some true => startWriting w4
  | some false => stopWriting w4
  | none => w4

/-- The message that sets the rank count to 4 and asks for a dataset without
giving its name. -/
def process_and_nameless_dataset_message : ConfigMessage :=
  { process := some { number := some 4, rank := none }, file := none,
    dataset := some { cmd := some "create", name := none, datatype := some 1,
                      dims := some [2, 3], chunks := none },
    frames := none, write := none }

/-- A definition of 16-bit frames of 1484 by 1408 pixels with chunk dimensions
of two entries. -/
def two_entry_chunks_definition : DatasetDefinition :=
  { name := "data", pixel := 1, num_frames := 3, frame_dimensions := [1484, 1408],
    chunks := [742, 704] }

/-! ## Sequences of writer operations -/

/-- A call of one of the operations of the writer. -/
inductive WriterOp where
  | configure (config : ConfigMessage)
  | startWriting
  | stopWriting
  | processFrame (frame : Frame)
deriving DecidableEq, Repr

/-- The writer after one call.  An exception ends the call and the writer
lives on: `configure` keeps what was assigned before the exception, and
`processFrame` throws (in `get_hdf5_dataset` or `getFrameOffset`) before any
member is assigned, so the writer is then as it was. -/
def apply_op (w : FileWriter) : WriterOp → FileWriter
  | .configure config => (configure w config).1
  | .startWriting => startWriting w
  | .stopWriting => stopWriting w
  | .processFrame frame =>
    match processFrame w frame with
    | .ok w1 => w1
    | .error _ => w

/-- The writer after a sequence of calls. -/
def run_writer_ops : FileWriter → List WriterOp → FileWriter
  | w, [] => w
  | w, op :: ops => run_writer_ops (apply_op w op) ops

/-- Every call of the sequence that takes the writer from idle to writing
leaves `framesToWrite_` at 1 or more, and every call that changes
`framesToWrite_` while the writer is writing and goes on writing leaves it
above `framesWritten_`. -/
def frames_to_write_respected : FileWriter → List WriterOp → Prop
  | _, [] => True
  | w, op :: ops =>
    (w.writing_ = false → (apply_op w op).writing_ = true →
      1 ≤ (apply_op w op).framesToWrite_) ∧
    (w.writing_ = true → (apply_op w op).writing_ = true →
      (apply_op w op).framesToWrite_ ≠ w.framesToWrite_ →
      w.framesWritten_ < (apply_op w op).framesToWrite_) ∧
    frames_to_write_respected (apply_op w op) ops

/-- The message that registers the dataset `data`, sets the number of frames
to write to 0 and starts writing. -/
def zero_frames_write_message : ConfigMessage :=
  { create_and_write_message with frames := some 0 }

/-- The message that sets the number of frames to write to 1. -/
def one_frame_message : ConfigMessage :=
  { process := none, file := none, dataset := none, frames := some 1, write := none }

/-- The message that registers the dataset `data`, sets the number of frames
to write to 3 and starts writing. -/
def three_frames_write_message : ConfigMessage :=
  { create_and_write_message with frames := some 3 }

/-- The message that sets the number of frames to write to 5. -/
def five_frames_message : ConfigMessage :=
  { process := none, file := none, dataset := none, frames := some 5, write := none }

/-- The message that sets the number of frames to write to 0. -/
def zero_frames_message : ConfigMessage :=
  { process := none, file := none, dataset := none, frames := some 0, write := none }

end filewriter

/-! # Lemmas on the decoder operations -/

namespace FrameReceiver


/-- The method `process_packet_header` is `bind_frame` followed by `mark_packet`. -/
theorem process_packet_header_eq (c : Constants) (s : PercivalEmulatorFrameDecoder) (n : Nat)
    (now : Timespec) :
    process_packet_header c s n now =
      (bind_frame s (effective_frame c s) now).bind
        (fun s4 => mark_packet s4 (get_packet_type s) (get_subframe_number s) (get_packet_number c s)) := by
  show (match bind_frame s (effective_frame c s) now with
    | none => none
    | some s4 => mark_packet s4 (get_packet_type s) (get_subframe_number s) (get_packet_number c s)) = _
  cases bind_frame s (effective_frame c s) now <;> rfl

/-- A header of the current frame binds nothing. -/
theorem bind_frame_same (s : PercivalEmulatorFrameDecoder) (f : Nat) (now : Timespec)
    (h : f = s.current_frame_seen_) : bind_frame s f now = some s := by
  simp [bind_frame, h]

/-- A header of a new frame with a free buffer at hand takes the buffer at the
head of the queue and initialises its frame header. -/
theorem bind_frame_acquire (s : PercivalEmulatorFrameDecoder) (f : Nat) (now : Timespec)
    (front : Int) (rest : List Int)
    (hne : f ≠ s.current_frame_seen_)
    (habs : map_count s.frame_buffer_map_ f = 0)
    (hq : s.empty_buffer_queue_ = front :: rest) :
    bind_frame s f now = some
      { s with
        current_frame_seen_ := f,
        current_frame_buffer_id_ := front,
        empty_buffer_queue_ := rest,
        frame_buffer_map_ := map_assign s.frame_buffer_map_ f front,
        current_frame_buffer_ := .pool front,
        current_frame_header_ := .pool front,
        dropping_frame_data_ := false,
        buffers := fun j => if j = front then
          { s.buffers front with
            frame_number := f, frame_state := FrameReceiveState.Incomplete,
            packets_received := 0, frame_start_time := now }
          else s.buffers j } := by
  simp only [bind_frame, hne, habs, hq, modify_header, read_header, write_header, ne_eq, not_false_eq_true, if_true]
  cases hd : s.dropping_frame_data_ <;> simp [hd]

/-- A header of a new frame with no free buffer binds the drop buffer. -/
theorem bind_frame_drop (s : PercivalEmulatorFrameDecoder) (f : Nat) (now : Timespec)
    (hne : f ≠ s.current_frame_seen_)
    (habs : map_count s.frame_buffer_map_ f = 0)
    (hq : s.empty_buffer_queue_ = []) :
    bind_frame s f now = some
      { s with
        current_frame_seen_ := f,
        current_frame_buffer_ := .dropped,
        current_frame_header_ := .dropped,
        dropping_frame_data_ := true,
        dropped_frame_buffer_ :=
          { s.dropped_frame_buffer_ with
            frame_number := f, frame_state := FrameReceiveState.Incomplete,
            packets_received := 0, frame_start_time := now } } := by
  simp only [bind_frame, hne, habs, hq, modify_header, read_header, write_header, ne_eq, not_false_eq_true, if_true]
  cases hd : s.dropping_frame_data_ <;> simp [hd]

/-- A header of a frame in the map rebinds the buffer of that frame. -/
theorem bind_frame_rebind (s : PercivalEmulatorFrameDecoder) (f : Nat) (now : Timespec)
    (hne : f ≠ s.current_frame_seen_)
    (hpres : map_count s.frame_buffer_map_ f ≠ 0) :
    bind_frame s f now = some
      { s with
        current_frame_seen_ := f,
        current_frame_buffer_id_ := map_at s.frame_buffer_map_ f,
        current_frame_buffer_ := .pool (map_at s.frame_buffer_map_ f),
        current_frame_header_ := .pool (map_at s.frame_buffer_map_ f) } := by
  simp only [bind_frame, hne, hpres, ne_eq, not_false_eq_true, if_true, if_false]


/-- The mark of a packet in the frame header of a pool buffer. -/
theorem mark_packet_pool (s : PercivalEmulatorFrameDecoder) (a : Int) (t sf p : Nat)
    (hp : s.current_frame_header_ = .pool a) :
    mark_packet s t sf p = some
      { s with buffers := fun j => if j = a then
          { s.buffers a with packet_state := fun t1 sf1 p1 =>
              if t1 = t ∧ sf1 = sf ∧ p1 = p then 1 else (s.buffers a).packet_state t1 sf1 p1 }
          else s.buffers j } := by
  simp [mark_packet, modify_header, read_header, write_header, hp]

/-- The mark of a packet in the frame header of the drop buffer. -/
theorem mark_packet_dropped (s : PercivalEmulatorFrameDecoder) (t sf p : Nat)
    (hp : s.current_frame_header_ = .dropped) :
    mark_packet s t sf p = some
      { s with dropped_frame_buffer_ :=
          { s.dropped_frame_buffer_ with packet_state := fun t1 sf1 p1 =>
              if t1 = t ∧ sf1 = sf ∧ p1 = p then 1 else s.dropped_frame_buffer_.packet_state t1 sf1 p1 } } := by
  simp [mark_packet, modify_header, read_header, write_header, hp]

/-- What `mark_packet` leaves alone. -/
theorem mark_packet_frame (s s' : PercivalEmulatorFrameDecoder) (t sf p : Nat)
    (h : mark_packet s t sf p = some s') :
    s'.current_packet_header_ = s.current_packet_header_ ∧
    s'.current_frame_seen_ = s.current_frame_seen_ ∧
    s'.current_frame_buffer_id_ = s.current_frame_buffer_id_ ∧
    s'.current_frame_buffer_ = s.current_frame_buffer_ ∧
    s'.current_frame_header_ = s.current_frame_header_ ∧
    s'.dropping_frame_data_ = s.dropping_frame_data_ ∧
    s'.frame_timeout_ms_ = s.frame_timeout_ms_ ∧
    s'.empty_buffer_queue_ = s.empty_buffer_queue_ ∧
    s'.frame_buffer_map_ = s.frame_buffer_map_ ∧
    s'.ready_calls = s.ready_calls ∧
    (∀ j, (s'.buffers j).packets_received = (s.buffers j).packets_received ∧
          (s'.buffers j).frame_number = (s.buffers j).frame_number ∧
          (s'.buffers j).frame_state = (s.buffers j).frame_state ∧
          (s'.buffers j).frame_start_time = (s.buffers j).frame_start_time) ∧
    s'.dropped_frame_buffer_.packets_received = s.dropped_frame_buffer_.packets_received := by
  cases hp : s.current_frame_header_ with
  | null => simp [mark_packet, modify_header, read_header, hp] at h
  | dropped =>
    rw [mark_packet_dropped s t sf p hp] at h
    cases h
    simp [hp]
  | pool a =>
    rw [mark_packet_pool s a t sf p hp] at h
    cases h
    simp only [hp, true_and, and_true]
    intro j
    by_cases hj : j = a <;> simp [hj]


/-- The method `process_packet` on a frame in a pool buffer. -/
theorem process_packet_pool (c : Constants) (s : PercivalEmulatorFrameDecoder) (n : Nat) (a : Int)
    (hp : s.current_frame_header_ = .pool a) :
    process_packet c s n = some
      (if ((s.buffers a).packets_received + 1) % 2 ^ 32 = c.num_frame_packets then
        (if s.dropping_frame_data_ = true then
          (FrameReceiveState.Complete,
            { s with buffers := fun j => if j = a then
                { s.buffers a with
                  packets_received := ((s.buffers a).packets_received + 1) % 2 ^ 32,
                  frame_state := FrameReceiveState.Complete }
                else s.buffers j })
        else
          (FrameReceiveState.Complete,
            { s with
              buffers := fun j => if j = a then
                { s.buffers a with
                  packets_received := ((s.buffers a).packets_received + 1) % 2 ^ 32,
                  frame_state := FrameReceiveState.Complete }
                else s.buffers j,
              frame_buffer_map_ := map_erase s.frame_buffer_map_ s.current_frame_seen_,
              ready_calls := s.ready_calls ++ [(s.current_frame_buffer_id_, s.current_frame_seen_)],
              current_frame_seen_ := minus_one_u32 }))
      else
        (FrameReceiveState.Incomplete,
          { s with buffers := fun j => if j = a then
              { s.buffers a with packets_received := ((s.buffers a).packets_received + 1) % 2 ^ 32 }
              else s.buffers j })) := by
  by_cases hN : ((s.buffers a).packets_received + 1) % 2 ^ 32 = c.num_frame_packets
  · cases hd : s.dropping_frame_data_
    · simp only [process_packet, modify_header, read_header, write_header, hp, hN, hd, if_true]
      simp
      funext j
      by_cases hj : j = a <;> simp [hj]
    · simp only [process_packet, modify_header, read_header, write_header, hp, hN, hd, if_true]
      simp
      funext j
      by_cases hj : j = a <;> simp [hj]
  · simp only [process_packet, modify_header, read_header, write_header, hp, hN, if_true, if_false]

/-- The method `process_packet` on a frame in the drop buffer. -/
theorem process_packet_dropped (c : Constants) (s : PercivalEmulatorFrameDecoder) (n : Nat)
    (hp : s.current_frame_header_ = .dropped) :
    process_packet c s n = some
      (if (s.dropped_frame_buffer_.packets_received + 1) % 2 ^ 32 = c.num_frame_packets then
        (if s.dropping_frame_data_ = true then
          (FrameReceiveState.Complete,
            { s with dropped_frame_buffer_ :=
                { s.dropped_frame_buffer_ with
                  packets_received := (s.dropped_frame_buffer_.packets_received + 1) % 2 ^ 32,
                  frame_state := FrameReceiveState.Complete } })
        else
          (FrameReceiveState.Complete,
            { s with
              dropped_frame_buffer_ :=
                { s.dropped_frame_buffer_ with
                  packets_received := (s.dropped_frame_buffer_.packets_received + 1) % 2 ^ 32,
                  frame_state := FrameReceiveState.Complete },
              frame_buffer_map_ := map_erase s.frame_buffer_map_ s.current_frame_seen_,
              ready_calls := s.ready_calls ++ [(s.current_frame_buffer_id_, s.current_frame_seen_)],
              current_frame_seen_ := minus_one_u32 }))
      else
        (FrameReceiveState.Incomplete,
          { s with dropped_frame_buffer_ :=
              { s.dropped_frame_buffer_ with
                packets_received := (s.dropped_frame_buffer_.packets_received + 1) % 2 ^ 32 } })) := by
  by_cases hN : (s.dropped_frame_buffer_.packets_received + 1) % 2 ^ 32 = c.num_frame_packets
  · cases hd : s.dropping_frame_data_
    · simp only [process_packet, modify_header, read_header, write_header, hp, hN, hd, if_true]
      simp
    · simp only [process_packet, modify_header, read_header, write_header, hp, hN, hd, if_true]
      simp
  · simp only [process_packet, modify_header, read_header, write_header, hp, hN, if_true, if_false]

/-- The method `process_packet` before any buffer is bound. -/
theorem process_packet_null (c : Constants) (s : PercivalEmulatorFrameDecoder) (n : Nat)
    (hp : s.current_frame_header_ = .null) : process_packet c s n = none := by
  simp [process_packet, modify_header, read_header, hp]


/-- What `process_packet` leaves alone, and what it does to the current frame,
the map and the record of `ready_callback_` invocations. -/
theorem process_packet_frame (c : Constants) (s s' : PercivalEmulatorFrameDecoder) (n : Nat)
    (st : FrameReceiveState) (h : process_packet c s n = some (st, s')) :
    s'.current_packet_header_ = s.current_packet_header_ ∧
    s'.current_frame_buffer_id_ = s.current_frame_buffer_id_ ∧
    s'.current_frame_buffer_ = s.current_frame_buffer_ ∧
    s'.current_frame_header_ = s.current_frame_header_ ∧
    s'.dropping_frame_data_ = s.dropping_frame_data_ ∧
    s'.frame_timeout_ms_ = s.frame_timeout_ms_ ∧
    s'.empty_buffer_queue_ = s.empty_buffer_queue_ ∧
    st ≠ FrameReceiveState.Timedout ∧
    ((st = FrameReceiveState.Incomplete ∨ s.dropping_frame_data_ = true) →
      s'.current_frame_seen_ = s.current_frame_seen_ ∧
      s'.frame_buffer_map_ = s.frame_buffer_map_ ∧
      s'.ready_calls = s.ready_calls) ∧
    ((st = FrameReceiveState.Complete ∧ s.dropping_frame_data_ = false) →
      s'.current_frame_seen_ = minus_one_u32 ∧
      s'.frame_buffer_map_ = map_erase s.frame_buffer_map_ s.current_frame_seen_ ∧
      s'.ready_calls = s.ready_calls ++ [(s.current_frame_buffer_id_, s.current_frame_seen_)]) := by
  cases hp : s.current_frame_header_ with
  | null => rw [process_packet_null c s n hp] at h; cases h
  | dropped =>
    rw [process_packet_dropped c s n hp] at h
    cases hd : s.dropping_frame_data_ <;>
      simp only [hd, Bool.false_eq_true, if_false, if_true] at h <;> split_ifs at h <;>
      cases h <;> simp [hp, hd]
  | pool a =>
    rw [process_packet_pool c s n a hp] at h
    cases hd : s.dropping_frame_data_ <;>
      simp only [hd, Bool.false_eq_true, if_false, if_true] at h <;> split_ifs at h <;>
      cases h <;> simp [hp, hd]

/-- The four ways `bind_frame` can go. -/
theorem bind_frame_cases (s : PercivalEmulatorFrameDecoder) (f : Nat) (now : Timespec) :
    (f = s.current_frame_seen_ ∧ bind_frame s f now = some s) ∨
    (f ≠ s.current_frame_seen_ ∧ map_count s.frame_buffer_map_ f ≠ 0 ∧
      bind_frame s f now = some
        { s with
          current_frame_seen_ := f,
          current_frame_buffer_id_ := map_at s.frame_buffer_map_ f,
          current_frame_buffer_ := .pool (map_at s.frame_buffer_map_ f),
          current_frame_header_ := .pool (map_at s.frame_buffer_map_ f) }) ∨
    (f ≠ s.current_frame_seen_ ∧ map_count s.frame_buffer_map_ f = 0 ∧
      s.empty_buffer_queue_ = [] ∧
      bind_frame s f now = some
        { s with
          current_frame_seen_ := f,
          current_frame_buffer_ := .dropped,
          current_frame_header_ := .dropped,
          dropping_frame_data_ := true,
          dropped_frame_buffer_ :=
            { s.dropped_frame_buffer_ with
              frame_number := f, frame_state := FrameReceiveState.Incomplete,
              packets_received := 0, frame_start_time := now } }) ∨
    (f ≠ s.current_frame_seen_ ∧ map_count s.frame_buffer_map_ f = 0 ∧
      ∃ front rest, s.empty_buffer_queue_ = front :: rest ∧
      bind_frame s f now = some
        { s with
          current_frame_seen_ := f,
          current_frame_buffer_id_ := front,
          empty_buffer_queue_ := rest,
          frame_buffer_map_ := map_assign s.frame_buffer_map_ f front,
          current_frame_buffer_ := .pool front,
          current_frame_header_ := .pool front,
          dropping_frame_data_ := false,
          buffers := fun j => if j = front then
            { s.buffers front with
              frame_number := f, frame_state := FrameReceiveState.Incomplete,
              packets_received := 0, frame_start_time := now }
            else s.buffers j }) := by
  by_cases h1 : f = s.current_frame_seen_
  · exact Or.inl ⟨h1, bind_frame_same s f now h1⟩
  · by_cases h2 : map_count s.frame_buffer_map_ f = 0
    · obtain hq | ⟨front, rest, hq⟩ :
          s.empty_buffer_queue_ = [] ∨ ∃ front rest, s.empty_buffer_queue_ = front :: rest := by
        cases s.empty_buffer_queue_ <;> simp
      · exact Or.inr (Or.inr (Or.inl ⟨h1, h2, hq, bind_frame_drop s f now h1 h2 hq⟩))
      · exact Or.inr (Or.inr (Or.inr
          ⟨h1, h2, front, rest, hq, bind_frame_acquire s f now front rest h1 h2 hq⟩))
    · exact Or.inr (Or.inl ⟨h1, h2, bind_frame_rebind s f now h1 h2⟩)

/-- After `bind_frame` the current frame is the frame bound. -/
theorem bind_frame_seen (s s' : PercivalEmulatorFrameDecoder) (f : Nat) (now : Timespec)
    (h : bind_frame s f now = some s') : s'.current_frame_seen_ = f := by
  rcases bind_frame_cases s f now with ⟨h1, h2⟩ | ⟨_, _, h2⟩ | ⟨_, _, _, h2⟩ | ⟨_, _, _, _, _, h2⟩ <;>
    rw [h2] at h <;> cases h
  · exact h1.symm
  all_goals rfl

/-- The frame number of a received header does not depend on the decoder it is
received into. -/
theorem effective_frame_receive (c : Constants) (s1 s2 : PercivalEmulatorFrameDecoder)
    (hdr : List Byte) :
    effective_frame c (receive_header s1 hdr) = effective_frame c (receive_header s2 hdr) := rfl

/-- A header of the current frame rebinds nothing. -/
theorem process_packet_header_same (c : Constants) (s s' : PercivalEmulatorFrameDecoder) (n : Nat)
    (now : Timespec) (hf : effective_frame c s = s.current_frame_seen_)
    (h : process_packet_header c s n now = some s') :
    s'.current_frame_seen_ = s.current_frame_seen_ ∧
    s'.current_frame_buffer_id_ = s.current_frame_buffer_id_ ∧
    s'.current_frame_buffer_ = s.current_frame_buffer_ ∧
    s'.current_frame_header_ = s.current_frame_header_ ∧
    s'.dropping_frame_data_ = s.dropping_frame_data_ ∧
    s'.empty_buffer_queue_ = s.empty_buffer_queue_ ∧
    s'.frame_buffer_map_ = s.frame_buffer_map_ ∧
    s'.ready_calls = s.ready_calls := by
  rw [process_packet_header_eq, bind_frame_same s _ now hf] at h
  obtain ⟨_, h2, h3, h4, h5, h6, _, h8, h9, h10, _⟩ := mark_packet_frame _ _ _ _ _ h
  exact ⟨h2, h3, h4, h5, h6, h8, h9, h10⟩

/-- While the decoder drops the data of the current frame into the drop
buffer, a call for that frame keeps it so, and a `payload` call invokes no
ready. -/
theorem dropping_step (c : Constants) (f : Nat) (s0 s : PercivalEmulatorFrameDecoder) (o : Op)
    (hd : s.dropping_frame_data_ = true) (hs : s.current_frame_seen_ = f)
    (hp : s.current_frame_header_ = .dropped) (hb : s.current_frame_buffer_ = .dropped)
    (ho : ∀ hdr n now, o = Op.header hdr n now → effective_frame c (receive_header s0 hdr) = f) :
    ∃ s1, step c s o = some s1 ∧
      s1.dropping_frame_data_ = true ∧ s1.current_frame_seen_ = f ∧
      s1.current_frame_header_ = .dropped ∧ s1.current_frame_buffer_ = .dropped ∧
      (∀ n, o = Op.payload n → s1.ready_calls = s.ready_calls) := by
  cases o with
  | header hdr n now =>
    have hf : effective_frame c (receive_header s hdr) = (receive_header s hdr).current_frame_seen_ := by
      rw [effective_frame_receive c s s0 hdr, ho hdr n now rfl]
      exact hs.symm
    have hstep : process_packet_header c (receive_header s hdr) n now =
        mark_packet (receive_header s hdr) (get_packet_type (receive_header s hdr))
          (get_subframe_number (receive_header s hdr)) (get_packet_number c (receive_header s hdr)) := by
      rw [process_packet_header_eq, bind_frame_same _ _ now hf]; rfl
    have hp1 : (receive_header s hdr).current_frame_header_ = .dropped := hp
    rw [mark_packet_dropped _ _ _ _ hp1] at hstep
    exact ⟨_, hstep, hd, hs, hp, hb, fun n hn => by cases hn⟩
  | payload n =>
    obtain ⟨r, hstep⟩ : ∃ r, process_packet c s n = some r := ⟨_, process_packet_dropped c s n hp⟩
    obtain ⟨st, s1⟩ := r
    obtain ⟨_, _, h3, h4, h5, _, _, _, h8, _⟩ := process_packet_frame c s s1 n st hstep
    obtain ⟨h9, _, h11⟩ := h8 (Or.inr hd)
    refine ⟨s1, ?_, h5.trans hd, h9.trans hs, h4.trans hp, h3.trans hb, fun _ _ => h11⟩
    simp only [step, hstep, Option.map_some']
  | tick now =>
    exact ⟨monitor_buffers s now, rfl, hd, hs, hp, hb, fun n hn => by cases hn⟩

/-- While the decoder drops the data of the current frame into the drop
buffer, calls for that frame keep it so and no `payload` call invokes ready. -/
theorem dropping_run (c : Constants) (f : Nat) (s0 : PercivalEmulatorFrameDecoder) (ops : List Op) :
    ∀ s : PercivalEmulatorFrameDecoder,
      s.dropping_frame_data_ = true → s.current_frame_seen_ = f →
      s.current_frame_header_ = .dropped → s.current_frame_buffer_ = .dropped →
      (∀ hdr n now, Op.header hdr n now ∈ ops → effective_frame c (receive_header s0 hdr) = f) →
      ∃ s', run_ops c s ops = some s' ∧ payload_calls c s ops = [] ∧
        s'.dropping_frame_data_ = true ∧ s'.current_frame_seen_ = f ∧
        s'.current_frame_buffer_ = .dropped := by
  induction ops with
  | nil => intro s hd hs hp hb _; exact ⟨s, rfl, rfl, hd, hs, hb⟩
  | cons o os ih =>
    intro s hd hs hp hb hall
    obtain ⟨s1, hstep, hd1, hs1, hp1, hb1, hr1⟩ := dropping_step c f s0 s o hd hs hp hb
      (fun hdr n now ho => hall hdr n now (by rw [ho]; exact List.mem_cons_self _ _))
    obtain ⟨s', h1, h2, h3, h4, h5⟩ := ih s1 hd1 hs1 hp1 hb1
      (fun hdr n now hm => hall hdr n now (List.mem_cons_of_mem _ hm))
    refine ⟨s', ?_, ?_, h3, h4, h5⟩
    · simp only [run_ops, hstep]; exact h1
    · simp only [payload_calls, hstep, h2, List.append_nil]
      cases o with
      | header hdr n now => rfl
      | payload n => simp only [hr1 n rfl, List.drop_length]
      | tick now => rfl

/-- What the loop of `monitor_buffers` computes: the entries that stay, the
ready calls, and the frame headers, in terms of the buffer memory it starts
from. -/
theorem monitor_loop_spec (T : Nat) (now : Timespec) (m : List (Nat × Int)) :
    ∀ b : Int → FrameHeader,
      (monitor_loop T now m b).1 =
        m.filter (fun e => !decide (elapsed_ms (b e.2).frame_start_time now > T)) ∧
      (monitor_loop T now m b).2.2 =
        (m.filter (fun e => decide (elapsed_ms (b e.2).frame_start_time now > T))).map
          (fun e => (e.2, e.1)) ∧
      ∀ j, (monitor_loop T now m b).2.1 j =
        if (∃ e ∈ m, e.2 = j) ∧ elapsed_ms (b j).frame_start_time now > T then
          { b j with frame_state := FrameReceiveState.Timedout }
        else b j := by
  induction m with
  | nil => intro b; simp [monitor_loop]
  | cons e rest ih =>
    intro b
    obtain ⟨frame_num, buffer_id⟩ := e
    by_cases hexp : elapsed_ms (b buffer_id).frame_start_time now > T
    · have hstart : ∀ j, ((fun j => if j = buffer_id then
            { b buffer_id with frame_state := FrameReceiveState.Timedout } else b j) j).frame_start_time
          = (b j).frame_start_time := by
        intro j
        by_cases hj : j = buffer_id <;> simp [hj]
      obtain ⟨ih1, ih2, ih3⟩ := ih (fun j => if j = buffer_id then
            { b buffer_id with frame_state := FrameReceiveState.Timedout } else b j)
      simp only [hstart] at ih1 ih2 ih3
      refine ⟨?_, ?_, ?_⟩
      · simp only [monitor_loop, hexp, if_true, ih1]
        simp [List.filter_cons, hexp]
      · simp only [monitor_loop, hexp, if_true, ih2]
        simp [List.filter_cons, hexp]
      · intro j
        simp only [monitor_loop, hexp, if_true, ih3]
        by_cases hj : j = buffer_id
        · subst hj
          simp [hexp]
        · have hne : ¬ buffer_id = j := fun h => hj h.symm
          have hiff : (∃ e ∈ (frame_num, buffer_id) :: rest, e.2 = j) ↔ (∃ e ∈ rest, e.2 = j) := by
            simp [hne]
          simp only [hj, if_false, hiff]
    · obtain ⟨ih1, ih2, ih3⟩ := ih b
      refine ⟨?_, ?_, ?_⟩
      · simp only [monitor_loop, hexp, if_false, ih1]
        simp [List.filter_cons, hexp]
      · simp only [monitor_loop, hexp, if_false, ih2]
        simp [List.filter_cons, hexp]
      · intro j
        simp only [monitor_loop, hexp, if_false, ih3]
        by_cases hj : j = buffer_id
        · subst hj
          rw [if_neg (fun h => hexp h.2), if_neg (fun h => hexp h.2)]
        · have hne : ¬ buffer_id = j := fun h => hj h.symm
          have hiff : (∃ e ∈ (frame_num, buffer_id) :: rest, e.2 = j) ↔ (∃ e ∈ rest, e.2 = j) := by
            simp [hne]
          simp only [hiff]

/-- A key has count 0 exactly when no entry carries it. -/
theorem map_count_eq_zero (m : List (Nat × Int)) (k : Nat) :
    map_count m k = 0 ↔ ∀ e ∈ m, e.1 ≠ k := by
  unfold map_count
  constructor
  · intro h0 e he hk
    have hany : m.any (fun e => e.1 == k) = true := List.any_eq_true.2 ⟨e, he, by simp [hk]⟩
    simp [hany] at h0
  · intro hall
    have hany : ¬ (m.any (fun e => e.1 == k) = true) := by
      intro h
      obtain ⟨e, he, hk⟩ := List.any_eq_true.1 h
      exact hall e he (by simpa using hk)
    simp [hany]

/-- Assignment of a new key adds one entry. -/
theorem map_assign_perm (m : List (Nat × Int)) (k : Nat) (v : Int)
    (h : map_count m k = 0) : (map_assign m k v).Perm ((k, v) :: m) := by
  induction m with
  | nil => exact List.Perm.refl _
  | cons e rest ih =>
    obtain ⟨k0, v0⟩ := e
    have hall := (map_count_eq_zero _ _).1 h
    have hk0 : k0 ≠ k := hall (k0, v0) (List.mem_cons_self _ _)
    have hrest : map_count rest k = 0 :=
      (map_count_eq_zero _ _).2 (fun e he => hall e (List.mem_cons_of_mem _ he))
    unfold map_assign
    by_cases hlt : k < k0
    · simp only [hlt, if_true]
      exact List.Perm.refl _
    · have hne : ¬ k = k0 := fun h => hk0 h.symm
      simp only [hlt, hne, if_false]
      exact ((ih hrest).cons (k0, v0)).trans (List.Perm.swap _ _ _)

/-- The accounting invariant survives the removal of map entries. -/
theorem buffers_accounted_of_sublist (N : Nat) (s s' : PercivalEmulatorFrameDecoder)
    (h : buffers_accounted N s) (hq : s'.empty_buffer_queue_ = s.empty_buffer_queue_)
    (hm : s'.frame_buffer_map_.Sublist s.frame_buffer_map_) : buffers_accounted N s' := by
  obtain ⟨h1, h2, h3, h4⟩ := h
  have hv : (s'.frame_buffer_map_.map Prod.snd).Sublist (s.frame_buffer_map_.map Prod.snd) :=
    hm.map Prod.snd
  refine ⟨hq ▸ h1, h2.sublist hv, ?_, ?_⟩
  · intro id hid hin
    rw [hq] at hid
    exact h3 id hid (hv.subset hin)
  · rw [hq]
    have := hm.length_le
    omega

/-- The method `monitor_buffers` keeps the accounting invariant. -/
theorem monitor_buffers_accounted (N : Nat) (s : PercivalEmulatorFrameDecoder) (now : Timespec)
    (h : buffers_accounted N s) : buffers_accounted N (monitor_buffers s now) := by
  refine buffers_accounted_of_sublist N s (monitor_buffers s now) h rfl ?_
  have h1 := (monitor_loop_spec s.frame_timeout_ms_ now s.frame_buffer_map_ s.buffers).1
  show (monitor_loop s.frame_timeout_ms_ now s.frame_buffer_map_ s.buffers).1.Sublist _
  rw [h1]
  exact List.filter_sublist _

/-- The method `process_packet` keeps the accounting invariant. -/
theorem process_packet_accounted (c : Constants) (N : Nat) (s s' : PercivalEmulatorFrameDecoder)
    (n : Nat) (st : FrameReceiveState) (hp : process_packet c s n = some (st, s'))
    (h : buffers_accounted N s) : buffers_accounted N s' := by
  obtain ⟨_, _, _, _, _, _, hq, hT, hI, hC⟩ := process_packet_frame c s s' n st hp
  refine buffers_accounted_of_sublist N s s' h hq ?_
  cases hd : s.dropping_frame_data_ with
  | true => rw [(hI (Or.inr hd)).2.1]
  | false =>
    cases st with
    | Incomplete => rw [(hI (Or.inl rfl)).2.1]
    | Timedout => exact absurd rfl hT
    | Complete =>
      rw [(hC ⟨rfl, hd⟩).2.1]
      exact List.filter_sublist _

/-- The binding of a frame keeps the accounting invariant. -/
theorem bind_frame_accounted (N : Nat) (s s' : PercivalEmulatorFrameDecoder) (f : Nat)
    (now : Timespec) (hb : bind_frame s f now = some s') (h : buffers_accounted N s) :
    buffers_accounted N s' := by
  rcases bind_frame_cases s f now with ⟨_, h2⟩ | ⟨_, _, h2⟩ | ⟨_, _, _, h2⟩ |
      ⟨_, habs, front, rest, hq, h2⟩ <;> rw [h2] at hb <;> cases hb
  · exact h
  · exact buffers_accounted_of_sublist N s _ h rfl (List.Sublist.refl _)
  · exact buffers_accounted_of_sublist N s _ h rfl (List.Sublist.refl _)
  · obtain ⟨h1, h2, h3, h4⟩ := h
    rw [hq] at h1 h3 h4
    have hperm := map_assign_perm s.frame_buffer_map_ f front habs
    have hvals : ((map_assign s.frame_buffer_map_ f front).map Prod.snd).Perm
        (front :: s.frame_buffer_map_.map Prod.snd) := hperm.map Prod.snd
    have hfront : front ∉ s.frame_buffer_map_.map Prod.snd := h3 front (List.mem_cons_self _ _)
    refine ⟨(List.nodup_cons.1 h1).2, ?_, ?_, ?_⟩
    · exact hvals.nodup_iff.2 (List.nodup_cons.2 ⟨hfront, h2⟩)
    · intro id hid hin
      have hin2 := hvals.subset hin
      rcases List.mem_cons.1 hin2 with heq | hmem
      · subst heq
        exact (List.nodup_cons.1 h1).1 hid
      · exact h3 id (List.mem_cons_of_mem _ hid) hmem
    · show rest.length + (map_assign s.frame_buffer_map_ f front).length ≤ N
      rw [hperm.length_eq]
      simp only [List.length_cons] at h4 ⊢
      omega

/-- Every call keeps the accounting invariant. -/
theorem step_accounted (c : Constants) (N : Nat) (s s' : PercivalEmulatorFrameDecoder) (o : Op)
    (hs : step c s o = some s') (h : buffers_accounted N s) : buffers_accounted N s' := by
  cases o with
  | header hdr n now =>
    simp only [step] at hs
    rw [process_packet_header_eq] at hs
    cases hb : bind_frame (receive_header s hdr) (effective_frame c (receive_header s hdr)) now with
    | none => rw [hb] at hs; cases hs
    | some s4 =>
      rw [hb] at hs
      have h4 : buffers_accounted N s4 := bind_frame_accounted N _ s4 _ now hb h
      obtain ⟨_, _, _, _, _, _, _, hq, hm, _⟩ := mark_packet_frame _ _ _ _ _ hs
      exact buffers_accounted_of_sublist N s4 s' h4 hq (hm ▸ List.Sublist.refl _)
  | payload n =>
    simp only [step] at hs
    cases hp : process_packet c s n with
    | none => rw [hp] at hs; cases hs
    | some r =>
      obtain ⟨st, s1⟩ := r
      rw [hp] at hs
      cases hs
      exact process_packet_accounted c N s s1 n st hp h
  | tick now =>
    simp only [step] at hs
    cases hs
    exact monitor_buffers_accounted N s now h

/-- Every sequence of calls keeps the accounting invariant. -/
theorem run_ops_accounted (c : Constants) (N : Nat) (ops : List Op) :
    ∀ s s' : PercivalEmulatorFrameDecoder, run_ops c s ops = some s' →
      buffers_accounted N s → buffers_accounted N s' := by
  induction ops with
  | nil => intro s s' h hi; cases h; exact hi
  | cons o os ih =>
    intro s s' h hi
    simp only [run_ops] at h
    cases hs : step c s o with
    | none => rw [hs] at h; cases h
    | some s1 =>
      rw [hs] at h
      exact ih s1 s' h (step_accounted c N s s1 o hs hi)

/-- A sequence of packets is the header of the first, then the rest. -/
theorem run_packets_cons (c : Constants) (s : PercivalEmulatorFrameDecoder)
    (p : List Byte × Timespec) (ps : List (List Byte × Timespec)) :
    run_packets c s (p :: ps) =
      (process_packet_header c (receive_header s p.1) p.1.length p.2).bind
        (fun s1 => run_from_payload c s1 ps) := by
  simp only [run_packets, on_packet, run_from_payload]
  cases process_packet_header c (receive_header s p.1) p.1.length p.2 <;> rfl

/-- Two sequences of packets one after the other. -/
theorem run_packets_append (c : Constants) (ps qs : List (List Byte × Timespec)) :
    ∀ s, run_packets c s (ps ++ qs) = (run_packets c s ps).bind (fun s1 => run_packets c s1 qs) := by
  induction ps with
  | nil => intro s; rfl
  | cons p ps ih =>
    intro s
    simp only [List.cons_append, run_packets]
    cases on_packet c s p.1 p.2 with
    | none => rfl
    | some r => exact ih r.2

/-- An erased key has count 0. -/
theorem map_count_erase (m : List (Nat × Int)) (k : Nat) : map_count (map_erase m k) k = 0 := by
  rw [map_count_eq_zero]
  intro e he
  simp only [map_erase, List.mem_filter, Bool.not_eq_true', beq_eq_false_iff_ne] at he
  exact he.2

/-- A header of the current frame, bound to a pool buffer, succeeds and leaves
the packet count of the buffer alone. -/
theorem header_same_pool (c : Constants) (s : PercivalEmulatorFrameDecoder) (hdr : List Byte)
    (n : Nat) (now : Timespec) (a : Int)
    (hs : effective_frame c (receive_header s hdr) = s.current_frame_seen_)
    (hp : s.current_frame_header_ = .pool a) :
    ∃ s', process_packet_header c (receive_header s hdr) n now = some s' ∧
      s'.current_frame_seen_ = s.current_frame_seen_ ∧
      s'.current_frame_buffer_id_ = s.current_frame_buffer_id_ ∧
      s'.current_frame_header_ = .pool a ∧
      s'.dropping_frame_data_ = s.dropping_frame_data_ ∧
      s'.empty_buffer_queue_ = s.empty_buffer_queue_ ∧
      s'.frame_buffer_map_ = s.frame_buffer_map_ ∧
      s'.ready_calls = s.ready_calls ∧
      (s'.buffers a).packets_received = (s.buffers a).packets_received := by
  have hp1 : (receive_header s hdr).current_frame_header_ = .pool a := hp
  have hstep : process_packet_header c (receive_header s hdr) n now =
      mark_packet (receive_header s hdr) (get_packet_type (receive_header s hdr))
        (get_subframe_number (receive_header s hdr)) (get_packet_number c (receive_header s hdr)) := by
    rw [process_packet_header_eq, bind_frame_same (receive_header s hdr) _ now hs]; rfl
  obtain ⟨s', hs'⟩ : ∃ s', process_packet_header c (receive_header s hdr) n now = some s' := by
    rw [hstep, mark_packet_pool _ a _ _ _ hp1]; exact ⟨_, rfl⟩
  rw [hstep] at hs'
  obtain ⟨_, h2, h3, _, h5, h6, _, h8, h9, h10, h11, _⟩ := mark_packet_frame _ _ _ _ _ hs'
  rw [← hstep] at hs'
  exact ⟨s', hs', h2, h3, h5.trans hp, h6, h8, h9, h10, (h11 a).1⟩

/-- The payload of a packet that is not the last of its frame. -/
theorem payload_mid (c : Constants) (s : PercivalEmulatorFrameDecoder) (n : Nat) (a : Int)
    (hp : s.current_frame_header_ = .pool a)
    (hlt : (s.buffers a).packets_received + 1 < c.num_frame_packets)
    (hN : c.num_frame_packets < 2 ^ 32) :
    ∃ s', process_packet c s n = some (FrameReceiveState.Incomplete, s') ∧
      s'.current_frame_seen_ = s.current_frame_seen_ ∧
      s'.current_frame_buffer_id_ = s.current_frame_buffer_id_ ∧
      s'.current_frame_header_ = .pool a ∧
      s'.dropping_frame_data_ = s.dropping_frame_data_ ∧
      s'.empty_buffer_queue_ = s.empty_buffer_queue_ ∧
      s'.frame_buffer_map_ = s.frame_buffer_map_ ∧
      s'.ready_calls = s.ready_calls ∧
      (s'.buffers a).packets_received = (s.buffers a).packets_received + 1 := by
  have hmod : ((s.buffers a).packets_received + 1) % 2 ^ 32 = (s.buffers a).packets_received + 1 :=
    Nat.mod_eq_of_lt (by omega)
  have hne : ¬ ((s.buffers a).packets_received + 1) % 2 ^ 32 = c.num_frame_packets := by
    rw [hmod]; omega
  have h := process_packet_pool c s n a hp
  rw [if_neg hne] at h
  refine ⟨_, h, rfl, rfl, hp, rfl, rfl, rfl, rfl, ?_⟩
  simp only [if_true]
  exact hmod

/-- The payload of the last packet of a frame in a pool buffer while the
decoder is not dropping. -/
theorem payload_final (c : Constants) (s : PercivalEmulatorFrameDecoder) (n : Nat) (a : Int)
    (hp : s.current_frame_header_ = .pool a)
    (heq : (s.buffers a).packets_received + 1 = c.num_frame_packets)
    (hN : c.num_frame_packets < 2 ^ 32)
    (hd : s.dropping_frame_data_ = false) :
    ∃ s', process_packet c s n = some (FrameReceiveState.Complete, s') ∧
      s'.current_frame_seen_ = minus_one_u32 ∧
      s'.empty_buffer_queue_ = s.empty_buffer_queue_ ∧
      s'.frame_buffer_map_ = map_erase s.frame_buffer_map_ s.current_frame_seen_ ∧
      s'.ready_calls = s.ready_calls ++ [(s.current_frame_buffer_id_, s.current_frame_seen_)] := by
  have hmod : ((s.buffers a).packets_received + 1) % 2 ^ 32 = c.num_frame_packets := by
    rw [Nat.mod_eq_of_lt (by omega)]; exact heq
  have h := process_packet_pool c s n a hp
  rw [if_pos hmod, hd] at h
  simp only [Bool.false_eq_true, if_false] at h
  exact ⟨_, h, rfl, rfl, rfl, rfl⟩

/-- The packets of a frame from the payload of one of them to the last. -/
theorem frame_rest (c : Constants) (f : Nat) (a : Int) (s0 : PercivalEmulatorFrameDecoder)
    (hN : c.num_frame_packets < 2 ^ 32) (pkts : List (List Byte × Timespec)) :
    ∀ s : PercivalEmulatorFrameDecoder,
      s.current_frame_seen_ = f → s.current_frame_header_ = .pool a →
      s.current_frame_buffer_id_ = a → s.dropping_frame_data_ = false →
      (s.buffers a).packets_received + 1 + pkts.length = c.num_frame_packets →
      (∀ p ∈ pkts, effective_frame c (receive_header s0 p.1) = f) →
      ∃ s', run_from_payload c s pkts = some s' ∧
        s'.current_frame_seen_ = minus_one_u32 ∧
        s'.empty_buffer_queue_ = s.empty_buffer_queue_ ∧
        s'.frame_buffer_map_ = map_erase s.frame_buffer_map_ f ∧
        s'.ready_calls = s.ready_calls ++ [(a, f)] := by
  induction pkts with
  | nil =>
    intro s hs hp hid hd hcount _
    obtain ⟨s', h, h1, h2, h3, h4⟩ :=
      payload_final c s (get_next_payload_size c s) a hp (by simpa using hcount) hN hd
    refine ⟨s', ?_, h1, h2, ?_, ?_⟩
    · simp only [run_from_payload, h, run_packets]
    · rw [h3, hs]
    · rw [h4, hs, hid]
  | cons p ps ih =>
    intro s hs hp hid hd hcount hall
    simp only [List.length_cons] at hcount
    obtain ⟨s1, h, h1, h2, h3, h4, h5, h6, h7, h8⟩ :=
      payload_mid c s (get_next_payload_size c s) a hp (by omega) hN
    have hf : effective_frame c (receive_header s1 p.1) = s1.current_frame_seen_ := by
      rw [effective_frame_receive c s1 s0 p.1, hall p (List.mem_cons_self _ _), h1, hs]
    obtain ⟨s2, g, g1, g2, g3, g4, g5, g6, g7, g8⟩ :=
      header_same_pool c s1 p.1 p.1.length p.2 a hf h3
    obtain ⟨s', k, k1, k2, k3, k4⟩ := ih s2 (g1.trans (h1.trans hs)) g3 (g2.trans (h2.trans hid))
      (g4.trans (h4.trans hd)) (by rw [g8, h8]; omega)
      (fun q hq => hall q (List.mem_cons_of_mem _ hq))
    refine ⟨s', ?_, k1, ?_, ?_, ?_⟩
    · simp only [run_from_payload, h]
      rw [run_packets_cons, g]
      exact k
    · rw [k2, g5, h5]
    · rw [k3, g6, h6]
    · rw [k4, g7, h7]

/-- The packets of a new frame, from the first header to the last payload. -/
theorem frame_complete (c : Constants) (f : Nat) (a : Int) (rest : List Int)
    (s : PercivalEmulatorFrameDecoder) (pkts : List (List Byte × Timespec))
    (hN : c.num_frame_packets < 2 ^ 32)
    (hseen : f ≠ s.current_frame_seen_)
    (habs : map_count s.frame_buffer_map_ f = 0)
    (hq : s.empty_buffer_queue_ = a :: rest)
    (hlen : pkts.length = c.num_frame_packets) (hpos : 0 < c.num_frame_packets)
    (hall : ∀ p ∈ pkts, effective_frame c (receive_header s p.1) = f) :
    ∃ s', run_packets c s pkts = some s' ∧
      s'.current_frame_seen_ = minus_one_u32 ∧
      s'.empty_buffer_queue_ = rest ∧
      map_count s'.frame_buffer_map_ f = 0 ∧
      s'.ready_calls = s.ready_calls ++ [(a, f)] := by
  cases pkts with
  | nil => simp only [List.length_nil] at hlen; omega
  | cons p ps =>
    simp only [List.length_cons] at hlen
    have hf : effective_frame c (receive_header s p.1) = f := hall p (List.mem_cons_self _ _)
    have hb := bind_frame_acquire (receive_header s p.1) f p.2 a rest hseen habs hq
    obtain ⟨s1, h1, e1, e2, e3, e4, e5, e6, e7⟩ :
        ∃ s1, process_packet_header c (receive_header s p.1) p.1.length p.2 = some s1 ∧
          s1.current_frame_seen_ = f ∧ s1.current_frame_header_ = .pool a ∧
          s1.current_frame_buffer_id_ = a ∧ s1.dropping_frame_data_ = false ∧
          (s1.buffers a).packets_received = 0 ∧
          s1.empty_buffer_queue_ = rest ∧
          (s1.frame_buffer_map_ = map_assign s.frame_buffer_map_ f a ∧
            s1.ready_calls = s.ready_calls) := by
      rw [process_packet_header_eq, hf, hb]
      simp only [Option.bind]
      rw [mark_packet_pool _ a _ _ _ rfl]
      refine ⟨_, rfl, rfl, rfl, rfl, rfl, ?_, rfl, rfl, rfl⟩
      simp
    obtain ⟨s', k, k1, k2, k3, k4⟩ := frame_rest c f a s hN ps s1 e1 e2 e3 e4
      (by rw [e5]; omega) (fun q hq => hall q (List.mem_cons_of_mem _ hq))
    refine ⟨s', ?_, k1, k2.trans e6, ?_, ?_⟩
    · rw [run_packets_cons, h1]; exact k
    · rw [k3]; exact map_count_erase _ _
    · rw [k4, e7.2]

/-- Every header of `frame_11_calls` carries frame number 11. -/
theorem frame_11_calls_headers (hdr : List Byte) (n : Nat) (now : Timespec)
    (hm : Op.header hdr n now ∈ frame_11_calls) :
    effective_frame example_constants (receive_header exhausted_state hdr) =
      effective_frame example_constants exhausted_state := by
  simp only [frame_11_calls, List.mem_cons, Op.header.injEq, List.mem_singleton, false_or,
    or_false, reduceCtorEq, List.not_mem_nil] at hm
  rcases hm with ⟨rfl, _, _⟩ | ⟨rfl, _, _⟩ <;> rfl

/-! # The claims -/

/-- C1: after the free queue ran dry for frame 11, the last packet of frame 10
arrives; frame 10 is bound to the real pool buffer 0 and the incremented
`packets_received` equals `num_frame_packets`, yet `process_packet` returns
complete without invoking ready and without erasing the map entry. -/
theorem C1_complete_frame_in_pool_buffer_not_emitted :
    resumed_frame_state.map (fun s =>
        (s.current_frame_buffer_, s.current_frame_header_, s.current_frame_seen_,
          s.frame_buffer_map_, s.dropping_frame_data_,
          ((s.buffers 0).packets_received + 1) % 2 ^ 32, example_constants.num_frame_packets,
          s.ready_calls))
      = some (BufRef.pool 0, BufRef.pool 0, 10, [(10, 0)], true, 3, 3, []) ∧
    (resumed_frame_state.bind (fun s => process_packet example_constants s 512)).map (fun r =>
        (r.1, r.2.ready_calls, r.2.frame_buffer_map_, (r.2.buffers 0).frame_state,
          (r.2.buffers 0).packets_received))
      = some (FrameReceiveState.Complete, [], [(10, 0)], FrameReceiveState.Complete, 3) := by
  constructor <;> rfl

/-- C2: `process_packet_header` works with the effective frame number (the
decoded frame number plus 1 modulo 2^32 for a sample packet, the decoded frame
number otherwise): it becomes the current frame, it is the key of the map
lookup and of the new map entry, it is written to the frame header of a newly
bound buffer, and it is the frame number a following `process_packet` passes
to ready.  A following header with the same effective frame number (directly,
or after a `process_packet` that returns incomplete) leaves the current
buffer, the map and the free queue as they are; a sample header with frame f
and a header of another type with frame f+1 have the same effective frame
number. -/
theorem C2_sample_frame_number_incremented (c : Constants) (s s' : PercivalEmulatorFrameDecoder)
    (n : Nat) (now : Timespec) (h : process_packet_header c s n now = some s') :
    effective_frame c s =
        (if get_packet_type s = c.PacketTypeSample then (get_frame_number c s + 1) % 2 ^ 32
          else get_frame_number c s) ∧
    s'.current_frame_seen_ = effective_frame c s ∧
    (effective_frame c s ≠ s.current_frame_seen_ →
      (map_count s.frame_buffer_map_ (effective_frame c s) ≠ 0 →
        s'.current_frame_buffer_ = .pool (map_at s.frame_buffer_map_ (effective_frame c s)) ∧
        s'.frame_buffer_map_ = s.frame_buffer_map_) ∧
      (map_count s.frame_buffer_map_ (effective_frame c s) = 0 →
        ∀ front rest, s.empty_buffer_queue_ = front :: rest →
          s'.frame_buffer_map_ = map_assign s.frame_buffer_map_ (effective_frame c s) front ∧
          s'.current_frame_buffer_ = .pool front ∧
          (s'.buffers front).frame_number = effective_frame c s)) ∧
    (∀ m st s'', process_packet c s' m = some (st, s'') →
      s''.ready_calls = s'.ready_calls ∨
      s''.ready_calls = s'.ready_calls ++ [(s'.current_frame_buffer_id_, effective_frame c s)]) ∧
    (∀ hdr2 n2 now2 s2,
      effective_frame c (receive_header s' hdr2) = effective_frame c s →
      process_packet_header c (receive_header s' hdr2) n2 now2 = some s2 →
      s2.current_frame_buffer_ = s'.current_frame_buffer_ ∧
      s2.frame_buffer_map_ = s'.frame_buffer_map_ ∧
      s2.empty_buffer_queue_ = s'.empty_buffer_queue_) ∧
    (∀ m s1 hdr2 n2 now2 s2,
      effective_frame c (receive_header s1 hdr2) = effective_frame c s →
      process_packet c s' m = some (FrameReceiveState.Incomplete, s1) →
      process_packet_header c (receive_header s1 hdr2) n2 now2 = some s2 →
      s2.current_frame_buffer_ = s'.current_frame_buffer_ ∧
      s2.frame_buffer_map_ = s'.frame_buffer_map_ ∧
      s2.empty_buffer_queue_ = s'.empty_buffer_queue_) ∧
    (∀ sa sb : PercivalEmulatorFrameDecoder,
      get_packet_type sa = c.PacketTypeSample →
      get_packet_type sb ≠ c.PacketTypeSample →
      get_frame_number c sb = (get_frame_number c sa + 1) % 2 ^ 32 →
      effective_frame c sa = effective_frame c sb) := by
  have hseen : s'.current_frame_seen_ = effective_frame c s := by
    rw [process_packet_header_eq] at h
    cases hb : bind_frame s (effective_frame c s) now with
    | none => rw [hb] at h; cases h
    | some s4 =>
      rw [hb] at h
      have h1 := (mark_packet_frame _ _ _ _ _ h).2.1
      rw [h1]
      exact bind_frame_seen s s4 _ now hb
  refine ⟨rfl, hseen, ?_, ?_, ?_, ?_, ?_⟩
  · intro hne
    rw [process_packet_header_eq] at h
    constructor
    · intro hpres
      rw [bind_frame_rebind s _ now hne hpres] at h
      obtain ⟨_, _, _, h4, _, _, _, _, h9, _⟩ := mark_packet_frame _ _ _ _ _ h
      exact ⟨h4, h9⟩
    · intro habs front rest hq
      rw [bind_frame_acquire s _ now front rest hne habs hq] at h
      obtain ⟨_, _, _, h4, _, _, _, _, h9, _, h11, _⟩ := mark_packet_frame _ _ _ _ _ h
      refine ⟨h9, h4, ?_⟩
      rw [(h11 front).2.1]
      simp
  · intro m st s'' hp
    have hfr := process_packet_frame c s' s'' m st hp
    obtain ⟨_, _, _, _, _, _, _, hT, hI, hC⟩ := hfr
    cases hd : s'.dropping_frame_data_ with
    | true => exact Or.inl (hI (Or.inr hd)).2.2
    | false =>
      cases st with
      | Incomplete => exact Or.inl (hI (Or.inl rfl)).2.2
      | Timedout => exact absurd rfl hT
      | Complete =>
        right
        rw [(hC ⟨rfl, hd⟩).2.2, hseen]
  · intro hdr2 n2 now2 s2 heff h2
    have hf2 : effective_frame c (receive_header s' hdr2) =
        (receive_header s' hdr2).current_frame_seen_ := by
      show effective_frame c (receive_header s' hdr2) = s'.current_frame_seen_
      rw [hseen, heff]
    obtain ⟨_, _, h3, _, _, h6, h7, _⟩ := process_packet_header_same c _ s2 n2 now2 hf2 h2
    exact ⟨h3, h7, h6⟩
  · intro m s1 hdr2 n2 now2 s2 heff hp h2
    have hfr := process_packet_frame c s' s1 m _ hp
    obtain ⟨_, _, hb, _, _, _, hq, _, hI, _⟩ := hfr
    obtain ⟨hs1, hm1, _⟩ := hI (Or.inl rfl)
    have hf2 : effective_frame c (receive_header s1 hdr2) =
        (receive_header s1 hdr2).current_frame_seen_ := by
      show effective_frame c (receive_header s1 hdr2) = s1.current_frame_seen_
      rw [hs1, hseen, heff]
    obtain ⟨_, _, h3, _, _, h6, h7, _⟩ := process_packet_header_same c _ s2 n2 now2 hf2 h2
    exact ⟨h3.trans hb, h7.trans hm1, h6.trans hq⟩
  · intro sa sb hta htb hfn
    unfold effective_frame
    rw [if_pos hta, if_neg htb, hfn]

/-- C2 at a sample packet with hardware frame number 41 on a fresh decoder:
the current frame becomes 42. -/
theorem C2_sample_frame_number_incremented_witness :
    process_packet_header example_constants sample_41_state 22 time_zero = some after_sample_41 ∧
    get_frame_number example_constants sample_41_state = 41 ∧
    after_sample_41.current_frame_seen_ = effective_frame example_constants sample_41_state ∧
    effective_frame example_constants sample_41_state = 42 :=
  ⟨rfl, rfl,
    (C2_sample_frame_number_incremented example_constants sample_41_state after_sample_41 22
      time_zero rfl).2.1, rfl⟩

/-- C3: buffer 0 comes back from frame 4 with the marks of its three packets;
the first header of frame 5 takes it from the head of the free queue, maps it
to frame 5 and sets `frame_number`, `frame_state` and `packets_received`, but
`packet_state` keeps the marks of packets 1 and 2 of frame 4 next to the mark
of this header. -/
theorem C3_packet_state_not_cleared_on_acquire :
    reused_buffer_state.map (fun s =>
        (s.empty_buffer_queue_, s.frame_buffer_map_, s.current_frame_seen_, s.ready_calls))
      = some ([0], [], minus_one_u32, [(0, 4)]) ∧
    (reused_buffer_state.bind (fun s =>
        process_packet_header example_constants (receive_header s (wire_header 1 0 5 0))
          22 time_zero)).map (fun s =>
        (s.frame_buffer_map_, s.current_frame_buffer_, (s.buffers 0).frame_number,
          (s.buffers 0).frame_state, (s.buffers 0).packets_received,
          (s.buffers 0).packet_state 1 0 0, (s.buffers 0).packet_state 1 0 1,
          (s.buffers 0).packet_state 1 0 2))
      = some ([(5, 0)], BufRef.pool 0, 5, FrameReceiveState.Incomplete, 0, 1, 1, 1) := by
  constructor <;> rfl

/-- C4: a header that starts a frame (its effective frame number differs from
`current_frame_seen_`) which is not in the map, while the free queue is empty,
binds the current buffer to the drop buffer, sets `dropping_frame_data_` and
leaves the free queue and the map as they are; and in every following sequence
of calls whose headers all carry that frame number, every call succeeds and
no `process_packet` call invokes ready, whatever `packets_received` reaches. -/
theorem C4_exhausted_pool_drops_frame (c : Constants) (s : PercivalEmulatorFrameDecoder)
    (n : Nat) (now : Timespec)
    (hne : effective_frame c s ≠ s.current_frame_seen_)
    (habs : map_count s.frame_buffer_map_ (effective_frame c s) = 0)
    (hq : s.empty_buffer_queue_ = []) :
    ∃ s', process_packet_header c s n now = some s' ∧
      s'.current_frame_buffer_ = .dropped ∧
      s'.dropping_frame_data_ = true ∧
      s'.empty_buffer_queue_ = s.empty_buffer_queue_ ∧
      s'.frame_buffer_map_ = s.frame_buffer_map_ ∧
      s'.ready_calls = s.ready_calls ∧
      ∀ ops : List Op,
        (∀ hdr n2 now2, Op.header hdr n2 now2 ∈ ops →
          effective_frame c (receive_header s hdr) = effective_frame c s) →
        ∃ s'', run_ops c s' ops = some s'' ∧ payload_calls c s' ops = [] ∧
          s''.dropping_frame_data_ = true ∧ s''.current_frame_buffer_ = .dropped := by
  have h := process_packet_header_eq c s n now
  rw [bind_frame_drop s _ now hne habs hq] at h
  simp only [Option.bind] at h
  rw [mark_packet_dropped _ _ _ _ rfl] at h
  obtain ⟨s', h, f1, f2, f3, f4, f5, f6, f7⟩ : ∃ s', process_packet_header c s n now = some s' ∧
      s'.current_frame_buffer_ = .dropped ∧ s'.dropping_frame_data_ = true ∧
      s'.empty_buffer_queue_ = s.empty_buffer_queue_ ∧ s'.frame_buffer_map_ = s.frame_buffer_map_ ∧
      s'.ready_calls = s.ready_calls ∧ s'.current_frame_seen_ = effective_frame c s ∧
      s'.current_frame_header_ = .dropped := ⟨_, h, rfl, rfl, rfl, rfl, rfl, rfl, rfl⟩
  refine ⟨s', h, f1, f2, f3, f4, f5, ?_⟩
  intro ops hall
  obtain ⟨s'', h1, h2, h3, _, h5⟩ :=
    dropping_run c (effective_frame c s) s ops s' f2 f6 f7 f1 hall
  exact ⟨s'', h1, h2, h3, h5⟩

/-- C4 at a pool of one buffer taken by frame 10 when frame 11 starts: the
calls for the three packets of frame 11 make no ready call. -/
theorem C4_exhausted_pool_drops_frame_witness :
    (effective_frame example_constants exhausted_state ≠ exhausted_state.current_frame_seen_ ∧
      map_count exhausted_state.frame_buffer_map_ (effective_frame example_constants exhausted_state)
        = 0 ∧
      exhausted_state.empty_buffer_queue_ = [] ∧
      exhausted_state.frame_buffer_map_ = [(10, 0)] ∧
      exhausted_state.current_frame_seen_ = 10) ∧
    ∃ s', process_packet_header example_constants exhausted_state 22 time_zero = some s' ∧
      s'.current_frame_buffer_ = .dropped ∧
      s'.dropping_frame_data_ = true ∧
      s'.empty_buffer_queue_ = exhausted_state.empty_buffer_queue_ ∧
      s'.frame_buffer_map_ = exhausted_state.frame_buffer_map_ ∧
      s'.ready_calls = exhausted_state.ready_calls ∧
      ∃ s'', run_ops example_constants s' frame_11_calls = some s'' ∧
        payload_calls example_constants s' frame_11_calls = [] ∧
        s''.dropping_frame_data_ = true ∧ s''.current_frame_buffer_ = .dropped :=
  ⟨⟨by decide, by decide, rfl, rfl, rfl⟩,
    (C4_exhausted_pool_drops_frame example_constants exhausted_state 22 time_zero
      (by decide) (by decide) rfl).imp
      (fun _ h => ⟨h.1, h.2.1, h.2.2.1, h.2.2.2.1, h.2.2.2.2.1, h.2.2.2.2.2.1,
        h.2.2.2.2.2.2 frame_11_calls frame_11_calls_headers⟩)⟩

/-- C6: from a decoder whose free queue holds N pairwise distinct buffer ids
and whose map is empty, after every sequence of `process_packet_header`,
`process_packet` and `monitor_buffers` calls the free queue and the map
together hold at most N entries, the buffer ids in the map are pairwise
distinct, and no id of the free queue is in the map. -/
theorem C6_free_and_in_flight_bounded (c : Constants) (N : Nat)
    (s0 s : PercivalEmulatorFrameDecoder) (ops : List Op)
    (hnd : s0.empty_buffer_queue_.Nodup) (hN : s0.empty_buffer_queue_.length = N)
    (hmap : s0.frame_buffer_map_ = []) (hrun : run_ops c s0 ops = some s) :
    s.empty_buffer_queue_.length + s.frame_buffer_map_.length ≤ N ∧
    (s.frame_buffer_map_.map Prod.snd).Nodup ∧
    (∀ id ∈ s.empty_buffer_queue_, id ∉ s.frame_buffer_map_.map Prod.snd) := by
  have h0 : buffers_accounted N s0 := by
    refine ⟨hnd, ?_, ?_, ?_⟩
    · rw [hmap]; exact List.nodup_nil
    · intro id _ hin
      rw [hmap] at hin
      cases hin
    · rw [hmap, hN]; exact Nat.le_refl _
  obtain ⟨_, h2, h3, h4⟩ := run_ops_accounted c N ops s0 s hrun h0
  exact ⟨h4, h2, h3⟩

/-- C6 at a pool of two buffers after `accounting_calls`: frame 10 has been
completed and frame 11 has timed out, so the free queue and the map are both
empty. -/
theorem C6_free_and_in_flight_bounded_witness :
    ((fresh_decoder [0, 1]).empty_buffer_queue_.Nodup ∧
      (fresh_decoder [0, 1]).empty_buffer_queue_.length = 2 ∧
      (fresh_decoder [0, 1]).frame_buffer_map_ = [] ∧
      run_ops example_constants (fresh_decoder [0, 1]) accounting_calls
        = some after_accounting_calls) ∧
    (after_accounting_calls.empty_buffer_queue_.length
        + after_accounting_calls.frame_buffer_map_.length ≤ 2 ∧
      (after_accounting_calls.frame_buffer_map_.map Prod.snd).Nodup ∧
      (∀ id ∈ after_accounting_calls.empty_buffer_queue_,
        id ∉ after_accounting_calls.frame_buffer_map_.map Prod.snd)) :=
  ⟨⟨by decide, rfl, rfl, rfl⟩,
    C6_free_and_in_flight_bounded example_constants 2 (fresh_decoder [0, 1])
      after_accounting_calls accounting_calls (by decide) rfl rfl rfl⟩

/-- C7: for the frame number 2^32 - 1, the value that `current_frame_seen_`
is reset to after an emission, the three packets of the frame sent twice, with
buffers 1 and 2 in the free queue, give one ready call and not two: the first
header of the second sequence equals the reset value, so it is not treated as
a new frame, no buffer is taken, and the second sequence is written into
buffer 1, which was handed over with the first ready call (`packets_received`
goes on from 3 to 6).  On a fresh decoder the first header with that frame
number finds no current buffer at all and dereferences the null
`current_frame_header_`. -/
theorem C7_sentinel_frame_number_completes_once :
    frame_7_in_flight.empty_buffer_queue_ = [1, 2] ∧
    frame_7_in_flight.current_frame_seen_ = 7 ∧
    map_count frame_7_in_flight.frame_buffer_map_ 4294967295 = 0 ∧
    (frame_packets 4294967295).length = example_constants.num_frame_packets ∧
    (frame_packets 4294967295).map
      (fun p => effective_frame example_constants (receive_header frame_7_in_flight p.1))
      = [4294967295, 4294967295, 4294967295] ∧
    (run_packets example_constants frame_7_in_flight (frame_packets 4294967295)).map
      (fun s => (s.ready_calls, s.empty_buffer_queue_, s.current_frame_seen_,
        (s.buffers 1).packets_received, (s.buffers 1).frame_state))
      = some ([(1, 4294967295)], [2], minus_one_u32, 3, FrameReceiveState.Complete) ∧
    (run_packets example_constants frame_7_in_flight
        (frame_packets 4294967295 ++ frame_packets 4294967295)).map
      (fun s => (s.ready_calls, s.empty_buffer_queue_, (s.buffers 1).packets_received))
      = some ([(1, 4294967295)], [2], 6) ∧
    (fresh_decoder [0, 1]).current_frame_seen_ = 4294967295 ∧
    process_packet_header example_constants
      (receive_header (fresh_decoder [0, 1]) (wire_header 1 0 4294967295 0)) 22 time_zero
      = none := by
  refine ⟨rfl, rfl, rfl, rfl, rfl, rfl, rfl, rfl, rfl⟩

/-- A repeated frame number other than the reset value: for a frame number f
other than 2^32 - 1 that is neither the current frame nor in the map, with
0 < `num_frame_packets` < 2^32 and a free queue of pairwise distinct ids that
starts with a and b: `num_frame_packets` packets of frame f make one ready
call (a, f) and reset `current_frame_seen_`, and `num_frame_packets` further
packets of frame f make one more ready call (b, f), with b different from
a. -/
theorem repeated_frame_number_completes_twice (c : Constants)
    (s : PercivalEmulatorFrameDecoder) (f : Nat) (a b : Int) (rest : List Int)
    (pk1 pk2 : List (List Byte × Timespec))
    (hpos : 0 < c.num_frame_packets) (hN : c.num_frame_packets < 2 ^ 32)
    (hf : f ≠ minus_one_u32)
    (hseen : f ≠ s.current_frame_seen_)
    (habs : map_count s.frame_buffer_map_ f = 0)
    (hq : s.empty_buffer_queue_ = a :: b :: rest)
    (hnd : s.empty_buffer_queue_.Nodup)
    (hl1 : pk1.length = c.num_frame_packets) (hl2 : pk2.length = c.num_frame_packets)
    (h1 : ∀ p ∈ pk1, effective_frame c (receive_header s p.1) = f)
    (h2 : ∀ p ∈ pk2, effective_frame c (receive_header s p.1) = f) :
    ∃ s1 s2, run_packets c s pk1 = some s1 ∧
      s1.ready_calls = s.ready_calls ++ [(a, f)] ∧
      s1.current_frame_seen_ = minus_one_u32 ∧
      run_packets c s1 pk2 = some s2 ∧
      run_packets c s (pk1 ++ pk2) = some s2 ∧
      s2.ready_calls = s.ready_calls ++ [(a, f), (b, f)] ∧
      a ≠ b := by
  obtain ⟨s1, r1, e1, e2, e3, e4⟩ :=
    frame_complete c f a (b :: rest) s pk1 hN hseen habs hq hl1 hpos h1
  have hseen1 : f ≠ s1.current_frame_seen_ := by rw [e1]; exact hf
  obtain ⟨s2, r2, g1, g2, g3, g4⟩ :=
    frame_complete c f b rest s1 pk2 hN hseen1 e3 e2 hl2 hpos
      (fun p hp => (effective_frame_receive c s1 s p.1).trans (h2 p hp))
  refine ⟨s1, s2, r1, e4, e1, r2, ?_, ?_, ?_⟩
  · rw [run_packets_append, r1]; exact r2
  · rw [g4, e4, List.append_assoc]; rfl
  · rw [hq] at hnd
    intro hab
    exact (List.nodup_cons.1 hnd).1 (hab ▸ List.mem_cons_self _ _)

/-- A repeated frame number at frame 0 on a fresh decoder with buffers 0 and 1. -/
theorem repeated_frame_number_completes_twice_at_frame_0 :
    (0 < example_constants.num_frame_packets ∧ example_constants.num_frame_packets < 2 ^ 32 ∧
      (0 : Nat) ≠ minus_one_u32 ∧ (0 : Nat) ≠ (fresh_decoder [0, 1]).current_frame_seen_ ∧
      map_count (fresh_decoder [0, 1]).frame_buffer_map_ 0 = 0 ∧
      (fresh_decoder [0, 1]).empty_buffer_queue_ = 0 :: 1 :: [] ∧
      (fresh_decoder [0, 1]).empty_buffer_queue_.Nodup ∧
      (frame_packets 0).length = example_constants.num_frame_packets) ∧
    ∃ s1 s2, run_packets example_constants (fresh_decoder [0, 1]) (frame_packets 0) = some s1 ∧
      s1.ready_calls = (fresh_decoder [0, 1]).ready_calls ++ [(0, 0)] ∧
      s1.current_frame_seen_ = minus_one_u32 ∧
      run_packets example_constants s1 (frame_packets 0) = some s2 ∧
      run_packets example_constants (fresh_decoder [0, 1]) (frame_packets 0 ++ frame_packets 0)
        = some s2 ∧
      s2.ready_calls = (fresh_decoder [0, 1]).ready_calls ++ [(0, 0), (1, 0)] ∧
      (0 : Int) ≠ 1 :=
  ⟨⟨by decide, by decide, by decide, by decide, by decide, rfl, by decide, rfl⟩,
    repeated_frame_number_completes_twice example_constants (fresh_decoder [0, 1]) 0 0 1 []
      (frame_packets 0) (frame_packets 0) (by decide) (by decide) (by decide) (by decide)
      (by decide) rfl (by decide) rfl rfl (by decide) (by decide)⟩

/-- C8: the payload target of `get_next_payload_buffer` and
`get_next_payload_size` is the reference target, for constants with
`subframe_size` the bytes of a subframe and `data_type_size` the bytes of
`num_subframes` subframes: the current buffer at offset frame_header_size +
type × (num_subframes × total_subframe_bytes) + subframe × total_subframe_bytes
+ packet_number × primary_packet_size, with capacity `primary_packet_size` for
packet_number < `num_primary_packets` and `tail_packet_size` otherwise. -/
theorem C8_payload_target_matches_reference (c : Constants) (s : PercivalEmulatorFrameDecoder)
    (num_subframes total_subframe_bytes : Nat)
    (hsub : c.subframe_size = total_subframe_bytes)
    (hdata : c.data_type_size = num_subframes * total_subframe_bytes) :
    (get_next_payload_buffer c s).1 = s.current_frame_buffer_ ∧
    ((get_next_payload_buffer c s).2, get_next_payload_size c s) =
      payload_target_reference c.frame_header_size num_subframes total_subframe_bytes
        c.primary_packet_size c.num_primary_packets c.tail_packet_size
        (get_packet_type s) (get_subframe_number s) (get_packet_number c s) := by
  refine ⟨rfl, ?_⟩
  simp only [get_next_payload_buffer, get_next_payload_size, payload_target_reference, hsub, hdata]
  congr 1
  ring

/-- C8 at the example constants and the header of packet 2 of subframe 1 of
type 1: offset 1024 + 33792 + 16896 + 2 × 8192 and capacity 512. -/
theorem C8_payload_target_matches_reference_witness :
    (example_constants.subframe_size = 16896 ∧ example_constants.data_type_size = 2 * 16896) ∧
    (get_next_payload_buffer example_constants
        (receive_header (fresh_decoder [0]) (wire_header 1 1 7 2))).2 = 68096 ∧
    get_next_payload_size example_constants
        (receive_header (fresh_decoder [0]) (wire_header 1 1 7 2)) = 512 :=
  ⟨⟨rfl, rfl⟩,
    (congrArg Prod.fst (C8_payload_target_matches_reference example_constants
      (receive_header (fresh_decoder [0]) (wire_header 1 1 7 2)) 2 16896 rfl rfl).2).trans rfl,
    (congrArg Prod.snd (C8_payload_target_matches_reference example_constants
      (receive_header (fresh_decoder [0]) (wire_header 1 1 7 2)) 2 16896 rfl rfl).2).trans rfl⟩

/-- C9: for a packet header buffer that holds at least the eight bytes t, sf,
f3, f2, f1, f0, p1, p0, on a host of either byte order, the decoder returns
packet type t, subframe number sf, the big-endian frame number
f3·2^24 + f2·2^16 + f1·2^8 + f0 and the big-endian packet number p1·2^8 + p0,
whatever bytes follow. -/
theorem C9_header_fields_big_endian (c : Constants) (s : PercivalEmulatorFrameDecoder)
    (t sf f3 f2 f1 f0 p1 p0 : Byte) (rest : List Byte) :
    get_packet_type (receive_header s (t :: sf :: f3 :: f2 :: f1 :: f0 :: p1 :: p0 :: rest))
      = t.val ∧
    get_subframe_number (receive_header s (t :: sf :: f3 :: f2 :: f1 :: f0 :: p1 :: p0 :: rest))
      = sf.val ∧
    get_frame_number c (receive_header s (t :: sf :: f3 :: f2 :: f1 :: f0 :: p1 :: p0 :: rest))
      = f3.val * 2 ^ 24 + f2.val * 2 ^ 16 + f1.val * 2 ^ 8 + f0.val ∧
    get_packet_number c (receive_header s (t :: sf :: f3 :: f2 :: f1 :: f0 :: p1 :: p0 :: rest))
      = p1.val * 2 ^ 8 + p0.val := by
  have h3 := f3.isLt
  have h2 := f2.isLt
  have h1 := f1.isLt
  have h0 := f0.isLt
  have g1 := p1.isLt
  have g0 := p0.isLt
  refine ⟨rfl, rfl, ?_, ?_⟩
  · show ntohl c.little_endian (load_u32 c.little_endian f3.val f2.val f1.val f0.val) = _
    cases c.little_endian
    · simp only [ntohl, load_u32, Bool.false_eq_true, if_false]
      omega
    · simp only [ntohl, load_u32, if_true]
      omega
  · show ntohs c.little_endian (load_u16 c.little_endian p1.val p0.val) = _
    cases c.little_endian
    · simp only [ntohs, load_u16, Bool.false_eq_true, if_false]
      omega
    · simp only [ntohs, load_u16, if_true]
      omega

/-- C10: `process_packet_header` called with `bytes_received` = 0, less than
the 22 bytes of a packet header, on a fresh decoder does not fail: it takes
buffer 0 from the free queue, maps it to frame 1 (the packet header buffer
holds zero bytes, a sample packet of frame 0) and sets a `packet_state` mark,
exactly as with `bytes_received` = 22. -/
theorem C10_short_header_is_processed :
    (0 < example_constants.packet_header_size ∧
      (fresh_decoder [0]).empty_buffer_queue_ = [0] ∧
      (fresh_decoder [0]).frame_buffer_map_ = [] ∧
      ((fresh_decoder [0]).buffers 0).packet_state 0 0 0 = 0) ∧
    (process_packet_header example_constants (fresh_decoder [0]) 0 time_zero).map (fun s =>
        (s.empty_buffer_queue_, s.frame_buffer_map_, s.current_frame_buffer_,
          (s.buffers 0).packet_state 0 0 0))
      = some ([], [(1, 0)], BufRef.pool 0, 1) ∧
    (process_packet_header example_constants (fresh_decoder [0]) 22 time_zero).map (fun s =>
        (s.empty_buffer_queue_, s.frame_buffer_map_, s.current_frame_buffer_,
          (s.buffers 0).packet_state 0 0 0))
      = some ([], [(1, 0)], BufRef.pool 0, 1) := by
  refine ⟨⟨by decide, rfl, rfl, rfl⟩, rfl, rfl⟩

end FrameReceiver

/-! # Lemmas on the frame writer -/

namespace filewriter

/-- The frame number minus 1 as `size_t`, for a frame number from 1 on. -/
theorem sub_one_u64 (f : Nat) (h1 : 1 ≤ f) (hf : f < 2 ^ 64) :
    (f + (2 ^ 64 - 1)) % 2 ^ 64 = f - 1 := by
  omega

/-- The method `getFrameOffset` below the start frame offset. -/
theorem getFrameOffset_below (w : FileWriter) (f : Nat) (h : f < w.start_frame_offset_) :
    getFrameOffset w f = .error .frame_out_of_order := by
  simp [getFrameOffset, adjustFrameOffset, h]

/-- The method `getFrameOffset` of a single writer. -/
theorem getFrameOffset_single (w : FileWriter) (f : Nat) (h : w.start_frame_offset_ ≤ f)
    (hn : w.concurrent_processes_ ≤ 1) :
    getFrameOffset w f = .ok (f - w.start_frame_offset_) := by
  have h1 : ¬ f < w.start_frame_offset_ := by omega
  have h2 : ¬ w.concurrent_processes_ > 1 := by omega
  simp [getFrameOffset, adjustFrameOffset, h1, h2]

/-- The method `getFrameOffset` of one of several writers. -/
theorem getFrameOffset_striped (w : FileWriter) (f : Nat) (h : w.start_frame_offset_ ≤ f)
    (hn : 1 < w.concurrent_processes_) :
    getFrameOffset w f =
      if ((f + (2 ^ 64 - 1)) % 2 ^ 64) % w.concurrent_processes_ = w.concurrent_rank_ then
        .ok ((f - w.start_frame_offset_) / w.concurrent_processes_)
      else .error .unexpected_frame_in_rank := by
  have h1 : ¬ f < w.start_frame_offset_ := by omega
  have h2 : w.concurrent_processes_ > 1 := hn
  simp only [getFrameOffset, adjustFrameOffset, h1, h2, if_false, if_true]
  by_cases h3 : ((f + (2 ^ 64 - 1)) % 2 ^ 64) % w.concurrent_processes_ = w.concurrent_rank_
  · simp [h3]
  · simp [h3]

/-- C11 as stated fails at frame number 0: with start offset 0, rank count 3
and rank 0, `(0 - 1) mod 3` over the integers is not 0 (whichever way the
remainder of a negative number is taken), so the reference mapper fails with
WrongRank, but `getFrameOffset` returns row 0, because `frame_no - 1` is
2^64 - 1, a multiple of 3. -/
theorem C11_frame_zero_rank_check_wraps :
    rank_0_of_3_writer.start_frame_offset_ = 0 ∧
    rank_0_of_3_writer.concurrent_processes_ = 3 ∧
    rank_0_of_3_writer.concurrent_rank_ = 0 ∧
    ((0 : Int) - 1) % 3 ≠ 0 ∧ Int.tmod ((0 : Int) - 1) 3 ≠ 0 ∧
    getFrameOffset rank_0_of_3_writer 0 = .ok 0 := by
  refine ⟨rfl, rfl, rfl, by decide, by decide, rfl⟩

/-- C11, amended: for a frame number f below 2^64, start offset s, rank count
n and rank r, `getFrameOffset` fails with FrameOutOfOrder if f < s; otherwise,
when n ≤ 1, it returns f − s; and when n > 1 and f ≥ 1, it returns
(f − s) div n if ((f − 1) mod n) = r over the integers and fails with
WrongRank if not.  At f = 0 the value 2^64 − 1 takes the place of f − 1.  With
r = 1, n = 2, s = 1 frames 2, 4, 6 map to rows 0, 1, 2, frame 3 fails with
WrongRank and frame 0 with FrameOutOfOrder. -/
theorem C11_frame_offset_mapping (w : FileWriter) (f : Nat) (hf : f < 2 ^ 64) :
    (f < w.start_frame_offset_ →
      getFrameOffset w f = .error .frame_out_of_order ∧
      WriterException.frame_out_of_order.kind = ErrorKind.FrameOutOfOrder) ∧
    (w.start_frame_offset_ ≤ f → w.concurrent_processes_ ≤ 1 →
      getFrameOffset w f = .ok (f - w.start_frame_offset_)) ∧
    (w.start_frame_offset_ ≤ f → 1 < w.concurrent_processes_ → 1 ≤ f →
      ((f : Int) - 1) % (w.concurrent_processes_ : Int) = (w.concurrent_rank_ : Int) →
      getFrameOffset w f = .ok ((f - w.start_frame_offset_) / w.concurrent_processes_)) ∧
    (w.start_frame_offset_ ≤ f → 1 < w.concurrent_processes_ → 1 ≤ f →
      ((f : Int) - 1) % (w.concurrent_processes_ : Int) ≠ (w.concurrent_rank_ : Int) →
      getFrameOffset w f = .error .unexpected_frame_in_rank ∧
      WriterException.unexpected_frame_in_rank.kind = ErrorKind.WrongRank) ∧
    (w.start_frame_offset_ ≤ f → 1 < w.concurrent_processes_ → f = 0 →
      getFrameOffset w f =
        if (2 ^ 64 - 1) % w.concurrent_processes_ = w.concurrent_rank_ then .ok 0
        else .error .unexpected_frame_in_rank) ∧
    (getFrameOffset rank_1_of_2_writer 2 = .ok 0 ∧
      getFrameOffset rank_1_of_2_writer 4 = .ok 1 ∧
      getFrameOffset rank_1_of_2_writer 6 = .ok 2 ∧
      getFrameOffset rank_1_of_2_writer 3 = .error .unexpected_frame_in_rank ∧
      getFrameOffset rank_1_of_2_writer 0 = .error .frame_out_of_order) := by
  have hint : 1 ≤ f → (((f : Int) - 1) % (w.concurrent_processes_ : Int) = (w.concurrent_rank_ : Int)
      ↔ (f - 1) % w.concurrent_processes_ = w.concurrent_rank_) := by
    intro h1
    have hc : ((f : Int) - 1) = ((f - 1 : Nat) : Int) := by omega
    rw [hc]
    constructor
    · intro h; exact_mod_cast h
    · intro h; exact_mod_cast h
  refine ⟨fun h => ⟨getFrameOffset_below w f h, rfl⟩, fun h hn => getFrameOffset_single w f h hn,
    ?_, ?_, ?_, ⟨rfl, rfl, rfl, rfl, rfl⟩⟩
  · intro h hn h1 hr
    rw [getFrameOffset_striped w f h hn, sub_one_u64 f h1 hf, if_pos ((hint h1).1 hr)]
  · intro h hn h1 hr
    rw [getFrameOffset_striped w f h hn, sub_one_u64 f h1 hf,
      if_neg (fun h2 => hr ((hint h1).2 h2))]
    exact ⟨rfl, rfl⟩
  · intro h hn h0
    subst h0
    rw [getFrameOffset_striped w 0 h hn]
    simp

/-- C11, amended, at frame 4 for rank 1 of 2 with start offset 1. -/
theorem C11_frame_offset_mapping_witness :
    (4 : Nat) < 2 ^ 64 ∧ getFrameOffset rank_1_of_2_writer 4 = .ok ((4 - 1) / 2) :=
  ⟨by decide,
    (C11_frame_offset_mapping rank_1_of_2_writer 4 (by decide)).2.2.1 (by decide) (by decide)
      (by decide) (by decide)⟩

/-- A key reads back the value just assigned to it. -/
theorem smap_find_assign {α : Type} (m : List (String × α)) (k : String) (v : α) :
    smap_find (smap_assign m k v) k = some v := by
  induction m with
  | nil => simp [smap_assign, smap_find]
  | cons e rest ih =>
    obtain ⟨k0, v0⟩ := e
    unfold smap_assign
    cases hlt : string_lt k k0 with
    | true => simp [smap_find]
    | false =>
      by_cases heq : k = k0
      · subst heq
        simp [smap_find]
      · have hb : (k0 == k) = false := by
          simpa using (fun h : k0 = k => heq h.symm)
        simp only [Bool.false_eq_true, if_false, heq]
        unfold smap_find at ih ⊢
        simp only [List.find?_cons, hb]
        exact ih

/-- The outer extent after `extend_dataset` is the larger of the extent before
and the requested one. -/
theorem extend_dataset_extent (dset : HDF5Dataset_t) (n : Nat)
    (hne : dset.dataset_dimensions ≠ []) :
    (extend_dataset dset n).1.dataset_dimensions.getD 0 0 =
      max (dset.dataset_dimensions.getD 0 0) n ∧
    (extend_dataset dset n).1.dataset_dimensions ≠ [] ∧
    (extend_dataset dset n).1.dataset_dimensions.length = dset.dataset_dimensions.length ∧
    (extend_dataset dset n).1.datasetid = dset.datasetid ∧
    (extend_dataset dset n).2 =
      (if n > dset.dataset_dimensions.getD 0 0 then
        [H5Event.H5Dset_extent dset.datasetid (dset.dataset_dimensions.set 0 n)]
      else []) := by
  cases hd : dset.dataset_dimensions with
  | nil => exact absurd hd hne
  | cons d ds =>
    by_cases hgt : n > d
    · simp [extend_dataset, hd, hgt, Nat.max_eq_right (Nat.le_of_lt hgt)]
    · simp [extend_dataset, hd, hgt, Nat.max_eq_left (Nat.le_of_not_lt hgt)]

/-- The method `writeFrame` on a frame whose dataset exists and whose frame
number is accepted, for a row count that fits 64 bits. -/
theorem writeFrame_ok (w : FileWriter) (frame : Frame) (dset : HDF5Dataset_t) (row : Nat)
    (hd : get_hdf5_dataset w frame.dataset_name = .ok dset)
    (ho : getFrameOffset w frame.frame_number = .ok row) (hrow : row + 1 < 2 ^ 64) :
    writeFrame w frame = .ok
      { w with
        hdf5_datasets_ :=
          smap_assign w.hdf5_datasets_ frame.dataset_name (extend_dataset dset (row + 1)).1,
        hdf5_events := w.hdf5_events ++ (extend_dataset dset (row + 1)).2 ++
          [H5Event.H5DOwrite_chunk (extend_dataset dset (row + 1)).1.datasetid 0
            ((List.replicate (extend_dataset dset (row + 1)).1.dataset_dimensions.length 0).set 0
              row) frame.data_size 0] } := by
  simp only [writeFrame, hd, ho, Nat.mod_eq_of_lt hrow]

/-- The dataset a name refers to, in terms of the map. -/
theorem get_hdf5_dataset_eq (w : FileWriter) (name : String) (dset : HDF5Dataset_t) :
    get_hdf5_dataset w name = .ok dset ↔ smap_find w.hdf5_datasets_ name = some dset := by
  unfold get_hdf5_dataset
  cases smap_find w.hdf5_datasets_ name <;> simp

/-- What `writeFrame` leaves alone. -/
theorem writeFrame_fields (w w1 : FileWriter) (frame : Frame) (h : writeFrame w frame = .ok w1) :
    w1.writing_ = w.writing_ ∧ w1.masterFrame_ = w.masterFrame_ ∧
    w1.framesToWrite_ = w.framesToWrite_ ∧ w1.framesWritten_ = w.framesWritten_ ∧
    w1.hdf5_fileid_ = w.hdf5_fileid_ ∧ w1.concurrent_processes_ = w.concurrent_processes_ ∧
    w1.concurrent_rank_ = w.concurrent_rank_ ∧ w1.start_frame_offset_ = w.start_frame_offset_ := by
  unfold writeFrame at h
  cases hd : get_hdf5_dataset w frame.dataset_name with
  | error e => simp [hd] at h
  | ok dset =>
    cases ho : getFrameOffset w frame.frame_number with
    | error e => simp [hd, ho] at h
    | ok row =>
      simp only [hd, ho] at h
      cases h
      exact ⟨rfl, rfl, rfl, rfl, rfl, rfl, rfl, rfl⟩

/-- What `writeSubFrames` leaves alone. -/
theorem writeSubFrames_fields (w w1 : FileWriter) (frame : Frame)
    (h : writeSubFrames w frame = .ok w1) :
    w1.writing_ = w.writing_ ∧ w1.masterFrame_ = w.masterFrame_ ∧
    w1.framesToWrite_ = w.framesToWrite_ ∧ w1.framesWritten_ = w.framesWritten_ ∧
    w1.hdf5_fileid_ = w.hdf5_fileid_ ∧ w1.concurrent_processes_ = w.concurrent_processes_ ∧
    w1.concurrent_rank_ = w.concurrent_rank_ ∧ w1.start_frame_offset_ = w.start_frame_offset_ := by
  unfold writeSubFrames at h
  cases hd : get_hdf5_dataset w frame.dataset_name with
  | error e => simp [hd] at h
  | ok dset =>
    cases ho : getFrameOffset w frame.frame_number with
    | error e => simp [hd, ho] at h
    | ok row =>
      simp only [hd, ho] at h
      cases h
      exact ⟨rfl, rfl, rfl, rfl, rfl, rfl, rfl, rfl⟩

/-- The largest row plus 1 of a sequence of frames, from an extent on. -/
theorem foldl_max_row (s : Nat) (frames : List Frame) :
    ∀ e : Nat, frames ≠ [] →
      frames.foldl (fun m frame => max m (frame.frame_number - s + 1)) e =
        max e (max_frame frames - s + 1) := by
  induction frames with
  | nil => intro e h; exact absurd rfl h
  | cons frame rest ih =>
    intro e _
    by_cases hrest : rest = []
    · subst hrest
      simp [max_frame]
    · have h := ih (max e (frame.frame_number - s + 1)) hrest
      simp only [List.foldl_cons, h]
      have hm : max_frame (frame :: rest) = max frame.frame_number (max_frame rest) := rfl
      rw [hm]
      simp only [Nat.max_def]
      split_ifs <;> omega

/-- A sequence of `writeFrame` calls of a single writer to one dataset, with
row counts that fit 64 bits: every call is accepted and the outer extent
becomes the largest row plus 1, if that is larger than the extent before. -/
theorem writeFrames_extent (name : String) (frames : List Frame) :
    ∀ (w : FileWriter) (dset : HDF5Dataset_t),
      w.concurrent_processes_ ≤ 1 →
      smap_find w.hdf5_datasets_ name = some dset → dset.dataset_dimensions ≠ [] →
      (∀ frame ∈ frames, frame.dataset_name = name ∧ w.start_frame_offset_ ≤ frame.frame_number ∧
        frame.frame_number - w.start_frame_offset_ + 1 < 2 ^ 64) →
      ∃ w' dset', writeFrames w frames = .ok w' ∧
        smap_find w'.hdf5_datasets_ name = some dset' ∧
        dset'.dataset_dimensions.getD 0 0 =
          frames.foldl (fun m frame => max m (frame.frame_number - w.start_frame_offset_ + 1))
            (dset.dataset_dimensions.getD 0 0) := by
  induction frames with
  | nil => intro w dset _ hd _ _; exact ⟨w, dset, rfl, hd, rfl⟩
  | cons frame rest ih =>
    intro w dset hn hd hne hall
    obtain ⟨hname, hs, hfit⟩ := hall frame (List.mem_cons_self _ _)
    have hd1 : get_hdf5_dataset w frame.dataset_name = .ok dset := by
      rw [hname]; exact (get_hdf5_dataset_eq w name dset).2 hd
    have ho := getFrameOffset_single w frame.frame_number hs hn
    have hw := writeFrame_ok w frame dset _ hd1 ho hfit
    obtain ⟨w1, hw1, hf1, hc1, hs1⟩ : ∃ w1, writeFrame w frame = .ok w1 ∧
        smap_find w1.hdf5_datasets_ name = some
          (extend_dataset dset (frame.frame_number - w.start_frame_offset_ + 1)).1 ∧
        w1.concurrent_processes_ = w.concurrent_processes_ ∧
        w1.start_frame_offset_ = w.start_frame_offset_ := by
      refine ⟨_, hw, ?_, rfl, rfl⟩
      rw [hname]
      exact smap_find_assign _ _ _
    obtain ⟨e1, e2, _, _, _⟩ :=
      extend_dataset_extent dset (frame.frame_number - w.start_frame_offset_ + 1) hne
    obtain ⟨w', dset', r1, r2, r3⟩ := ih w1 _ (by rw [hc1]; exact hn) hf1 e2
      (fun fr hfr => by rw [hs1]; exact hall fr (List.mem_cons_of_mem _ hfr))
    refine ⟨w', dset', ?_, r2, ?_⟩
    · simp only [writeFrames, hw1]; exact r1
    · rw [r3, e1, hs1]; rfl

/-- The dataset `createDataset` stores under the name of the definition. -/
theorem createDataset_find (w : FileWriter) (definition : DatasetDefinition) :
    smap_find (createDataset w definition).hdf5_datasets_ definition.name = some
      { datasetid := w.hdf5_ids_issued + 1,
        dataset_dimensions := 1 :: definition.frame_dimensions,
        dataset_offsets := [0, 0, 0] } := by
  simp only [createDataset]
  exact smap_find_assign _ _ _

/-- A sequence of `writeFrame` calls of a single writer to a freshly created
dataset, with row counts that fit 64 bits, leaves the outer extent at the
largest row plus 1. -/
theorem fresh_dataset_extent (w : FileWriter) (definition : DatasetDefinition)
    (frames : List Frame) (hn : w.concurrent_processes_ ≤ 1) (hne : frames ≠ [])
    (hall : ∀ frame ∈ frames,
      frame.dataset_name = definition.name ∧ w.start_frame_offset_ ≤ frame.frame_number ∧
        frame.frame_number - w.start_frame_offset_ + 1 < 2 ^ 64) :
    ∃ w', writeFrames (createDataset w definition) frames = .ok w' ∧
      outer_extent w' definition.name = max_frame frames - w.start_frame_offset_ + 1 := by
  obtain ⟨w', dset', r1, r2, r3⟩ := writeFrames_extent definition.name frames
    (createDataset w definition) _ hn (createDataset_find w definition) (by simp) hall
  refine ⟨w', r1, ?_⟩
  unfold outer_extent
  rw [r2]
  simp only
  rw [r3, foldl_max_row _ frames _ hne]
  have hs : (createDataset w definition).start_frame_offset_ = w.start_frame_offset_ := rfl
  rw [hs]
  simp only [List.getD_cons_zero, Nat.max_def]
  split_ifs <;> omega

/-- C12: on a default writer (start frame offset never set, rank count 1) that
is writing the dataset `data`, the first frame presented, frame 100, is
written at row 100 (claimed: row 0), `start_frame_offset_` stays 0 (claimed:
latched to 100), and a later frame 150 maps to row 150 (claimed: 50). -/
theorem C12_first_frame_not_latched :
    writing_writer.start_frame_offset_ = 0 ∧
    writing_writer.concurrent_processes_ = 1 ∧
    writing_writer.hdf5_datasets_ =
      [("data", { datasetid := 2, dataset_dimensions := [1, 2, 3], dataset_offsets := [0, 0, 0] })] ∧
    getFrameOffset writing_writer 100 = .ok 100 ∧
    (processFrame writing_writer (data_frame 100)).map (fun w =>
        (w.start_frame_offset_, w.hdf5_events.getLast?, getFrameOffset w 150))
      = .ok (0, some (H5Event.H5DOwrite_chunk 2 0 [100, 0, 0] 12 0), .ok 150) := by
  refine ⟨rfl, rfl, rfl, rfl, rfl⟩

/-- C15 as stated fails: a default writer (rank 0, rank count 1, start offset 0)
that writes frame 100 to the freshly created dataset `data` leaves the outer
extent at 101, not at 100 − 0. -/
theorem C15_extent_is_one_more_than_claimed :
    writing_writer.concurrent_processes_ = 1 ∧ writing_writer.concurrent_rank_ = 0 ∧
    writing_writer.start_frame_offset_ = 0 ∧
    outer_extent writing_writer "data" = 1 ∧
    max_frame [data_frame 100] = 100 ∧
    (writeFrames writing_writer [data_frame 100]).map (fun w => outer_extent w "data")
      = .ok 101 := by
  refine ⟨rfl, rfl, rfl, rfl, rfl, rfl⟩

/-- C15, amended: for rank 0 with rank count 1 and every non-empty sequence of
frames for a freshly created dataset, with frame numbers that are 64-bit
values, none below the start frame offset and none 2^64 − 1 or more above it,
all frames are written and the outer extent of the dataset after the writes is
max_frame − start_frame + 1. -/
theorem C15_extent_after_writes (w : FileWriter) (definition : DatasetDefinition)
    (frames : List Frame)
    (hn : w.concurrent_processes_ = 1) (hr : w.concurrent_rank_ = 0) (hne : frames ≠ [])
    (hall : ∀ frame ∈ frames,
      frame.dataset_name = definition.name ∧ w.start_frame_offset_ ≤ frame.frame_number ∧
        frame.frame_number < 2 ^ 64 ∧
        frame.frame_number - w.start_frame_offset_ < 2 ^ 64 - 1) :
    ∃ w', writeFrames (createDataset w definition) frames = .ok w' ∧
      outer_extent w' definition.name = max_frame frames - w.start_frame_offset_ + 1 :=
  fresh_dataset_extent w definition frames (by omega) hne
    (fun frame hfr => ⟨(hall frame hfr).1, (hall frame hfr).2.1, by
      have h := (hall frame hfr).2.2.2
      omega⟩)

/-- C15, amended, at a default writer with the dataset `data` and the frames 100
and 200. -/
theorem C15_extent_after_writes_witness :
    (FileWriter.new.concurrent_processes_ = 1 ∧ FileWriter.new.concurrent_rank_ = 0 ∧
      [data_frame 100, data_frame 200] ≠ [] ∧
      ∀ frame ∈ [data_frame 100, data_frame 200],
        frame.dataset_name = two_entry_chunks_definition.name ∧
          FileWriter.new.start_frame_offset_ ≤ frame.frame_number ∧
          frame.frame_number < 2 ^ 64 ∧
          frame.frame_number - FileWriter.new.start_frame_offset_ < 2 ^ 64 - 1) ∧
    ∃ w', writeFrames (createDataset FileWriter.new two_entry_chunks_definition)
        [data_frame 100, data_frame 200] = .ok w' ∧
      outer_extent w' two_entry_chunks_definition.name =
        max_frame [data_frame 100, data_frame 200] - FileWriter.new.start_frame_offset_ + 1 :=
  ⟨⟨rfl, rfl, by simp, by simp [data_frame, two_entry_chunks_definition, FileWriter.new]⟩,
    C15_extent_after_writes FileWriter.new two_entry_chunks_definition
      [data_frame 100, data_frame 200] rfl rfl (by simp)
      (by simp [data_frame, two_entry_chunks_definition, FileWriter.new])⟩

/-- The method `stopWriting` on a writer that is writing. -/
theorem stopWriting_writing (w : FileWriter) (hw : w.writing_ = true) :
    (stopWriting w).writing_ = false ∧
    (stopWriting w).framesWritten_ = w.framesWritten_ ∧
    (stopWriting w).framesToWrite_ = w.framesToWrite_ ∧
    (0 ≤ w.hdf5_fileid_ →
      (stopWriting w).hdf5_fileid_ = 0 ∧
      (stopWriting w).hdf5_events = w.hdf5_events ++ [H5Event.H5Fclose w.hdf5_fileid_.toNat]) := by
  by_cases hid : 0 ≤ w.hdf5_fileid_
  · have hid1 : w.hdf5_fileid_ ≥ 0 := hid
    simp [stopWriting, closeFile, hw, hid1]
  · have hid1 : ¬ w.hdf5_fileid_ ≥ 0 := hid
    simp [stopWriting, closeFile, hw, hid1, hid]

/-- The steps of `processFrame` after a frame write that succeeded. -/
theorem processFrame_written (w w1 : FileWriter) (frame : Frame) (hw : w.writing_ = true)
    (h1 : (if frame.subframe_count.isSome then writeSubFrames w frame else writeFrame w frame)
      = .ok w1) :
    processFrame w frame = .ok
      (if (if w1.masterFrame_ = "" ∨ w1.masterFrame_ = frame.dataset_name then
              { w1 with framesWritten_ := (w1.framesWritten_ + 1) % 2 ^ 64 } else w1).framesWritten_ =
            w1.framesToWrite_ then
        stopWriting (if w1.masterFrame_ = "" ∨ w1.masterFrame_ = frame.dataset_name then
          { w1 with framesWritten_ := (w1.framesWritten_ + 1) % 2 ^ 64 } else w1)
      else (if w1.masterFrame_ = "" ∨ w1.masterFrame_ = frame.dataset_name then
          { w1 with framesWritten_ := (w1.framesWritten_ + 1) % 2 ^ 64 } else w1)) := by
  simp only [processFrame, hw, if_true, h1]
  by_cases hm : w1.masterFrame_ = "" ∨ w1.masterFrame_ = frame.dataset_name
  · simp only [hm, if_true]
    split_ifs <;> rfl
  · simp only [hm, if_false]
    split_ifs <;> rfl

/-- C16: for a count `framesWritten_` below 2^64 − 1 (the 64-bit counter does
not wrap), `processFrame` on a writer that is not writing writes nothing and
leaves the writer as it is.  On a writer that is writing, a failure of the
frame write is the failure of the call; when the frame write succeeds,
`framesWritten_` grows by exactly 1 if `masterFrame_` is empty or is the
dataset name of the frame and stays as it is otherwise, and the writer is idle
afterwards (`writing_` false, the open file closed and its id reset) exactly
when `framesWritten_` then equals `framesToWrite_`; otherwise it keeps writing
with the file open. -/
theorem C16_processFrame_counts_and_stops (w : FileWriter) (frame : Frame)
    (hcount : w.framesWritten_ + 1 < 2 ^ 64) :
    (w.writing_ = false → processFrame w frame = .ok w) ∧
    (w.writing_ = true →
      (∀ e, (if frame.subframe_count.isSome then writeSubFrames w frame else writeFrame w frame)
          = .error e → processFrame w frame = .error e) ∧
      (∀ w1, (if frame.subframe_count.isSome then writeSubFrames w frame else writeFrame w frame)
          = .ok w1 →
        ∃ w', processFrame w frame = .ok w' ∧
          w'.framesWritten_ =
            (if w.masterFrame_ = "" ∨ w.masterFrame_ = frame.dataset_name then w.framesWritten_ + 1
              else w.framesWritten_) ∧
          w'.framesToWrite_ = w.framesToWrite_ ∧
          (w'.writing_ = false ↔ w'.framesWritten_ = w'.framesToWrite_) ∧
          (w'.framesWritten_ = w'.framesToWrite_ → 0 ≤ w.hdf5_fileid_ →
            w'.hdf5_fileid_ = 0 ∧
            w'.hdf5_events = w1.hdf5_events ++ [H5Event.H5Fclose w.hdf5_fileid_.toNat]) ∧
          (w'.framesWritten_ ≠ w'.framesToWrite_ →
            w'.hdf5_fileid_ = w.hdf5_fileid_ ∧ w'.hdf5_events = w1.hdf5_events))) := by
  constructor
  · intro hw
    simp [processFrame, hw]
  · intro hw
    constructor
    · intro e he
      simp only [processFrame, hw, if_true, he]
    · intro w1 h1
      have hf : w1.writing_ = w.writing_ ∧ w1.masterFrame_ = w.masterFrame_ ∧
          w1.framesToWrite_ = w.framesToWrite_ ∧ w1.framesWritten_ = w.framesWritten_ ∧
          w1.hdf5_fileid_ = w.hdf5_fileid_ := by
        by_cases hs : frame.subframe_count.isSome = true
        · rw [if_pos hs] at h1
          obtain ⟨a, b, c, d, e, _⟩ := writeSubFrames_fields w w1 frame h1
          exact ⟨a, b, c, d, e⟩
        · rw [if_neg hs] at h1
          obtain ⟨a, b, c, d, e, _⟩ := writeFrame_fields w w1 frame h1
          exact ⟨a, b, c, d, e⟩
      obtain ⟨f1, f2, f3, f4, f5⟩ := hf
      have hp := processFrame_written w w1 frame hw h1
      obtain ⟨w2, hw2, g1, g2, g3, g4, g5⟩ : ∃ w2,
          w2 = (if w1.masterFrame_ = "" ∨ w1.masterFrame_ = frame.dataset_name then
            { w1 with framesWritten_ := (w1.framesWritten_ + 1) % 2 ^ 64 } else w1) ∧
          w2.writing_ = true ∧
          w2.framesWritten_ =
            (if w.masterFrame_ = "" ∨ w.masterFrame_ = frame.dataset_name then w.framesWritten_ + 1
              else w.framesWritten_) ∧
          w2.framesToWrite_ = w.framesToWrite_ ∧ w2.hdf5_fileid_ = w.hdf5_fileid_ ∧
          w2.hdf5_events = w1.hdf5_events := by
        have hc3 : w.framesWritten_ + 1 < 18446744073709551616 := by omega
        refine ⟨_, rfl, ?_, ?_, ?_, ?_, ?_⟩ <;> rw [f2] <;> split_ifs <;>
          simp [f1, hw, f3, f4, f5, Nat.mod_eq_of_lt, hc3]
      rw [← hw2] at hp
      have htw : w1.framesToWrite_ = w2.framesToWrite_ := by rw [g3, f3]
      rw [htw] at hp
      by_cases hstop : w2.framesWritten_ = w2.framesToWrite_
      · rw [if_pos hstop] at hp
        obtain ⟨s1, s2, s3, s4⟩ := stopWriting_writing w2 g1
        refine ⟨stopWriting w2, hp, s2.trans g2, s3.trans g3, ?_, ?_, ?_⟩
        · rw [s1, s2, s3]
          exact ⟨fun _ => hstop, fun _ => rfl⟩
        · intro _ hid
          obtain ⟨t1, t2⟩ := s4 (by rw [g4]; exact hid)
          rw [g4, g5] at t2
          exact ⟨t1, t2⟩
        · intro hne
          exact absurd (by rw [s2, s3]; exact hstop) hne
      · rw [if_neg hstop] at hp
        refine ⟨w2, hp, g2, g3, ?_, ?_, ?_⟩
        · rw [g1]
          exact ⟨fun h => Bool.noConfusion h, fun h => absurd h hstop⟩
        · intro heq
          exact absurd heq hstop
        · intro _
          exact ⟨g4, g5⟩

/-- C16 at a default writer that is writing the dataset `data` with 3 frames
to write: the first frame makes `framesWritten_` 1 and the writer keeps
writing. -/
theorem C16_processFrame_counts_and_stops_witness :
    (writing_writer.framesWritten_ + 1 < 2 ^ 64 ∧ writing_writer.writing_ = true ∧
      writing_writer.masterFrame_ = "" ∧ writing_writer.framesWritten_ = 0 ∧
      writing_writer.framesToWrite_ = 3) ∧
    ∃ w', processFrame writing_writer (data_frame 100) = .ok w' ∧
      w'.framesWritten_ =
        (if writing_writer.masterFrame_ = "" ∨
            writing_writer.masterFrame_ = (data_frame 100).dataset_name
          then writing_writer.framesWritten_ + 1 else writing_writer.framesWritten_) ∧
      w'.framesToWrite_ = writing_writer.framesToWrite_ ∧
      (w'.writing_ = false ↔ w'.framesWritten_ = w'.framesToWrite_) :=
  ⟨⟨by decide, rfl, rfl, rfl, rfl⟩,
    (((C16_processFrame_counts_and_stops writing_writer (data_frame 100) (by decide)).2 rfl).2
      ((writeFrame writing_writer (data_frame 100)).toOption.getD FileWriter.new) rfl).imp
      (fun _ h => ⟨h.1, h.2.1, h.2.2.1, h.2.2.2.1⟩)⟩

/-- The method `configureProcess` on a writer that is not writing. -/
theorem configureProcess_idle (w : FileWriter) (config : ProcessConfig) (hw : w.writing_ = false) :
    configureProcess w config = .ok (assign_process w config) := by
  simp only [configureProcess, hw, Bool.false_eq_true, if_false, assign_process]

/-- The method `configureFile` on a writer that is not writing. -/
theorem configureFile_idle (w : FileWriter) (config : FileConfig) (hw : w.writing_ = false) :
    configureFile w config = .ok (assign_file w config) := by
  simp only [configureFile, hw, Bool.false_eq_true, if_false, assign_file]

/-- What the assignments of the `process` and `file` sections leave alone. -/
theorem after_process_and_file_fields (w : FileWriter) (config : ConfigMessage) :
    (after_process_and_file w config).writing_ = w.writing_ ∧
    (after_process_and_file w config).dataset_defs_ = w.dataset_defs_ ∧
    (after_process_and_file w config).framesToWrite_ = w.framesToWrite_ ∧
    (after_process_and_file w config).framesWritten_ = w.framesWritten_ ∧
    (after_process_and_file w config).hdf5_events = w.hdf5_events := by
  unfold after_process_and_file assign_process assign_file
  rcases config with ⟨p, f, d, fr, wr⟩
  rcases p with _ | ⟨_ | n, _ | r⟩ <;> rcases f with _ | ⟨_ | a, _ | b⟩ <;>
    exact ⟨rfl, rfl, rfl, rfl, rfl⟩

/-- The method `configure` on a writer that is writing. -/
theorem configure_writing (w : FileWriter) (config : ConfigMessage) (hw : w.writing_ = true) :
    configure w config =
      match config.process, config.file, config.dataset with
      | some _, _, _ => (w, some .process_change_whilst_writing)
      | none, some _, _ => (w, some .file_change_whilst_writing)
      | none, none, some _ => (w, some .dataset_change_whilst_writing)
      | none, none, none => (frames_and_write w config, none) := by
  rcases config with ⟨p, f, d, fr, wr⟩
  rcases p with _ | p <;> rcases f with _ | f <;> rcases d with _ | d <;>
    simp [configure, configureProcess, configureFile, configureDataset, hw, frames_and_write]

/-- The method `configure` on a writer that is not writing. -/
theorem configure_idle (w : FileWriter) (config : ConfigMessage) (hw : w.writing_ = false) :
    configure w config =
      match config.dataset with
      | none => (frames_and_write (after_process_and_file w config) config, none)
      | some dsetConfig =>
        match configureDataset (after_process_and_file w config) dsetConfig with
        | .error e => (after_process_and_file w config, some e)
        | .ok w3 => (frames_and_write w3 config, none) := by
  rcases config with ⟨p, f, d, fr, wr⟩
  have hp : ∀ p : ProcessConfig, (assign_process w p).writing_ = false := by
    intro p
    unfold assign_process
    rcases p with ⟨_ | n, _ | r⟩ <;> exact hw
  rcases p with _ | p <;> rcases f with _ | f <;> rcases d with _ | d <;>
    simp only [configure, configureProcess_idle, configureFile_idle, hw, hp,
      after_process_and_file, frames_and_write]

/-- The method `configureDataset` on a writer that is not writing: when it
fails and what it assigns. -/
theorem configureDataset_idle (w : FileWriter) (d : DatasetConfig) (hw : w.writing_ = false) :
    ((∃ e, configureDataset w d = .error e) ↔
      (d.cmd = some "create" ∧ (d.name = none ∨ d.datatype = none ∨ d.dims = none))) ∧
    (∀ e, configureDataset w d = .error e → e.kind = ErrorKind.MissingField) ∧
    (∀ w3, configureDataset w d = .ok w3 →
      w3.writing_ = false ∧ w3.framesToWrite_ = w.framesToWrite_ ∧
      (∀ name t dims, d.cmd = some "create" → d.name = some name → d.datatype = some t →
        d.dims = some dims → d.chunks = none → 2 ≤ dims.length →
        w3.read_past_end = w.read_past_end ∧
        w3.dataset_defs_ = smap_assign w.dataset_defs_ name
          { name := name, pixel := t, num_frames := 0, frame_dimensions := dims, chunks := [] })) := by
  rcases d with ⟨cmd, name, ty, dims, chunks⟩
  rcases cmd with _ | cmd
  · simp [configureDataset, hw]
  · by_cases hc : cmd = "create"
    · subst hc
      rcases name with _ | name <;> rcases ty with _ | ty <;> rcases dims with _ | dims <;>
        try simp [configureDataset, hw, WriterException.kind]
      rcases dims with _ | ⟨a, _ | ⟨b, rest⟩⟩ <;>
        simp [configureDataset, hw, WriterException.kind]
      intro hch
      subst hch
      rfl
    · simp [configureDataset, hw, hc]

/-- The method `configureDataset` on a writer that is not writing: when it
reads `frame_dimensions` past its end. -/
theorem configureDataset_read_past_end (w w3 : FileWriter) (d : DatasetConfig)
    (hw : w.writing_ = false) (h : configureDataset w d = .ok w3) :
    (w3.read_past_end = true ↔
      (w.read_past_end = true ∨
        (d.cmd = some "create" ∧ ∃ name t dims, d.name = some name ∧ d.datatype = some t ∧
          d.dims = some dims ∧ dims.length < 2))) := by
  rcases d with ⟨cmd, name, ty, dims, chunks⟩
  rcases cmd with _ | cmd
  · simp [configureDataset, hw] at h
    subst h
    simp
  · by_cases hc : cmd = "create"
    · subst hc
      rcases name with _ | name <;> rcases ty with _ | ty <;> rcases dims with _ | dims <;>
        try (simp [configureDataset, hw] at h)
      rcases dims with _ | ⟨a, _ | ⟨b, rest⟩⟩ <;>
        simp [configureDataset, hw] at h <;> subst h <;> simp
    · simp [configureDataset, hw, hc] at h
      subst h
      simp [hc]

/-- The datasets created by `startWriting` leave the definitions and the
number of frames to write alone. -/
theorem createDataset_foldl_fields (defs : List (String × DatasetDefinition)) :
    ∀ acc : FileWriter,
      (defs.foldl (fun acc entry =>
          createDataset acc { entry.2 with num_frames := acc.framesToWrite_ }) acc).dataset_defs_
        = acc.dataset_defs_ ∧
      (defs.foldl (fun acc entry =>
          createDataset acc { entry.2 with num_frames := acc.framesToWrite_ }) acc).framesToWrite_
        = acc.framesToWrite_ := by
  induction defs with
  | nil => intro acc; exact ⟨rfl, rfl⟩
  | cons entry rest ih =>
    intro acc
    simp only [List.foldl_cons]
    obtain ⟨h1, h2⟩ := ih (createDataset acc { entry.2 with num_frames := acc.framesToWrite_ })
    exact ⟨h1, h2⟩

/-- The last steps of `configure` leave the dataset definitions alone. -/
theorem frames_and_write_defs (w : FileWriter) (config : ConfigMessage) :
    (frames_and_write w config).dataset_defs_ = w.dataset_defs_ := by
  have hstart : ∀ v : FileWriter, (startWriting v).dataset_defs_ = v.dataset_defs_ := by
    intro v
    unfold startWriting
    split_ifs
    · exact (createDataset_foldl_fields _ _).1
    · rfl
  have hstop : ∀ v : FileWriter, (stopWriting v).dataset_defs_ = v.dataset_defs_ := by
    intro v
    unfold stopWriting closeFile
    simp only
    split_ifs <;> rfl
  unfold frames_and_write
  rcases config with ⟨p, f, d, fr, wr⟩
  rcases fr with _ | fr <;> rcases wr with _ | _ | _ <;> simp only [hstart, hstop]

/-- What the last steps of `configure` and the `process` and `file` sections
leave alone: the mark of a read past the end of a vector. -/
theorem read_past_end_kept (w : FileWriter) (config : ConfigMessage) :
    (frames_and_write w config).read_past_end = w.read_past_end ∧
    (after_process_and_file w config).read_past_end = w.read_past_end := by
  have hfold : ∀ (defs : List (String × DatasetDefinition)) (acc : FileWriter),
      (defs.foldl (fun acc entry =>
          createDataset acc { entry.2 with num_frames := acc.framesToWrite_ }) acc).read_past_end
        = acc.read_past_end := by
    intro defs
    induction defs with
    | nil => intro acc; rfl
    | cons entry rest ih =>
      intro acc
      simp only [List.foldl_cons]
      exact ih _
  have hstart : ∀ v : FileWriter, (startWriting v).read_past_end = v.read_past_end := by
    intro v
    unfold startWriting
    split_ifs
    · exact hfold _ _
    · rfl
  have hstop : ∀ v : FileWriter, (stopWriting v).read_past_end = v.read_past_end := by
    intro v
    unfold stopWriting closeFile
    simp only
    split_ifs <;> rfl
  constructor
  · unfold frames_and_write
    rcases config with ⟨p, f, d, fr, wr⟩
    rcases fr with _ | fr <;> rcases wr with _ | _ | _ <;> simp only [hstart, hstop]
  · unfold after_process_and_file assign_process assign_file
    rcases config with ⟨p, f, d, fr, wr⟩
    rcases p with _ | ⟨_ | n, _ | r⟩ <;> rcases f with _ | ⟨_ | pa, _ | na⟩ <;> rfl

/-- When `configure` reads `frame_dimensions` past its end: exactly when the
writer is not writing and the `dataset` section has `cmd` = create with name,
datatype and dims of fewer than two entries. -/
theorem configure_read_past_end (w : FileWriter) (config : ConfigMessage) :
    ((configure w config).1.read_past_end = true ↔
      (w.read_past_end = true ∨
        (w.writing_ = false ∧ ∃ d name t dims, config.dataset = some d ∧
          d.cmd = some "create" ∧ d.name = some name ∧ d.datatype = some t ∧
          d.dims = some dims ∧ dims.length < 2))) := by
  cases hw : w.writing_ with
  | true =>
    rw [configure_writing w config hw]
    have hk := fun c => (read_past_end_kept w c).1
    rcases config with ⟨p, f, d, fr, wr⟩
    rcases p with _ | p <;> rcases f with _ | f <;> rcases d with _ | d <;> simp [hk]
  | false =>
    have hw2 : (after_process_and_file w config).writing_ = false :=
      (after_process_and_file_fields w config).1.trans hw
    have ha := (read_past_end_kept w config).2
    rw [configure_idle w config hw]
    cases hd : config.dataset with
    | none =>
      simp only [(read_past_end_kept _ config).1, ha]
      simp
    | some d =>
      obtain ⟨i1, _, _⟩ := configureDataset_idle (after_process_and_file w config) d hw2
      cases hc : configureDataset (after_process_and_file w config) d with
      | error e =>
        have hex := i1.1 ⟨e, hc⟩
        simp only [hc, ha]
        constructor
        · exact fun h => Or.inl h
        · rintro (h | ⟨_, d2, name, t, dims, hd2, _, hname, ht, hdims, _⟩)
          · exact h
          · cases hd2
            rcases hex.2 with h | h | h
            · rw [hname] at h; cases h
            · rw [ht] at h; cases h
            · rw [hdims] at h; cases h
      | ok w3 =>
        have hr := configureDataset_read_past_end (after_process_and_file w config) w3 d hw2 hc
        simp only [hc, (read_past_end_kept w3 config).1]
        rw [hr, ha]
        constructor
        · rintro (h | ⟨hcmd, name, t, dims, h1, h2, h3, h4⟩)
          · exact Or.inl h
          · exact Or.inr ⟨trivial, d, name, t, dims, rfl, hcmd, h1, h2, h3, h4⟩
        · rintro (h | ⟨_, d2, name, t, dims, hd2, hcmd, h1, h2, h3, h4⟩)
          · exact Or.inl h
          · cases hd2
            exact Or.inr ⟨hcmd, name, t, dims, h1, h2, h3, h4⟩

/-- C17: `configure` fails exactly when either the writer is writing and the
message has a `process`, `file` or `dataset` section (an exception of kind
WriteInProgress), or the writer is not writing and the `dataset` section has
`cmd` = create but lacks `name`, `datatype` or `dims` (an exception of kind
MissingField); on a writer that is not writing, a create with name, datatype
and dims of at least two entries but without chunks succeeds, reads no vector
past its end, and the definition is found under its name.  The one case in
which the call ends in neither way is a create with name, datatype and dims of
fewer than two entries on a writer that is not writing: the log statement then
reads `frame_dimensions` past its end, and no other call of `configure` does
so. -/
theorem C17_configure_fails_iff (w : FileWriter) (config : ConfigMessage) :
    ((configure w config).2.isSome = true ↔
      ((w.writing_ = true ∧
          (config.process.isSome = true ∨ config.file.isSome = true ∨
            config.dataset.isSome = true)) ∨
        (w.writing_ = false ∧ ∃ d, config.dataset = some d ∧ d.cmd = some "create" ∧
          (d.name = none ∨ d.datatype = none ∨ d.dims = none)))) ∧
    (∀ e, (configure w config).2 = some e →
      (w.writing_ = true → e.kind = ErrorKind.WriteInProgress) ∧
      (w.writing_ = false → e.kind = ErrorKind.MissingField)) ∧
    (w.writing_ = false → ∀ d name t dims, config.dataset = some d → d.cmd = some "create" →
      d.name = some name → d.datatype = some t → d.dims = some dims → d.chunks = none →
      2 ≤ dims.length →
      (configure w config).2 = none ∧
      (configure w config).1.read_past_end = w.read_past_end ∧
      smap_find (configure w config).1.dataset_defs_ name = some
        { name := name, pixel := t, num_frames := 0, frame_dimensions := dims, chunks := [] }) ∧
    ((configure w config).1.read_past_end = true ↔
      (w.read_past_end = true ∨
        (w.writing_ = false ∧ ∃ d name t dims, config.dataset = some d ∧
          d.cmd = some "create" ∧ d.name = some name ∧ d.datatype = some t ∧
          d.dims = some dims ∧ dims.length < 2))) := by
  refine (fun (h : _ ∧ _ ∧ _) => ⟨h.1, h.2.1, h.2.2, configure_read_past_end w config⟩) ?_
  cases hw : w.writing_ with
  | true =>
    rw [configure_writing w config hw]
    rcases config with ⟨p, f, d, fr, wr⟩
    rcases p with _ | p <;> rcases f with _ | f <;> rcases d with _ | d <;>
      simp [WriterException.kind]
  | false =>
    have hw2 : (after_process_and_file w config).writing_ = false :=
      (after_process_and_file_fields w config).1.trans hw
    rw [configure_idle w config hw]
    cases hd : config.dataset with
    | none => simp
    | some d =>
      obtain ⟨i1, i2, i3⟩ := configureDataset_idle (after_process_and_file w config) d hw2
      cases hc : configureDataset (after_process_and_file w config) d with
      | error e =>
        have hex : d.cmd = some "create" ∧ (d.name = none ∨ d.datatype = none ∨ d.dims = none) :=
          i1.1 ⟨e, hc⟩
        simp only [hc]
        refine ⟨?_, ?_, ?_⟩
        · simp [hex]
        · intro e2 he2
          simp only [Option.some.injEq] at he2
          subst he2
          simp [i2 e hc]
        · intro _ d2 name t dims hd2 hcmd hname ht hdims _ _
          cases hd2
          rcases hex.2 with h | h | h
          · rw [hname] at h; cases h
          · rw [ht] at h; cases h
          · rw [hdims] at h; cases h
      | ok w3 =>
        have hnex : ¬ (d.cmd = some "create" ∧ (d.name = none ∨ d.datatype = none ∨ d.dims = none)) :=
          fun h => by
            obtain ⟨e, he⟩ := i1.2 h
            rw [hc] at he
            cases he
        simp only [hc]
        refine ⟨?_, ?_, ?_⟩
        · simp only [Option.isSome_none, Bool.false_eq_true, false_iff]
          intro h
          rcases h with ⟨h, _⟩ | ⟨_, d2, hd2, h2⟩
          · cases h
          · cases hd2
            exact hnex h2
        · intro e2 he2
          cases he2
        · intro _ d2 name t dims hd2 hcmd hname ht hdims hch hlen
          cases hd2
          obtain ⟨j1, j2⟩ := (i3 w3 hc).2.2 name t dims hcmd hname ht hdims hch hlen
          refine ⟨trivial, ?_, ?_⟩
          · rw [(read_past_end_kept w3 config).1, j1, (read_past_end_kept w config).2]
          · rw [frames_and_write_defs, j2]
            exact smap_find_assign _ _ _

/-- C18 as stated fails: a default writer (not writing, rank count 1) is given
a message with `process.number` = 4 and a `dataset` section with `cmd` =
create that lacks the name; `configure` fails with the MissingField exception,
but the rank count is 4 afterwards. -/
theorem C18_rank_count_kept_after_rejection :
    FileWriter.new.writing_ = false ∧ FileWriter.new.concurrent_processes_ = 1 ∧
    (configure FileWriter.new process_and_nameless_dataset_message).2
      = some WriterException.dataset_without_name ∧
    WriterException.dataset_without_name.kind = ErrorKind.MissingField ∧
    (configure FileWriter.new process_and_nameless_dataset_message).1.concurrent_processes_ = 4 := by
  refine ⟨rfl, rfl, rfl, rfl, rfl⟩

/-- C18, amended: after a call of `configure` that fails, the registered
dataset definitions, `framesToWrite_` and the writing flag are what they were
before the call.  A failure of kind WriteInProgress leaves the whole writer,
rank count, rank, file path and file name included, as it was; a failure of
kind MissingField leaves the writer as the `process` and `file` sections of
the same message made it.  There is no other kind of failure. -/
theorem C18_rejected_configure_effects (w : FileWriter) (config : ConfigMessage)
    (e : WriterException) (h : (configure w config).2 = some e) :
    (configure w config).1.dataset_defs_ = w.dataset_defs_ ∧
    (configure w config).1.framesToWrite_ = w.framesToWrite_ ∧
    (configure w config).1.writing_ = w.writing_ ∧
    (e.kind = ErrorKind.WriteInProgress → (configure w config).1 = w) ∧
    (e.kind = ErrorKind.MissingField →
      (configure w config).1 = after_process_and_file w config) ∧
    (e.kind = ErrorKind.WriteInProgress ∨ e.kind = ErrorKind.MissingField) := by
  cases hw : w.writing_ with
  | true =>
    rw [configure_writing w config hw] at h ⊢
    rcases config with ⟨p, f, d, fr, wr⟩
    rcases p with _ | p <;> rcases f with _ | f <;> rcases d with _ | d <;>
      first
        | (exfalso; simp at h; done)
        | (simp only [Option.some.injEq] at h; subst h; simp [WriterException.kind, hw])
  | false =>
    obtain ⟨a1, a2, a3, _, _⟩ := after_process_and_file_fields w config
    have hw2 : (after_process_and_file w config).writing_ = false := a1.trans hw
    rw [configure_idle w config hw] at h ⊢
    cases hd : config.dataset with
    | none => simp [hd] at h
    | some d =>
      obtain ⟨_, i2, _⟩ := configureDataset_idle (after_process_and_file w config) d hw2
      cases hc : configureDataset (after_process_and_file w config) d with
      | error e2 =>
        simp only [hd, hc, Option.some.injEq] at h
        subst h
        have hk := i2 e2 hc
        simp only [hc]
        refine ⟨a2, a3, a1.trans hw, ?_, fun _ => trivial, Or.inr hk⟩
        intro hk2
        rw [hk] at hk2
        cases hk2
      | ok w3 => simp [hd, hc] at h

/-- C18, amended, at the message with `process.number` = 4 and a nameless
dataset on a default writer. -/
theorem C18_rejected_configure_effects_witness :
    (configure FileWriter.new process_and_nameless_dataset_message).2
      = some WriterException.dataset_without_name ∧
    (configure FileWriter.new process_and_nameless_dataset_message).1.dataset_defs_
      = FileWriter.new.dataset_defs_ ∧
    (configure FileWriter.new process_and_nameless_dataset_message).1.framesToWrite_
      = FileWriter.new.framesToWrite_ :=
  ⟨rfl,
    (C18_rejected_configure_effects FileWriter.new process_and_nameless_dataset_message
      WriterException.dataset_without_name rfl).1,
    (C18_rejected_configure_effects FileWriter.new process_and_nameless_dataset_message
      WriterException.dataset_without_name rfl).2.1⟩

/-- C19 as stated fails: for frames of 1484 by 1408 pixels the caller supplies
the chunk dimensions [742, 704]; `createDataset` sets the chunk grid to the
whole frame [1, 1484, 1408], not to the supplied dimensions. -/
theorem C19_supplied_chunks_of_other_rank_ignored :
    two_entry_chunks_definition.frame_dimensions = [1484, 1408] ∧
    two_entry_chunks_definition.chunks = [742, 704] ∧
    (createDataset FileWriter.new two_entry_chunks_definition).hdf5_events =
      [H5Event.H5Dcreate2 0 "data" H5Type.H5T_NATIVE_UINT16 [1, 1484, 1408]
        [H5S_UNLIMITED, 1484, 1408] [1, 1484, 1408] 1] := by
  refine ⟨rfl, rfl, rfl⟩

/-- C19, amended: `createDataset` creates the dataset with the dimensions [1]
followed by the frame dimensions, the outer one unlimited, and keeps those
dimensions for the dataset; the chunk grid is the supplied chunk dimensions if
they have as many entries as the dataset has dimensions (one more than the
frame), and one whole frame, [1] followed by the frame dimensions, otherwise,
in particular if the caller omits them. -/
theorem C19_createDataset_dimensions_and_chunks (w : FileWriter)
    (definition : DatasetDefinition) :
    (∃ chunk_dims,
      (createDataset w definition).hdf5_events = w.hdf5_events ++
        [H5Event.H5Dcreate2 w.hdf5_fileid_.toNat definition.name (pixelToHdfType definition.pixel)
          (1 :: definition.frame_dimensions) (H5S_UNLIMITED :: definition.frame_dimensions)
          chunk_dims (w.hdf5_ids_issued + 1)] ∧
      (definition.chunks = [] → chunk_dims = 1 :: definition.frame_dimensions) ∧
      (definition.chunks.length = definition.frame_dimensions.length + 1 →
        chunk_dims = definition.chunks) ∧
      (definition.chunks.length ≠ definition.frame_dimensions.length + 1 →
        chunk_dims = 1 :: definition.frame_dimensions)) ∧
    get_hdf5_dataset (createDataset w definition) definition.name = .ok
      { datasetid := w.hdf5_ids_issued + 1,
        dataset_dimensions := 1 :: definition.frame_dimensions,
        dataset_offsets := [0, 0, 0] } := by
  refine ⟨⟨if definition.chunks.length ≠ (1 :: definition.frame_dimensions).length then
      1 :: definition.frame_dimensions else definition.chunks, ?_, ?_, ?_, ?_⟩, ?_⟩
  · simp [createDataset]
  · intro h
    simp [h]
  · intro h
    simp [h]
  · intro h
    simp [h]
  · exact (get_hdf5_dataset_eq _ _ _).2 (createDataset_find w definition)

end filewriter

/-! # Duplicate packets -/

namespace FrameReceiver

/-- A header of the current frame, bound to a pool buffer: the frame header
after the call. -/
theorem header_same_pool_state (c : Constants) (s : PercivalEmulatorFrameDecoder)
    (hdr : List Byte) (n : Nat) (now : Timespec) (a : Int)
    (hs : effective_frame c (receive_header s hdr) = s.current_frame_seen_)
    (hp : s.current_frame_header_ = .pool a) :
    ∃ s', process_packet_header c (receive_header s hdr) n now = some s' ∧
      s'.current_frame_seen_ = s.current_frame_seen_ ∧
      s'.current_frame_buffer_id_ = s.current_frame_buffer_id_ ∧
      s'.current_frame_header_ = .pool a ∧
      s'.dropping_frame_data_ = s.dropping_frame_data_ ∧
      s'.ready_calls = s.ready_calls ∧
      s'.buffers a =
        { s.buffers a with packet_state := fun t1 sf1 p1 =>
            if t1 = get_packet_type (receive_header s hdr) ∧
                sf1 = get_subframe_number (receive_header s hdr) ∧
                p1 = get_packet_number c (receive_header s hdr) then 1
            else (s.buffers a).packet_state t1 sf1 p1 } := by
  have hp1 : (receive_header s hdr).current_frame_header_ = .pool a := hp
  have hstep : process_packet_header c (receive_header s hdr) n now =
      mark_packet (receive_header s hdr) (get_packet_type (receive_header s hdr))
        (get_subframe_number (receive_header s hdr)) (get_packet_number c (receive_header s hdr)) := by
    rw [process_packet_header_eq, bind_frame_same (receive_header s hdr) _ now hs]; rfl
  rw [mark_packet_pool _ a _ _ _ hp1] at hstep
  refine ⟨_, hstep, rfl, rfl, hp, rfl, rfl, ?_⟩
  simp only [if_true]
  rfl

/-- The payload of a packet that is not the last of its frame: the frame
header after the call. -/
theorem payload_mid_state (c : Constants) (s : PercivalEmulatorFrameDecoder) (n : Nat) (a : Int)
    (hp : s.current_frame_header_ = .pool a)
    (hlt : (s.buffers a).packets_received + 1 < c.num_frame_packets)
    (hN : c.num_frame_packets < 2 ^ 32) :
    ∃ s', process_packet c s n = some (FrameReceiveState.Incomplete, s') ∧
      s'.current_frame_seen_ = s.current_frame_seen_ ∧
      s'.current_frame_buffer_id_ = s.current_frame_buffer_id_ ∧
      s'.current_frame_header_ = .pool a ∧
      s'.dropping_frame_data_ = s.dropping_frame_data_ ∧
      s'.ready_calls = s.ready_calls ∧
      s'.buffers a =
        { s.buffers a with packets_received := (s.buffers a).packets_received + 1 } := by
  have hmod : ((s.buffers a).packets_received + 1) % 2 ^ 32 = (s.buffers a).packets_received + 1 :=
    Nat.mod_eq_of_lt (by omega)
  have hne : ¬ ((s.buffers a).packets_received + 1) % 2 ^ 32 = c.num_frame_packets := by
    rw [hmod]; omega
  have h := process_packet_pool c s n a hp
  rw [if_neg hne] at h
  refine ⟨_, h, rfl, rfl, hp, rfl, rfl, ?_⟩
  simp only [if_true]
  rw [hmod]

/-- The payload of the last packet of a frame in a pool buffer while the
decoder is not dropping: the ready call and the frame header after the call. -/
theorem payload_final_state (c : Constants) (s : PercivalEmulatorFrameDecoder) (n : Nat) (a : Int)
    (hp : s.current_frame_header_ = .pool a)
    (heq : (s.buffers a).packets_received + 1 = c.num_frame_packets)
    (hN : c.num_frame_packets < 2 ^ 32)
    (hd : s.dropping_frame_data_ = false) :
    ∃ s', process_packet c s n = some (FrameReceiveState.Complete, s') ∧
      s'.ready_calls = s.ready_calls ++ [(s.current_frame_buffer_id_, s.current_frame_seen_)] ∧
      s'.buffers a =
        { s.buffers a with
          packets_received := c.num_frame_packets,
          frame_state := FrameReceiveState.Complete } := by
  have hmod : ((s.buffers a).packets_received + 1) % 2 ^ 32 = c.num_frame_packets := by
    rw [Nat.mod_eq_of_lt (by omega)]; exact heq
  have h := process_packet_pool c s n a hp
  rw [if_pos hmod, hd] at h
  simp only [Bool.false_eq_true, if_false] at h
  refine ⟨_, h, rfl, ?_⟩
  simp only [if_true]
  rw [hmod]

/-- Copies of one packet of the current frame, from the payload of one of them
to the last of the frame: the frame completes with the one mark. -/
theorem duplicates_rest (c : Constants) (f : Nat) (a : Int) (hdr : List Byte) (now : Timespec)
    (s0 : PercivalEmulatorFrameDecoder) (hN : c.num_frame_packets < 2 ^ 32)
    (hf : effective_frame c (receive_header s0 hdr) = f) (k : Nat) :
    ∀ s : PercivalEmulatorFrameDecoder,
      s.current_frame_seen_ = f → s.current_frame_header_ = .pool a →
      s.current_frame_buffer_id_ = a → s.dropping_frame_data_ = false →
      (s.buffers a).packets_received + 1 + k = c.num_frame_packets →
      ((s.buffers a).packet_state = fun t sf p =>
        if t = get_packet_type (receive_header s0 hdr) ∧
            sf = get_subframe_number (receive_header s0 hdr) ∧
            p = get_packet_number c (receive_header s0 hdr) then 1 else 0) →
      ∃ s', run_from_payload c s (List.replicate k (hdr, now)) = some s' ∧
        s'.ready_calls = s.ready_calls ++ [(a, f)] ∧
        (s'.buffers a).frame_state = FrameReceiveState.Complete ∧
        (s'.buffers a).packets_received = c.num_frame_packets ∧
        ((s'.buffers a).packet_state = fun t sf p =>
          if t = get_packet_type (receive_header s0 hdr) ∧
              sf = get_subframe_number (receive_header s0 hdr) ∧
              p = get_packet_number c (receive_header s0 hdr) then 1 else 0) := by
  induction k with
  | zero =>
    intro s hs hp hid hd hcount hps
    obtain ⟨s', h, h1, h2⟩ :=
      payload_final_state c s (get_next_payload_size c s) a hp (by simpa using hcount) hN hd
    refine ⟨s', ?_, ?_, ?_, ?_, ?_⟩
    · simp only [List.replicate_zero, run_from_payload, h, run_packets]
    · rw [h1, hs, hid]
    · rw [h2]
    · rw [h2]
    · rw [h2]; exact hps
  | succ k ih =>
    intro s hs hp hid hd hcount hps
    obtain ⟨s1, h, h1, h2, h3, h4, h5, h6⟩ :=
      payload_mid_state c s (get_next_payload_size c s) a hp (by omega) hN
    have hf1 : effective_frame c (receive_header s1 hdr) = s1.current_frame_seen_ := by
      rw [effective_frame_receive c s1 s0 hdr, hf, h1, hs]
    obtain ⟨s2, g, g1, g2, g3, g4, g5, g6⟩ :=
      header_same_pool_state c s1 hdr hdr.length now a hf1 h3
    have hps2 : (s2.buffers a).packet_state = fun t sf p =>
        if t = get_packet_type (receive_header s0 hdr) ∧
            sf = get_subframe_number (receive_header s0 hdr) ∧
            p = get_packet_number c (receive_header s0 hdr) then 1 else 0 := by
      rw [g6, h6]
      simp only
      rw [hps]
      funext t sf p
      have e1 : get_packet_type (receive_header s1 hdr) = get_packet_type (receive_header s0 hdr) :=
        rfl
      have e2 : get_subframe_number (receive_header s1 hdr) =
          get_subframe_number (receive_header s0 hdr) := rfl
      have e3 : get_packet_number c (receive_header s1 hdr) =
          get_packet_number c (receive_header s0 hdr) := rfl
      rw [e1, e2, e3]
      by_cases hc : t = get_packet_type (receive_header s0 hdr) ∧
          sf = get_subframe_number (receive_header s0 hdr) ∧
          p = get_packet_number c (receive_header s0 hdr)
      · simp only [hc, and_self, if_true]
      · simp only [hc, if_false]
    obtain ⟨s', r, r1, r2, r3, r4⟩ := ih s2 (g1.trans (h1.trans hs)) g3
      (g2.trans (h2.trans hid)) (g4.trans (h4.trans hd))
      (by rw [g6, h6]; simp only; omega) hps2
    refine ⟨s', ?_, ?_, r2, r3, r4⟩
    · simp only [List.replicate_succ, run_from_payload, h]
      rw [run_packets_cons, g]
      exact r
    · rw [r1, g5, h5]

/-- C20: every arrival is counted, duplicates included.  For more than one
packet per frame: when a packet starts a frame that gets a free buffer whose
`packet_state` is all zero, and the same packet arrives `num_frame_packets`
times in all, `process_packet` invokes ready for the buffer and the frame with
`frame_state` complete and `packets_received` = `num_frame_packets`, while
`packet_state` has the one slot of that packet set and no other.  And a mark
for a slot that is already 1 leaves the decoder, `packet_state` included, as it
is. -/
theorem C20_duplicate_packets_complete_frame (c : Constants)
    (s : PercivalEmulatorFrameDecoder) (hdr : List Byte) (now : Timespec) (a : Int)
    (rest : List Int)
    (hN1 : 1 < c.num_frame_packets) (hN : c.num_frame_packets < 2 ^ 32)
    (hseen : effective_frame c (receive_header s hdr) ≠ s.current_frame_seen_)
    (habs : map_count s.frame_buffer_map_ (effective_frame c (receive_header s hdr)) = 0)
    (hq : s.empty_buffer_queue_ = a :: rest)
    (hblank : ∀ t sf p, (s.buffers a).packet_state t sf p = 0) :
    (∃ s', run_packets c s (List.replicate c.num_frame_packets (hdr, now)) = some s' ∧
      s'.ready_calls = s.ready_calls ++ [(a, effective_frame c (receive_header s hdr))] ∧
      (s'.buffers a).frame_state = FrameReceiveState.Complete ∧
      (s'.buffers a).packets_received = c.num_frame_packets ∧
      (∀ t sf p, (s'.buffers a).packet_state t sf p =
        if t = get_packet_type (receive_header s hdr) ∧
            sf = get_subframe_number (receive_header s hdr) ∧
            p = get_packet_number c (receive_header s hdr) then 1 else 0)) ∧
    (∀ (s1 s2 : PercivalEmulatorFrameDecoder) (h : FrameHeader) (t sf p : Nat),
      read_header s1 s1.current_frame_header_ = some h → h.packet_state t sf p = 1 →
      mark_packet s1 t sf p = some s2 → s2 = s1) := by
  constructor
  · obtain ⟨k, hk⟩ : ∃ k, c.num_frame_packets = k + 1 := ⟨c.num_frame_packets - 1, by omega⟩
    have hb := bind_frame_acquire (receive_header s hdr) (effective_frame c (receive_header s hdr))
      now a rest hseen habs hq
    obtain ⟨s1, h1, e1, e2, e3, e4, e5, e6, e7⟩ :
        ∃ s1, process_packet_header c (receive_header s hdr) hdr.length now = some s1 ∧
          s1.current_frame_seen_ = effective_frame c (receive_header s hdr) ∧
          s1.current_frame_header_ = .pool a ∧
          s1.current_frame_buffer_id_ = a ∧ s1.dropping_frame_data_ = false ∧
          (s1.buffers a).packets_received = 0 ∧
          s1.ready_calls = s.ready_calls ∧
          ((s1.buffers a).packet_state = fun t sf p =>
            if t = get_packet_type (receive_header s hdr) ∧
                sf = get_subframe_number (receive_header s hdr) ∧
                p = get_packet_number c (receive_header s hdr) then 1 else 0) := by
      rw [process_packet_header_eq, hb]
      simp only [Option.bind]
      rw [mark_packet_pool _ a _ _ _ rfl]
      refine ⟨_, rfl, rfl, rfl, rfl, rfl, ?_, rfl, ?_⟩
      · simp
      · simp only [if_true]
        funext t sf p
        have hz : ((receive_header s hdr).buffers a).packet_state t sf p = 0 := hblank t sf p
        simp only [hz]
    obtain ⟨s', r, r1, r2, r3, r4⟩ := duplicates_rest c _ a hdr now s hN rfl k s1 e1 e2 e3 e4
      (by rw [e5]; omega) e7
    refine ⟨s', ?_, ?_, r2, r3, ?_⟩
    · rw [hk, List.replicate_succ, run_packets_cons]
      simp only [h1, Option.bind]
      exact r
    · rw [r1, e6]
    · intro t sf p
      rw [r4]
  · intro s1 s2 h t sf p hread hset hmark
    have hfun : (fun t1 sf1 p1 => if t1 = t ∧ sf1 = sf ∧ p1 = p then 1
        else h.packet_state t1 sf1 p1) = h.packet_state := by
      funext t1 sf1 p1
      by_cases hc : t1 = t ∧ sf1 = sf ∧ p1 = p
      · obtain ⟨rfl, rfl, rfl⟩ := hc
        simp [hset]
      · simp [hc]
    cases hp : s1.current_frame_header_ with
    | null => rw [hp] at hread; cases hread
    | dropped =>
      rw [hp] at hread
      simp only [read_header, Option.some.injEq] at hread
      rw [mark_packet_dropped s1 t sf p hp] at hmark
      cases hmark
      rw [hread, hfun, ← hread]
    | pool b =>
      rw [hp] at hread
      simp only [read_header, Option.some.injEq] at hread
      rw [mark_packet_pool s1 b t sf p hp] at hmark
      cases hmark
      rw [hread, hfun, ← hread]
      have hbuf : (fun j => if j = b then s1.buffers b else s1.buffers j) = s1.buffers := by
        funext j
        by_cases hj : j = b
        · simp [hj]
        · simp [hj]
      rw [hbuf]

/-- C20 on a fresh decoder with buffer 0: three copies of packet 1 of frame 4. -/
theorem C20_duplicate_packets_complete_frame_witness :
    (1 < example_constants.num_frame_packets ∧ example_constants.num_frame_packets < 2 ^ 32 ∧
      effective_frame example_constants (receive_header (fresh_decoder [0]) (wire_header 1 0 4 1))
        ≠ (fresh_decoder [0]).current_frame_seen_ ∧
      map_count (fresh_decoder [0]).frame_buffer_map_
        (effective_frame example_constants
          (receive_header (fresh_decoder [0]) (wire_header 1 0 4 1))) = 0 ∧
      (fresh_decoder [0]).empty_buffer_queue_ = 0 :: [] ∧
      ∀ t sf p, ((fresh_decoder [0]).buffers 0).packet_state t sf p = 0) ∧
    ((∃ s', run_packets example_constants (fresh_decoder [0])
          (List.replicate example_constants.num_frame_packets (wire_header 1 0 4 1, time_zero))
          = some s' ∧
      s'.ready_calls = (fresh_decoder [0]).ready_calls ++
        [(0, effective_frame example_constants
          (receive_header (fresh_decoder [0]) (wire_header 1 0 4 1)))] ∧
      (s'.buffers 0).frame_state = FrameReceiveState.Complete ∧
      (s'.buffers 0).packets_received = example_constants.num_frame_packets ∧
      (∀ t sf p, (s'.buffers 0).packet_state t sf p =
        if t = get_packet_type (receive_header (fresh_decoder [0]) (wire_header 1 0 4 1)) ∧
            sf = get_subframe_number (receive_header (fresh_decoder [0]) (wire_header 1 0 4 1)) ∧
            p = get_packet_number example_constants
              (receive_header (fresh_decoder [0]) (wire_header 1 0 4 1)) then 1 else 0)) ∧
    (∀ (s1 s2 : PercivalEmulatorFrameDecoder) (h : FrameHeader) (t sf p : Nat),
      read_header s1 s1.current_frame_header_ = some h → h.packet_state t sf p = 1 →
      mark_packet s1 t sf p = some s2 → s2 = s1)) :=
  ⟨⟨by decide, by decide, by decide, by decide, rfl, fun _ _ _ => rfl⟩,
    C20_duplicate_packets_complete_frame example_constants (fresh_decoder [0])
      (wire_header 1 0 4 1) time_zero 0 [] (by decide) (by decide) (by decide) (by decide) rfl
      (fun _ _ _ => rfl)⟩

end FrameReceiver

/-! # Payload regions and emission after a timeout -/

namespace FrameReceiver

/-- The region of a packet number up to `np` ends within the subframe. -/
theorem slot_within_subframe (prim np tail P : Nat) (hP : P ≤ np) :
    prim * P + (if P < np then prim else tail) ≤ np * prim + tail := by
  split_ifs with h
  · have h1 : prim * (P + 1) ≤ prim * np := Nat.mul_le_mul_left _ h
    nlinarith [h1]
  · have h2 : P = np := by omega
    subst h2
    nlinarith

/-- A payload region ends where the region of a later (type, subframe, packet
number) triple, in lexicographic order, starts, or before. -/
theorem region_before (fhs prim np tail ns T1 S1 P1 T2 S2 P2 : Nat)
    (hS1 : S1 < ns) (hP1 : P1 ≤ np) (hP2 : P2 ≤ np)
    (hlt : T1 < T2 ∨ (T1 = T2 ∧ (S1 < S2 ∨ (S1 = S2 ∧ P1 < P2)))) :
    fhs + ns * (np * prim + tail) * T1 + (np * prim + tail) * S1 + prim * P1
        + (if P1 < np then prim else tail)
      ≤ fhs + ns * (np * prim + tail) * T2 + (np * prim + tail) * S2 + prim * P2 := by
  have hslot := slot_within_subframe prim np tail P1 hP1
  have hsf : (np * prim + tail) * (S1 + 1) ≤ (np * prim + tail) * ns :=
    Nat.mul_le_mul_left _ hS1
  have z1 : 0 ≤ (np * prim + tail) * S2 := Nat.zero_le _
  have z2 : 0 ≤ prim * P2 := Nat.zero_le _
  have z3 : 0 ≤ prim * P1 := Nat.zero_le _
  rcases hlt with h | ⟨rfl, h | ⟨rfl, h⟩⟩
  · have ht : ns * (np * prim + tail) * (T1 + 1) ≤ ns * (np * prim + tail) * T2 :=
      Nat.mul_le_mul_left _ h
    generalize (if P1 < np then prim else tail) = cap at *
    nlinarith [hslot, hsf, ht, z1, z2]
  · have hs : (np * prim + tail) * (S1 + 1) ≤ (np * prim + tail) * S2 :=
      Nat.mul_le_mul_left _ h
    generalize (if P1 < np then prim else tail) = cap at *
    nlinarith [hslot, hs, z2]
  · have hp : prim * (P1 + 1) ≤ prim * P2 := Nat.mul_le_mul_left _ h
    have hlt1 : P1 < np := by omega
    rw [if_pos hlt1]
    nlinarith [hp]

/-- C21: for constants with `subframe_size` the bytes of a subframe,
total_subframe_bytes = num_primary_packets × primary_packet_size +
tail_packet_size, and `data_type_size` the bytes of `num_subframes` subframes,
and a frame buffer of frame_header_size + num_types × num_subframes ×
total_subframe_bytes bytes: for every header with type < num_types, subframe <
num_subframes and packet number ≤ num_primary_packets the payload region
[offset, offset + capacity) of `get_next_payload_buffer` and
`get_next_payload_size` starts at or after the end of the frame header and
ends inside the buffer; and the regions of two such headers that differ in
type, subframe or packet number do not overlap: one ends where the other
starts, or before, so no byte offset is in both. -/
theorem C21_payload_regions_inside_and_disjoint (c : Constants)
    (s1 s2 : PercivalEmulatorFrameDecoder) (num_types num_subframes total_subframe_bytes : Nat)
    (htotal : total_subframe_bytes =
      c.num_primary_packets * c.primary_packet_size + c.tail_packet_size)
    (hsub : c.subframe_size = total_subframe_bytes)
    (hdata : c.data_type_size = num_subframes * total_subframe_bytes)
    (ht1 : get_packet_type s1 < num_types) (hs1 : get_subframe_number s1 < num_subframes)
    (hp1 : get_packet_number c s1 ≤ c.num_primary_packets)
    (ht2 : get_packet_type s2 < num_types) (hs2 : get_subframe_number s2 < num_subframes)
    (hp2 : get_packet_number c s2 ≤ c.num_primary_packets) :
    (c.frame_header_size ≤ (get_next_payload_buffer c s1).2 ∧
      (get_next_payload_buffer c s1).2 + get_next_payload_size c s1 ≤
        c.frame_header_size + num_types * num_subframes * total_subframe_bytes) ∧
    ((get_packet_type s1, get_subframe_number s1, get_packet_number c s1) ≠
        (get_packet_type s2, get_subframe_number s2, get_packet_number c s2) →
      ((get_next_payload_buffer c s1).2 + get_next_payload_size c s1 ≤
          (get_next_payload_buffer c s2).2 ∨
        (get_next_payload_buffer c s2).2 + get_next_payload_size c s2 ≤
          (get_next_payload_buffer c s1).2) ∧
      ∀ x, ¬ (((get_next_payload_buffer c s1).2 ≤ x ∧
            x < (get_next_payload_buffer c s1).2 + get_next_payload_size c s1) ∧
          ((get_next_payload_buffer c s2).2 ≤ x ∧
            x < (get_next_payload_buffer c s2).2 + get_next_payload_size c s2))) := by
  subst htotal
  simp only [get_next_payload_buffer, get_next_payload_size, hsub, hdata]
  generalize get_packet_type s1 = T1 at *
  generalize get_subframe_number s1 = S1 at *
  generalize get_packet_number c s1 = P1 at *
  generalize get_packet_type s2 = T2 at *
  generalize get_subframe_number s2 = S2 at *
  generalize get_packet_number c s2 = P2 at *
  generalize c.frame_header_size = fhs
  generalize c.primary_packet_size = prim at *
  generalize c.num_primary_packets = np at *
  generalize c.tail_packet_size = tail at *
  refine ⟨⟨?_, ?_⟩, ?_⟩
  · omega
  · have hslot := slot_within_subframe prim np tail P1 hp1
    have hsf : (np * prim + tail) * (S1 + 1) ≤ (np * prim + tail) * num_subframes :=
      Nat.mul_le_mul_left _ hs1
    have ht : num_subframes * (np * prim + tail) * (T1 + 1) ≤
        num_subframes * (np * prim + tail) * num_types := Nat.mul_le_mul_left _ ht1
    generalize (if P1 < np then prim else tail) = cap at *
    nlinarith [hslot, hsf, ht]
  · intro hne
    have hord : (T1 < T2 ∨ (T1 = T2 ∧ (S1 < S2 ∨ (S1 = S2 ∧ P1 < P2)))) ∨
        (T2 < T1 ∨ (T2 = T1 ∧ (S2 < S1 ∨ (S2 = S1 ∧ P2 < P1)))) := by
      by_contra hcon
      apply hne
      have e1 : T1 = T2 := by omega
      have e2 : S1 = S2 := by omega
      have e3 : P1 = P2 := by omega
      rw [e1, e2, e3]
    have hdis : fhs + num_subframes * (np * prim + tail) * T1 + (np * prim + tail) * S1
          + prim * P1 + (if P1 < np then prim else tail)
        ≤ fhs + num_subframes * (np * prim + tail) * T2 + (np * prim + tail) * S2 + prim * P2 ∨
        fhs + num_subframes * (np * prim + tail) * T2 + (np * prim + tail) * S2
          + prim * P2 + (if P2 < np then prim else tail)
        ≤ fhs + num_subframes * (np * prim + tail) * T1 + (np * prim + tail) * S1 + prim * P1 := by
      rcases hord with h | h
      · exact Or.inl (region_before fhs prim np tail num_subframes T1 S1 P1 T2 S2 P2 hs1 hp1 hp2 h)
      · exact Or.inr (region_before fhs prim np tail num_subframes T2 S2 P2 T1 S1 P1 hs2 hp2 hp1 h)
    refine ⟨hdis, ?_⟩
    intro x hx
    rcases hdis with h | h <;> omega

/-- C21 at the example constants (two types, two subframes of 16896 bytes, a
buffer of 68608 bytes) for packets 2 and 1 of subframe 1 of type 1: the regions
are [68096, 68608) and [59904, 68096). -/
theorem C21_payload_regions_inside_and_disjoint_witness :
    ((16896 : Nat) = example_constants.num_primary_packets * example_constants.primary_packet_size
        + example_constants.tail_packet_size ∧
      example_constants.subframe_size = 16896 ∧ example_constants.data_type_size = 2 * 16896 ∧
      get_packet_type (receive_header (fresh_decoder [0]) (wire_header 1 1 7 2)) < 2 ∧
      get_subframe_number (receive_header (fresh_decoder [0]) (wire_header 1 1 7 2)) < 2 ∧
      get_packet_number example_constants
        (receive_header (fresh_decoder [0]) (wire_header 1 1 7 2))
          ≤ example_constants.num_primary_packets ∧
      get_packet_type (receive_header (fresh_decoder [0]) (wire_header 1 1 7 1)) < 2 ∧
      get_subframe_number (receive_header (fresh_decoder [0]) (wire_header 1 1 7 1)) < 2 ∧
      get_packet_number example_constants
        (receive_header (fresh_decoder [0]) (wire_header 1 1 7 1))
          ≤ example_constants.num_primary_packets) ∧
    (get_next_payload_buffer example_constants
        (receive_header (fresh_decoder [0]) (wire_header 1 1 7 2))).2 = 68096 ∧
    (get_next_payload_buffer example_constants
        (receive_header (fresh_decoder [0]) (wire_header 1 1 7 1))).2 = 59904 ∧
    (example_constants.frame_header_size ≤
        (get_next_payload_buffer example_constants
          (receive_header (fresh_decoder [0]) (wire_header 1 1 7 2))).2 ∧
      (get_next_payload_buffer example_constants
          (receive_header (fresh_decoder [0]) (wire_header 1 1 7 2))).2 +
        get_next_payload_size example_constants
          (receive_header (fresh_decoder [0]) (wire_header 1 1 7 2)) ≤
        example_constants.frame_header_size + 2 * 2 * 16896) :=
  ⟨⟨by decide, rfl, rfl, by decide, by decide, by decide, by decide, by decide, by decide⟩,
    rfl, rfl,
    (C21_payload_regions_inside_and_disjoint example_constants
      (receive_header (fresh_decoder [0]) (wire_header 1 1 7 2))
      (receive_header (fresh_decoder [0]) (wire_header 1 1 7 1)) 2 2 16896
      (by decide) rfl rfl (by decide) (by decide) (by decide) (by decide) (by decide)
      (by decide)).1⟩

/-- C22: on a pool of one buffer that is never returned to the free queue, the
first packet of frame 10 arrives and `monitor_buffers` times frame 10 out:
buffer 0 is passed to ready with state timed out and one packet received.  The
two other packets of frame 10 arrive after that: their headers and payloads
change the frame header of buffer 0 (`packet_state`, `packets_received`,
`frame_state`), and the last `process_packet` passes buffer 0 to ready a second
time, with state complete.  The free queue is empty before and after. -/
theorem C22_timed_out_buffer_emitted_again :
    (fresh_decoder [0]).ready_calls = [] ∧
    (run_ops example_constants (fresh_decoder [0]) timeout_calls).map (fun s =>
        (s.ready_calls, s.empty_buffer_queue_, s.frame_buffer_map_,
          (s.buffers 0).frame_state, (s.buffers 0).packets_received,
          (s.buffers 0).packet_state 1 0 1, (s.buffers 0).packet_state 1 0 2,
          s.current_frame_seen_, s.current_frame_header_))
      = some ([(0, 10)], [], [], FrameReceiveState.Timedout, 1, 0, 0, 10, BufRef.pool 0) ∧
    ((run_ops example_constants (fresh_decoder [0]) timeout_calls).bind (fun s =>
        run_ops example_constants s late_packet_calls)).map (fun s =>
        (s.ready_calls, s.empty_buffer_queue_, s.frame_buffer_map_,
          (s.buffers 0).frame_state, (s.buffers 0).packets_received,
          (s.buffers 0).packet_state 1 0 1, (s.buffers 0).packet_state 1 0 2))
      = some ([(0, 10), (0, 10)], [], [], FrameReceiveState.Complete, 3, 1, 1) ∧
    payload_calls example_constants (fresh_decoder [0]) (timeout_calls ++ late_packet_calls)
      = [(0, 10)] := by
  refine ⟨rfl, rfl, rfl, rfl⟩

end FrameReceiver

/-! # The frame count of a writing session -/

namespace filewriter

/-- The counters after `startWriting`. -/
theorem startWriting_counters (w : FileWriter) :
    (startWriting w).framesToWrite_ = w.framesToWrite_ ∧
    (w.writing_ = true → startWriting w = w) ∧
    (w.writing_ = false →
      (startWriting w).writing_ = true ∧ (startWriting w).framesWritten_ = 0) := by
  refine ⟨?_, ?_, ?_⟩
  · unfold startWriting
    cases hw : w.writing_
    · simp only [Bool.not_false, if_true]
      exact (createDataset_foldl_fields _ _).2
    · simp only [Bool.not_true, Bool.false_eq_true, if_false]
  · intro hw
    unfold startWriting
    simp only [hw, Bool.not_true, Bool.false_eq_true, if_false]
  · intro hw
    unfold startWriting
    simp only [hw, Bool.not_false, if_true, and_self]

/-- The counters after `stopWriting`. -/
theorem stopWriting_counters (w : FileWriter) :
    (stopWriting w).writing_ = false ∧
    (stopWriting w).framesWritten_ = w.framesWritten_ ∧
    (stopWriting w).framesToWrite_ = w.framesToWrite_ := by
  cases hw : w.writing_
  · unfold stopWriting
    simp only [hw, Bool.false_eq_true, if_false, and_self]
  · obtain ⟨h1, h2, h3, _⟩ := stopWriting_writing w hw
    exact ⟨h1, h2, h3⟩

/-- The counters after `processFrame`, be it with an exception. -/
theorem processFrame_counters (w : FileWriter) (frame : Frame)
    (hinv : w.writing_ = true → w.framesWritten_ < w.framesToWrite_) :
    (apply_op w (.processFrame frame)).framesToWrite_ = w.framesToWrite_ ∧
    ((apply_op w (.processFrame frame)).writing_ = true →
      (apply_op w (.processFrame frame)).framesWritten_ <
        (apply_op w (.processFrame frame)).framesToWrite_) := by
  cases hw : w.writing_
  · have h : processFrame w frame = .ok w := by
      unfold processFrame
      simp only [hw, Bool.false_eq_true, if_false]
    simp only [apply_op, h]
    exact ⟨trivial, fun h1 => absurd h1 (by simp [hw])⟩
  · have hlt := hinv hw
    cases hr : (if frame.subframe_count.isSome then writeSubFrames w frame
        else writeFrame w frame) with
    | error e =>
      have h : processFrame w frame = .error e := by
        unfold processFrame
        simp only [hw, if_true, hr]
      simp only [apply_op, h]
      exact ⟨trivial, fun _ => hlt⟩
    | ok w1 =>
      have hf : w1.writing_ = w.writing_ ∧ w1.framesToWrite_ = w.framesToWrite_ ∧
          w1.framesWritten_ = w.framesWritten_ := by
        by_cases hsub : frame.subframe_count.isSome = true
        · rw [if_pos hsub] at hr
          obtain ⟨a, _, b, c, _⟩ := writeSubFrames_fields w w1 frame hr
          exact ⟨a, b, c⟩
        · rw [if_neg hsub] at hr
          obtain ⟨a, _, b, c, _⟩ := writeFrame_fields w w1 frame hr
          exact ⟨a, b, c⟩
      obtain ⟨hf1, hf2, hf3⟩ := hf
      have h := processFrame_written w w1 frame hw hr
      simp only [apply_op, h]
      by_cases hm : w1.masterFrame_ = "" ∨ w1.masterFrame_ = frame.dataset_name
      · simp only [if_pos hm]
        by_cases he : (w1.framesWritten_ + 1) % 2 ^ 64 = w1.framesToWrite_
        · rw [if_pos he]
          obtain ⟨s1, s2, s3⟩ :=
            stopWriting_counters { w1 with framesWritten_ := (w1.framesWritten_ + 1) % 2 ^ 64 }
          refine ⟨s3.trans hf2, fun h1 => ?_⟩
          rw [s1] at h1
          exact absurd h1 (by simp)
        · rw [if_neg he]
          refine ⟨hf2, fun _ => ?_⟩
          show (w1.framesWritten_ + 1) % 2 ^ 64 < w1.framesToWrite_
          have hle := Nat.mod_le (w1.framesWritten_ + 1) (2 ^ 64)
          omega
      · simp only [if_neg hm]
        by_cases he : w1.framesWritten_ = w1.framesToWrite_
        · rw [if_pos he]
          obtain ⟨s1, s2, s3⟩ := stopWriting_counters w1
          refine ⟨s3.trans hf2, fun h1 => ?_⟩
          rw [s1] at h1
          exact absurd h1 (by simp)
        · rw [if_neg he]
          refine ⟨hf2, fun _ => ?_⟩
          omega

/-- The last steps of `configure` keep the count below the number of frames to
write, if a start of writing finds that number positive and a change of it
while writing leaves it above the count. -/
theorem frames_and_write_counters (w : FileWriter) (config : ConfigMessage)
    (hinv : w.writing_ = true → w.framesWritten_ < w.framesToWrite_)
    (hA : w.writing_ = false → (frames_and_write w config).writing_ = true →
      1 ≤ (frames_and_write w config).framesToWrite_)
    (hB : w.writing_ = true → (frames_and_write w config).writing_ = true →
      (frames_and_write w config).framesToWrite_ ≠ w.framesToWrite_ →
      w.framesWritten_ < (frames_and_write w config).framesToWrite_) :
    (frames_and_write w config).writing_ = true →
      (frames_and_write w config).framesWritten_ < (frames_and_write w config).framesToWrite_ := by
  obtain ⟨w4, hw4, e1, e2⟩ : ∃ w4, w4 = (match config.frames with
      | some v => { w with framesToWrite_ := int_to_u64 v }
      | none => w) ∧ w4.writing_ = w.writing_ ∧ w4.framesWritten_ = w.framesWritten_ := by
    refine ⟨_, rfl, ?_, ?_⟩ <;> cases config.frames <;> rfl
  have hfw : frames_and_write w config = (match config.write with
      | some true => startWriting w4
      | some false => stopWriting w4
      | none => w4) := by
    rw [hw4]; rfl
  have hsame : ∀ v : FileWriter, frames_and_write w config = v → v.writing_ = w.writing_ →
      v.framesWritten_ = w.framesWritten_ → v.writing_ = true →
      v.framesWritten_ < v.framesToWrite_ := by
    intro v hv h1 h2 h3
    have hw : w.writing_ = true := h1 ▸ h3
    rw [h2]
    by_cases heq : v.framesToWrite_ = w.framesToWrite_
    · rw [heq]; exact hinv hw
    · rw [← hv]
      exact hB hw (hv ▸ h3) (hv ▸ heq)
  cases hwr : config.write with
  | none =>
    have hv : frames_and_write w config = w4 := by rw [hfw, hwr]
    rw [hv]
    exact hsame w4 hv e1 e2
  | some b =>
    cases b with
    | false =>
      have hv : frames_and_write w config = stopWriting w4 := by rw [hfw, hwr]
      rw [hv]
      intro hw
      rw [(stopWriting_counters w4).1] at hw
      exact absurd hw (by simp)
    | true =>
      have hv : frames_and_write w config = startWriting w4 := by rw [hfw, hwr]
      obtain ⟨s1, s2, s3⟩ := startWriting_counters w4
      cases hw : w.writing_
      · have hst := s3 (e1.trans hw)
        have h1 := hA hw (by rw [hv]; exact hst.1)
        rw [hv] at h1 ⊢
        intro _
        rw [hst.2]
        omega
      · have hv2 : frames_and_write w config = w4 := by rw [hv, s2 (e1.trans hw)]
        rw [hv2]
        exact hsame w4 hv2 e1 e2

/-- One call keeps the count below the number of frames to write, if a start
of writing finds that number positive and a change of it while writing leaves
it above the count. -/
theorem apply_op_counters (w : FileWriter) (op : WriterOp)
    (hinv : w.writing_ = true → w.framesWritten_ < w.framesToWrite_)
    (hA : w.writing_ = false → (apply_op w op).writing_ = true →
      1 ≤ (apply_op w op).framesToWrite_)
    (hB : w.writing_ = true → (apply_op w op).writing_ = true →
      (apply_op w op).framesToWrite_ ≠ w.framesToWrite_ →
      w.framesWritten_ < (apply_op w op).framesToWrite_) :
    (apply_op w op).writing_ = true →
      (apply_op w op).framesWritten_ < (apply_op w op).framesToWrite_ := by
  cases op with
  | processFrame frame => exact (processFrame_counters w frame hinv).2
  | stopWriting =>
    intro hw
    have h := (stopWriting_counters w).1
    simp only [apply_op] at hw
    rw [h] at hw
    exact absurd hw (by simp)
  | startWriting =>
    simp only [apply_op] at hA hB ⊢
    obtain ⟨s1, s2, s3⟩ := startWriting_counters w
    cases hw : w.writing_
    · intro hst
      have h1 := hA hw hst
      rw [(s3 hw).2]
      omega
    · intro _
      rw [s2 hw]
      exact hinv hw
  | configure config =>
    simp only [apply_op] at hA hB ⊢
    cases hw : w.writing_
    · have hA1 := hA hw
      rw [configure_idle w config hw] at hA1 ⊢
      obtain ⟨a1, _, _, _, _⟩ := after_process_and_file_fields w config
      have ha : (after_process_and_file w config).writing_ = false := a1.trans hw
      cases hd : config.dataset with
      | none =>
        simp only [hd] at hA1 ⊢
        exact frames_and_write_counters _ config (fun h => absurd (ha ▸ h) (by simp))
          (fun _ => hA1) (fun h => absurd (ha ▸ h) (by simp))
      | some d =>
        simp only [hd] at hA1 ⊢
        cases hc : configureDataset (after_process_and_file w config) d with
        | error e =>
          simp only [hc]
          intro h
          exact absurd (ha ▸ h) (by simp)
        | ok w3 =>
          simp only [hc] at hA1 ⊢
          have h3 : w3.writing_ = false :=
            ((configureDataset_idle _ d ha).2.2 w3 hc).1
          exact frames_and_write_counters w3 config (fun h => absurd (h3 ▸ h) (by simp))
            (fun _ => hA1) (fun h => absurd (h3 ▸ h) (by simp))
    · have hB1 := hB hw
      rw [configure_writing w config hw] at hB1 ⊢
      cases hp : config.process with
      | some p => simp only [hp]; exact fun _ => hinv hw
      | none =>
        cases hf : config.file with
        | some f => simp only [hp, hf]; exact fun _ => hinv hw
        | none =>
          cases hd : config.dataset with
          | some d => simp only [hp, hf, hd]; exact fun _ => hinv hw
          | none =>
            simp only [hp, hf, hd] at hB1 ⊢
            exact frames_and_write_counters w config hinv
              (fun h => absurd (hw ▸ h) (by simp)) (fun _ => hB1)

/-- C23 as stated fails.  A default writer that is told to write 0 frames and
to start writing counts the first frame it processes: it is writing with
`framesWritten_` = 1 and `framesToWrite_` = 0, and it does not stop.  And a
writer that has written 2 of 3 frames and is told, while writing, to write 1
frame is writing with `framesWritten_` = 2 and `framesToWrite_` = 1. -/
theorem C23_frames_written_exceeds_frames_to_write :
    ((run_writer_ops FileWriter.new
          [WriterOp.configure zero_frames_write_message,
            WriterOp.processFrame (data_frame 1)]).writing_,
      (run_writer_ops FileWriter.new
          [WriterOp.configure zero_frames_write_message,
            WriterOp.processFrame (data_frame 1)]).framesWritten_,
      (run_writer_ops FileWriter.new
          [WriterOp.configure zero_frames_write_message,
            WriterOp.processFrame (data_frame 1)]).framesToWrite_) = (true, 1, 0) ∧
    ((run_writer_ops FileWriter.new
          [WriterOp.configure create_and_write_message, WriterOp.processFrame (data_frame 1),
            WriterOp.processFrame (data_frame 2)]).writing_,
      (run_writer_ops FileWriter.new
          [WriterOp.configure create_and_write_message, WriterOp.processFrame (data_frame 1),
            WriterOp.processFrame (data_frame 2)]).framesWritten_,
      (run_writer_ops FileWriter.new
          [WriterOp.configure create_and_write_message, WriterOp.processFrame (data_frame 1),
            WriterOp.processFrame (data_frame 2)]).framesToWrite_) = (true, 2, 3) ∧
    ((run_writer_ops FileWriter.new
          [WriterOp.configure create_and_write_message, WriterOp.processFrame (data_frame 1),
            WriterOp.processFrame (data_frame 2),
            WriterOp.configure one_frame_message]).writing_,
      (run_writer_ops FileWriter.new
          [WriterOp.configure create_and_write_message, WriterOp.processFrame (data_frame 1),
            WriterOp.processFrame (data_frame 2),
            WriterOp.configure one_frame_message]).framesWritten_,
      (run_writer_ops FileWriter.new
          [WriterOp.configure create_and_write_message, WriterOp.processFrame (data_frame 1),
            WriterOp.processFrame (data_frame 2),
            WriterOp.configure one_frame_message]).framesToWrite_) = (true, 2, 1) := by
  refine ⟨rfl, rfl, rfl⟩

/-- C23, amended: from a writer that is idle, or writing with `framesWritten_`
below `framesToWrite_`, for every sequence of `configure`, `startWriting`,
`stopWriting` and `processFrame` calls in which every start of writing finds
`framesToWrite_` at 1 or more and every change of `framesToWrite_` during
writing leaves it above `framesWritten_`: after every number of calls of the
sequence, a writer that is writing has `framesWritten_` below `framesToWrite_`
(so at most `framesToWrite_`). -/
theorem C23_frames_written_below_frames_to_write (w : FileWriter) (ops : List WriterOp)
    (hinv : w.writing_ = true → w.framesWritten_ < w.framesToWrite_)
    (hresp : frames_to_write_respected w ops) (n : Nat) :
    (run_writer_ops w (ops.take n)).writing_ = true →
      (run_writer_ops w (ops.take n)).framesWritten_ <
          (run_writer_ops w (ops.take n)).framesToWrite_ ∧
        (run_writer_ops w (ops.take n)).framesWritten_ ≤
          (run_writer_ops w (ops.take n)).framesToWrite_ := by
  induction ops generalizing w n with
  | nil =>
    intro hw
    simp only [List.take_nil, run_writer_ops] at hw ⊢
    exact ⟨hinv hw, Nat.le_of_lt (hinv hw)⟩
  | cons op ops ih =>
    cases n with
    | zero =>
      intro hw
      simp only [List.take_zero, run_writer_ops] at hw ⊢
      exact ⟨hinv hw, Nat.le_of_lt (hinv hw)⟩
    | succ n =>
      obtain ⟨k1, k2, k3⟩ := hresp
      simp only [List.take_succ_cons, run_writer_ops]
      exact ih (apply_op w op) (apply_op_counters w op hinv k1 k2) k3 n

/-- C23, amended, at a default writer that is told to write 0 frames while
idle, then registers the dataset `data` and starts writing 3 frames, processes
frame 1, is told to write 5 frames, and processes frames 2, 3 and 4: it is
writing with 4 of 5 frames written. -/
theorem C23_frames_written_below_frames_to_write_witness :
    ((FileWriter.new.writing_ = true → FileWriter.new.framesWritten_ < FileWriter.new.framesToWrite_) ∧
      frames_to_write_respected FileWriter.new
        [WriterOp.configure zero_frames_message, WriterOp.configure three_frames_write_message,
          WriterOp.processFrame (data_frame 1), WriterOp.configure five_frames_message,
          WriterOp.processFrame (data_frame 2), WriterOp.processFrame (data_frame 3),
          WriterOp.processFrame (data_frame 4)]) ∧
    ((run_writer_ops FileWriter.new
        ([WriterOp.configure zero_frames_message, WriterOp.configure three_frames_write_message,
          WriterOp.processFrame (data_frame 1), WriterOp.configure five_frames_message,
          WriterOp.processFrame (data_frame 2), WriterOp.processFrame (data_frame 3),
          WriterOp.processFrame (data_frame 4)].take 7)).writing_,
      (run_writer_ops FileWriter.new
        ([WriterOp.configure zero_frames_message, WriterOp.configure three_frames_write_message,
          WriterOp.processFrame (data_frame 1), WriterOp.configure five_frames_message,
          WriterOp.processFrame (data_frame 2), WriterOp.processFrame (data_frame 3),
          WriterOp.processFrame (data_frame 4)].take 7)).framesWritten_,
      (run_writer_ops FileWriter.new
        ([WriterOp.configure zero_frames_message, WriterOp.configure three_frames_write_message,
          WriterOp.processFrame (data_frame 1), WriterOp.configure five_frames_message,
          WriterOp.processFrame (data_frame 2), WriterOp.processFrame (data_frame 3),
          WriterOp.processFrame (data_frame 4)].take 7)).framesToWrite_) = (true, 4, 5) ∧
    (run_writer_ops FileWriter.new
        ([WriterOp.configure zero_frames_message, WriterOp.configure three_frames_write_message,
          WriterOp.processFrame (data_frame 1), WriterOp.configure five_frames_message,
          WriterOp.processFrame (data_frame 2), WriterOp.processFrame (data_frame 3),
          WriterOp.processFrame (data_frame 4)].take 7)).framesWritten_ <
      (run_writer_ops FileWriter.new
        ([WriterOp.configure zero_frames_message, WriterOp.configure three_frames_write_message,
          WriterOp.processFrame (data_frame 1), WriterOp.configure five_frames_message,
          WriterOp.processFrame (data_frame 2), WriterOp.processFrame (data_frame 3),
          WriterOp.processFrame (data_frame 4)].take 7)).framesToWrite_ :=
  ⟨⟨fun h => Bool.noConfusion h,
      ⟨by decide, by decide, by decide, by decide, by decide, by decide, by decide, by decide,
        by decide, by decide, by decide, by decide, by decide, by decide, trivial⟩⟩,
    rfl,
    (C23_frames_written_below_frames_to_write FileWriter.new
      [WriterOp.configure zero_frames_message, WriterOp.configure three_frames_write_message,
        WriterOp.processFrame (data_frame 1), WriterOp.configure five_frames_message,
        WriterOp.processFrame (data_frame 2), WriterOp.processFrame (data_frame 3),
        WriterOp.processFrame (data_frame 4)]
      (fun h => Bool.noConfusion h)
      ⟨by decide, by decide, by decide, by decide, by decide, by decide, by decide, by decide,
        by decide, by decide, by decide, by decide, by decide, by decide, trivial⟩ 7 rfl).1⟩

end filewriter
